import Mathlib

/-!
# Integrate-and-fire neuron with STDP: conductance kernel, synapse, neuron

A shallow embedding of `src/components/IF_with_stdp.cpp`.

* `double` is modelled by a linearly ordered field `α`; the `<cmath>` functions
  `exp` and `log` are passed in as parameters, so every definition below is a
  computable function.  The theorems about the numerical behaviour take
  `α = ℝ` with `Real.exp` and `Real.log`.  IEEE special values (NaN, ±inf) are
  outside this model, and so is rounding, except in `PreSyn.stdp_update_double`,
  which rounds the result of every arithmetic operation with `round_to_double`.
* `std::vector` is modelled by `List`; `v[i] = x` is `List.set`.
* A thrown `std::invalid_argument` is `Except.error` with the thrown message.
* Pointers (`IF_neuron*`, `PreSyn*`) are addresses (`Nat`) into a `Heap`.
* The global configuration flags of the source are gathered in `Config`.
-/

namespace IFStdp

/-! ## Configuration flags -/

/-- Spike reset options: `enum class SpikeOption`. -/
inductive SpikeOption where
  | RESET_ONSET
  | RESET_AFTER
  | NO_RESET
  deriving DecidableEq, Repr

/-- The global simulation parameters and configuration flags the component reads. -/
structure Config (α : Type) where
  dt : α
  n_steps : Nat
  Cm_option : Bool
  use_exponential_Euler : Bool
  with_adp : Bool
  with_stdp : Bool
  clipping_AHP_and_ADP : Bool
  with_dynamic_threshold_floor : Bool
  with_fatigue_threshold : Bool
  classical_IF : Bool
  spike_option : SpikeOption

section Model

variable {α : Type} [LinearOrderedField α]

/-- The values the source file assigns to the flags: `dt = 1.0`, `T = 4000`,
`n_steps = T / dt`, and the flag initialisers of lines 22-42. -/
def Config.source : Config α where
  dt := 1
  n_steps := 4000
  Cm_option := true
  use_exponential_Euler := true
  with_adp := true
  with_stdp := true
  clipping_AHP_and_ADP := true
  with_dynamic_threshold_floor := true
  with_fatigue_threshold := true
  classical_IF := false
  spike_option := SpikeOption.NO_RESET

/-! ## Conductance kernel -/

/-- Helper function to compute the normalization factor (lines 45-52). -/
def compute_normalization (exp log : α → α) (tau_rise tau_decay : α) : Except String α :=
  if tau_rise = tau_decay then
    Except.error "tau_rise must be different from tau_decay for normalization."
  else
    let t_peak := (tau_rise * tau_decay) / (tau_decay - tau_rise) * log (tau_decay / tau_rise)
    let norm := exp (-t_peak / tau_decay) - exp (-t_peak / tau_rise)
    Except.ok norm

/-- The body of the `for` loop of `g_norm` (lines 62-72), run over the spike
times in iteration order (most recent first) with the accumulator `gnorm`.
Here `t` is already shifted by the onset delay and `history_delta` already
scaled by `norm`. -/
def g_norm_loop (exp : α → α) (t tau_rise tau_decay norm spike_dt_delta history_delta : α) :
    List α → α → α
  | [], gnorm => gnorm / norm
  | s :: rest, gnorm =>
    let spike_dt := t - s
    if spike_dt ≥ 0 then
      let g_norm_contribution := exp (-spike_dt / tau_decay) - exp (-spike_dt / tau_rise)
      if spike_dt > spike_dt_delta ∧ g_norm_contribution < history_delta then
        gnorm / norm
      else
        g_norm_loop exp t tau_rise tau_decay norm spike_dt_delta history_delta rest
          (gnorm + g_norm_contribution)
    else
      g_norm_loop exp t tau_rise tau_decay norm spike_dt_delta history_delta rest gnorm

/-- Function to compute normalized synaptic conductance (lines 55-73).  The two
trailing parameters have the defaults `1000` and `0.001` in the source; every
call site of the source uses the defaults. -/
def g_norm (exp : α → α) (t : α) (spike_times : List α) (tau_rise tau_decay norm onset_delay
    spike_dt_delta history_delta : α) : α :=
  let t := t - onset_delay
  let history_delta := history_delta * norm
  g_norm_loop exp t tau_rise tau_decay norm spike_dt_delta history_delta spike_times.reverse 0

/-- The call `g_norm(t, spike_times, tau_rise, tau_decay, norm, onset_delay)` with
the default arguments `spike_dt_delta = 1000`, `history_delta = 0.001`. -/
def g_norm_default (exp : α → α) (t : α) (spike_times : List α)
    (tau_rise tau_decay norm onset_delay : α) : α :=
  g_norm exp t spike_times tau_rise tau_decay norm onset_delay 1000 0.001

/-- The analytic peak time of the unnormalized bi-exponential difference as the
specification gives it: `tau_rise·tau_decay/(tau_decay - tau_rise)·ln(tau_decay/tau_rise)`. -/
def t_peak_spec (log : α → α) (tau_rise tau_decay : α) : α :=
  tau_rise * tau_decay / (tau_decay - tau_rise) * log (tau_decay / tau_rise)

/-- The value `compute_normalization` returns when it does not throw: the
bi-exponential difference at the peak time. -/
def norm_value (exp log : α → α) (tau_rise tau_decay : α) : α :=
  exp (-t_peak_spec log tau_rise tau_decay / tau_decay) -
    exp (-t_peak_spec log tau_rise tau_decay / tau_rise)

/-- One term of the kernel sum, `g_norm_contribution` of line 65, as a function
of the spike age `Δ = spike_dt`. -/
def kernel_term (exp : α → α) (tau_rise tau_decay Δ : α) : α :=
  exp (-Δ / tau_decay) - exp (-Δ / tau_rise)

/-- The kernel value as the specification words it: the sum, over every spike
with `Δ = (t - onset_delay) - spikeTime ≥ 0`, of the term
`(exp(-Δ/tau_decay) - exp(-Δ/tau_rise)) / norm`. -/
def kernelValue_spec (exp : α → α) (t : α) (spike_times : List α)
    (tau_rise tau_decay norm onset_delay : α) : α :=
  ((spike_times.filter (fun s => 0 ≤ (t - onset_delay) - s)).map (fun s =>
    (exp (-((t - onset_delay) - s) / tau_decay) - exp (-((t - onset_delay) - s) / tau_rise))
      / norm)).sum

/-! ## Synapse -/

/-- The data members of `class PreSyn` (lines 110-131).  `source` is the address
of the source neuron. -/
structure PreSyn (α : Type) where
  receptor : String
  source : Nat
  tau_rise : α
  tau_decay : α
  E : α
  g_peak : α
  weight : α
  onset_delay : α
  voltage_gated : Bool
  g : α
  STDP_type : String
  A_pos : α
  A_neg : α
  tau_pos : α
  tau_neg : α
  norm : α
  g_k : List α

/-- The constructor `PreSyn::PreSyn` (lines 133-145); it fails when
`compute_normalization` throws.  The console output is not modelled. -/
def PreSyn.new (exp log : α → α) (n_steps : Nat) (rec : String) (src : Nat)
    (trise tdecay e g_p w delay : α) (stdp_type : String)
    (a_pos a_neg t_pos t_neg : α) (vgated : Bool) : Except String (PreSyn α) :=
  match compute_normalization exp log trise tdecay with
  | Except.error msg => Except.error msg
  | Except.ok norm =>
    Except.ok
      { receptor := rec, source := src, tau_rise := trise, tau_decay := tdecay, E := e,
        g_peak := g_p, weight := w, onset_delay := delay, voltage_gated := vgated, g := 0,
        STDP_type := stdp_type, A_pos := a_pos, A_neg := a_neg, tau_pos := t_pos,
        tau_neg := t_neg, norm := norm, g_k := List.replicate n_steps 0 }

/-- Effect of voltage-gated Mg2+ block (lines 148-152). -/
def B_NMDA (exp : α → α) (V Mg : α) : α :=
  let gamma : α := 0.33
  let beta : α := 0.062
  1.0 / (1.0 + gamma * Mg * exp (-beta * V))

/-- The member function `PreSyn::update` (lines 154-164); `syn_times` is
`source->t_postspikes`. -/
def PreSyn.update (exp : α → α) (p : PreSyn α) (syn_times : List α) (i : Nat) (t Vm : α) :
    PreSyn α :=
  let g :=
    if p.voltage_gated then
      min p.g_peak (B_NMDA exp Vm 1.0 * p.weight * p.g_peak *
        g_norm_default exp t syn_times p.tau_rise p.tau_decay p.norm p.onset_delay)
    else
      min p.g_peak (p.weight * p.g_peak *
        g_norm_default exp t syn_times p.tau_rise p.tau_decay p.norm p.onset_delay)
  { p with g := g, g_k := p.g_k.set i g }

/-- The member function `PreSyn::stdp_update` (lines 166-189): the returned
`dw` and the synapse afterwards; `src_spikes` is `source->t_postspikes`. -/
def PreSyn.stdp_update (exp : α → α) (p : PreSyn α) (src_spikes : List α) (t : α) :
    α × PreSyn α :=
  match src_spikes.getLast? with
  | none => (0, p)
  | some t_pre =>
    if p.STDP_type = "None" then (0, p)
    else
      let dt_spikes := if p.STDP_type = "Anti-Hebbian" then t_pre - t else t - t_pre
      let dw :=
        if dt_spikes > 0 then p.A_pos * exp (-dt_spikes / p.tau_pos)
        else -p.A_neg * exp (dt_spikes / p.tau_neg)
      let weight := p.weight + dw
      (dw, { p with weight := max 0 (min 1 weight) })

/-- The synapse after `k` successive calls `stdp_update(t)` with the same source
spike history (the same pairing repeated). -/
def PreSyn.stdp_repeat (exp : α → α) (p : PreSyn α) (src_spikes : List α) (t : α) :
    Nat → PreSyn α
  | 0 => p
  | k + 1 => ((PreSyn.stdp_repeat exp p src_spikes t k).stdp_update exp src_spikes t).2

/-- A Hebbian AMPA synapse with the time constants (`0.5`, `3` ms), reversal
potential, initial weight, onset delay and STDP parameters the source's `main`
uses for AMPA, its normalization computed as `compute_normalization` does, and
source neuron at address `0`. -/
def AMPA_example (exp log : α → α) : PreSyn α where
  receptor := "AMPA"
  source := 0
  tau_rise := 0.5
  tau_decay := 3
  E := 0
  g_peak := 20.58
  weight := 0.5
  onset_delay := 1.1
  voltage_gated := false
  g := 0
  STDP_type := "Hebbian"
  A_pos := 0.01
  A_neg := 0.01
  tau_pos := 20
  tau_neg := 20
  norm := norm_value exp log 0.5 3
  g_k := List.replicate 4000 0

/-! ## Neuron -/

/-- The anonymous `samples` struct of `IF_neuron` (lines 262-269). -/
structure Samples (α : Type) where
  fAHP : List α
  sAHP : List α
  ADP : List α
  Vm : List α
  dV : List α
  V_th_adaptive : List α

/-- The data members of `class IF_neuron` (lines 194-276).  `presyn` holds the
addresses of the incoming `PreSyn` objects.  `last_spike_idx` is a `double`
that starts at `-INFINITY` and is otherwise a step index: `none` is
`-INFINITY`. -/
structure IF_neuron (α : Type) where
  id : String
  force_spikes : List α
  presyn : List Nat
  V_rest : α
  V_th : α
  V_reset : α
  R_m : α
  C_m : α
  tau_m : α
  g_L : α
  refractory_period : α
  V_spike_depol : α
  reset_done : Bool
  E_AHP : α
  tau_rise_fAHP : α
  tau_decay_fAHP : α
  g_peak_fAHP : α
  g_peak_fAHP_max : α
  Kd_fAHP : α
  g_fAHP : α
  tau_rise_sAHP : α
  tau_decay_sAHP : α
  g_peak_sAHP : α
  g_peak_sAHP_max : α
  Kd_sAHP : α
  g_sAHP : α
  AHP_saturation_model : String
  fatigue : α
  fatigue_threshold : α
  tau_fatigue_recovery : α
  E_ADP : α
  tau_rise_ADP : α
  tau_decay_ADP : α
  g_peak_ADP : α
  ADP_saturation_multiplier : α
  g_peak_ADP_max : α
  tau_recovery_ADP : α
  ADP_depletion : α
  a_ADP : α
  g_ADP : α
  ADP_saturation_model : String
  h_spike : α
  dh_spike : α
  tau_h : α
  dV_th : α
  V_th_floor : α
  delta_floor_per_spike : α
  tau_floor_decay : α
  Vm : α
  last_spike_idx : Option Nat
  t_last_spike : α
  t_postspikes : List α
  samples : Samples α
  spike_train : List Bool
  norm_fAHP : α
  norm_sAHP : α
  norm_ADP : α

/-- The objects the pointers of the program refer to: the neuron and the
synapse stored at each address. -/
structure Heap (α : Type) where
  neuron : Nat → IF_neuron α
  syn : Nat → PreSyn α

/-- Store a neuron at an address. -/
def Heap.setNeuron (h : Heap α) (a : Nat) (n : IF_neuron α) : Heap α :=
  { h with neuron := Function.update h.neuron a n }

/-- Store a synapse at an address. -/
def Heap.setSyn (h : Heap α) (a : Nat) (p : PreSyn α) : Heap α :=
  { h with syn := Function.update h.syn a p }

/-- The members as `IF_neuron::IF_neuron` leaves them (default member
initialisers of lines 199-258 and constructor body, lines 278-316), given the
three normalizations computed at lines 319-321. -/
def IF_neuron.init (cfg : Config α) (neuron_id : String) (f_spikes : List α)
    (p_syn : List Nat) (norm_fAHP norm_sAHP norm_ADP : α) : IF_neuron α :=
  let R_m : α := 100.0 / 1000
  let C_m : α := 100
  let V_th : α := -50
  let V_rest : α := -70
  let g_peak_ADP : α := if cfg.with_adp then 0.3 else 0.0
  let ADP_saturation_multiplier : α := 2.0
  let zeros : List α := List.replicate cfg.n_steps 0.0
  { id := neuron_id, force_spikes := f_spikes, presyn := p_syn,
    V_rest := V_rest, V_th := V_th, V_reset := -55, R_m := R_m, C_m := C_m,
    tau_m := R_m * C_m, g_L := 1.0 / R_m, refractory_period := 2,
    V_spike_depol := 30, reset_done := true,
    E_AHP := -90, tau_rise_fAHP := 2.5, tau_decay_fAHP := 30, g_peak_fAHP := 3.0,
    g_peak_fAHP_max := 5, Kd_fAHP := 1.5, g_fAHP := 0.0,
    tau_rise_sAHP := 30, tau_decay_sAHP := 300, g_peak_sAHP := 1.0,
    g_peak_sAHP_max := 2.0, Kd_sAHP := 0.3, g_sAHP := 0.0,
    AHP_saturation_model := if cfg.clipping_AHP_and_ADP then "clip" else "sigmoidal",
    fatigue := 0.0, fatigue_threshold := 300, tau_fatigue_recovery := 1000,
    E_ADP := -20, tau_rise_ADP := 20, tau_decay_ADP := 200, g_peak_ADP := g_peak_ADP,
    ADP_saturation_multiplier := ADP_saturation_multiplier,
    g_peak_ADP_max := g_peak_ADP * ADP_saturation_multiplier,
    tau_recovery_ADP := 300, ADP_depletion := 0.3, a_ADP := 1.0, g_ADP := 0.0,
    ADP_saturation_model := if cfg.clipping_AHP_and_ADP then "clip" else "resource",
    h_spike := 1.0, dh_spike := 0.2, tau_h := 50, dV_th := 10,
    V_th_floor := V_th, delta_floor_per_spike := 1.0, tau_floor_decay := 500,
    Vm := V_rest, last_spike_idx := none, t_last_spike := -1000, t_postspikes := [],
    samples :=
      { fAHP := zeros, sAHP := zeros, ADP := zeros, Vm := zeros, dV := zeros,
        V_th_adaptive := zeros },
    spike_train := List.replicate cfg.n_steps false,
    norm_fAHP := norm_fAHP, norm_sAHP := norm_sAHP, norm_ADP := norm_ADP }

/-- The constructor `IF_neuron::IF_neuron` (lines 278-326); it fails when a
`compute_normalization` throws.  The console output is not modelled. -/
def IF_neuron.new (cfg : Config α) (exp log : α → α) (neuron_id : String)
    (f_spikes : List α) (p_syn : List Nat) : Except String (IF_neuron α) :=
  match compute_normalization exp log 2.5 30 with
  | Except.error msg => Except.error msg
  | Except.ok norm_fAHP =>
    match compute_normalization exp log 30 300 with
    | Except.error msg => Except.error msg
    | Except.ok norm_sAHP =>
      match compute_normalization exp log 20 200 with
      | Except.error msg => Except.error msg
      | Except.ok norm_ADP =>
        Except.ok (IF_neuron.init cfg neuron_id f_spikes p_syn norm_fAHP norm_sAHP norm_ADP)

/-- The call `p->stdp_update(t)` on the synapse at address `p`: the synapse reads
the spike history of its source neuron from the heap.  The returned `dw` is
discarded by the caller. -/
def stdp_update_at (exp : α → α) (t : α) (h : Heap α) (p : Nat) : Heap α :=
  h.setSyn p ((h.syn p).stdp_update exp (h.neuron (h.syn p).source).t_postspikes t).2

/-- The call `p->update(i, t, Vm)` on the synapse at address `p`. -/
def syn_update_at (exp : α → α) (i : Nat) (t Vm : α) (h : Heap α) (p : Nat) : Heap α :=
  h.setSyn p ((h.syn p).update exp (h.neuron (h.syn p).source).t_postspikes i t Vm)

/-!
In the member functions below the statements are kept in source order, one
`let` per statement or block.  A guarded assignment `if (c) { x = e; }` is
written as the assignment `x := if c then e else x`.
-/

/-- The effect of `IF_neuron::spike` on the neuron's own members (lines 333-365):
everything except the STDP loop. -/
def IF_neuron.spike_members (cfg : Config α) (n : IF_neuron α) (i : Nat) (t : α) :
    IF_neuron α :=
  -- Spike logging (lines 334-337)
  let n := { n with
    spike_train := n.spike_train.set i true
    last_spike_idx := some i
    t_last_spike := t
    t_postspikes := n.t_postspikes ++ [t] }
  -- Membrane potential reset (lines 340-347): classical `Vm = V_reset`; otherwise
  -- `V_reset = Vm` under NO_RESET, then `Vm = V_spike_depol`
  let n := { n with
    V_reset :=
      if ¬ cfg.classical_IF ∧ cfg.spike_option = SpikeOption.NO_RESET then n.Vm else n.V_reset
    Vm := if cfg.classical_IF then n.V_reset else n.V_spike_depol }
  let n := { n with reset_done := false }
  -- Threshold effects (lines 352-360)
  let n := { n with fatigue := if cfg.with_fatigue_threshold then n.fatigue + 1 else n.fatigue }
  let n := { n with h_spike := n.h_spike - n.dh_spike }
  let n := { n with
    V_th_floor :=
      if cfg.with_dynamic_threshold_floor then n.V_th_floor + n.delta_floor_per_spike
      else n.V_th_floor }
  -- ADP saturation (lines 363-365)
  { n with
    a_ADP := if n.ADP_saturation_model ≠ "clip" then n.a_ADP - n.ADP_depletion else n.a_ADP }

/-- The member function `IF_neuron::spike` (lines 332-373) of the neuron at
address `self`. -/
def IF_neuron.spike (cfg : Config α) (exp : α → α) (self : Nat) (i : Nat) (t : α)
    (h : Heap α) : Heap α :=
  let h := h.setNeuron self ((h.neuron self).spike_members cfg i t)
  -- STDP (lines 368-372)
  if cfg.with_stdp then (h.neuron self).presyn.foldl (stdp_update_at exp t) h else h

/-- The forced spike that is due at time `t`, if any: the test
`!force_spikes.empty()` and `t >= force_spikes[0]` of lines 376-377. -/
def forced_due (force_spikes : List α) (t : α) : Option α :=
  match force_spikes with
  | [] => none
  | f :: _ => if t ≥ f then some f else none

/-- The statement `force_spikes.erase(force_spikes.begin())` (line 379) on the
neuron at address `self`. -/
def erase_forced_head (self : Nat) (h : Heap α) : Heap α :=
  h.setNeuron self { h.neuron self with force_spikes := (h.neuron self).force_spikes.tail }

/-- The member function `IF_neuron::check_spiking` (lines 375-391). -/
def IF_neuron.check_spiking (cfg : Config α) (exp : α → α) (self : Nat) (i : Nat) (t : α)
    (V_th_adaptive : α) (h : Heap α) : Heap α :=
  match forced_due (h.neuron self).force_spikes t with
  | some f => erase_forced_head self (IF_neuron.spike cfg exp self i f h)
  | none =>
    if cfg.with_fatigue_threshold ∧ (h.neuron self).fatigue > (h.neuron self).fatigue_threshold
    then h
    else if (h.neuron self).Vm ≥ V_th_adaptive then IF_neuron.spike cfg exp self i t h
    else h

/-- Saturation of an after-hyperpolarization conductance (lines 401-405 and
408-412). -/
def AHP_saturate (model : String) (g_linear g_peak_max Kd : α) : α :=
  if model = "clip" then min g_linear g_peak_max
  else g_peak_max * (g_linear / (g_linear + Kd))

/-- The second half of `IF_neuron::update_conductances` (lines 399-421): the
neuron's own fAHP, sAHP and ADP conductances. -/
def IF_neuron.update_own_conductances (cfg : Config α) (exp : α → α) (n : IF_neuron α)
    (t : α) : IF_neuron α :=
  let g_fAHP_linear := n.g_peak_fAHP *
    g_norm_default exp t n.t_postspikes n.tau_rise_fAHP n.tau_decay_fAHP n.norm_fAHP 0
  let n := { n with
    g_fAHP := AHP_saturate n.AHP_saturation_model g_fAHP_linear n.g_peak_fAHP_max n.Kd_fAHP }
  let g_sAHP_linear := n.g_peak_sAHP *
    g_norm_default exp t n.t_postspikes n.tau_rise_sAHP n.tau_decay_sAHP n.norm_sAHP 0
  let n := { n with
    g_sAHP := AHP_saturate n.AHP_saturation_model g_sAHP_linear n.g_peak_sAHP_max n.Kd_sAHP }
  let g_ADP_linear := n.g_peak_ADP *
    g_norm_default exp t n.t_postspikes n.tau_rise_ADP n.tau_decay_ADP n.norm_ADP 0
  -- the `else` branch first recovers and clamps `a_ADP` (lines 418-419)
  let a := max 0.0 (min 1.0 (n.a_ADP + (1 - n.a_ADP) * cfg.dt / n.tau_recovery_ADP))
  { n with
    a_ADP := if n.ADP_saturation_model = "clip" then n.a_ADP else a
    g_ADP :=
      if n.ADP_saturation_model = "clip" then min g_ADP_linear n.g_peak_ADP_max
      else a * g_ADP_linear }

/-- The member function `IF_neuron::update_conductances` (lines 393-422). -/
def IF_neuron.update_conductances (cfg : Config α) (exp : α → α) (self : Nat) (i : Nat)
    (t : α) (h : Heap α) : Heap α :=
  -- Update PSP conductances
  let h := (h.neuron self).presyn.foldl
    (fun h p => syn_update_at exp i t (h.neuron self).Vm h p) h
  -- Update fAHP, sAHP, ADP conductances
  h.setNeuron self ((h.neuron self).update_own_conductances cfg exp t)

/-- The member function `IF_neuron::update_currents` (lines 424-434); the
synapses are read from the heap. -/
def IF_neuron.update_currents (n : IF_neuron α) (h : Heap α) : α :=
  let I := n.g_fAHP * (n.Vm - n.E_AHP) + n.g_sAHP * (n.Vm - n.E_AHP) +
    n.g_ADP * (n.Vm - n.E_ADP)
  n.presyn.foldl (fun I p => I + (h.syn p).g * (n.Vm - (h.syn p).E)) I

/-- The member function `IF_neuron::update_membrane_potential_forward_Euler`
(lines 436-441): the neuron afterwards and the returned `dV`.  The source
writes `samples.dV[i]`; `i` is the step index of the calling update. -/
def IF_neuron.update_membrane_potential_forward_Euler (cfg : Config α) (n : IF_neuron α)
    (i : Nat) (I : α) : IF_neuron α × α :=
  let dV := (-(n.Vm - n.V_rest) + n.R_m * (-I)) * cfg.dt / n.tau_m
  ({ n with samples := { n.samples with dV := n.samples.dV.set i dV }, Vm := n.Vm + dV }, dV)

/-- The sums `sum_g` and `sum_gE` over the incoming synapses (lines 445-451 and
460-466). -/
def presyn_sums (h : Heap α) (presyn : List Nat) : α × α :=
  presyn.foldl (fun acc p => (acc.1 + (h.syn p).g, acc.2 + (h.syn p).g * (h.syn p).E)) (0.0, 0.0)

/-- The member function `IF_neuron::update_membrane_potential_exponential_Euler_Rm`
(lines 443-457); the synapses are read from the heap. -/
def IF_neuron.update_membrane_potential_exponential_Euler_Rm (cfg : Config α) (exp : α → α)
    (n : IF_neuron α) (h : Heap α) : IF_neuron α :=
  let tau_eff := n.tau_m / (1 + n.R_m * (n.g_fAHP + n.g_sAHP + n.g_ADP))
  let sum_g := (presyn_sums h n.presyn).1
  let sum_gE := (presyn_sums h n.presyn).2
  let V_inf := (n.g_fAHP * n.E_AHP + n.g_sAHP * n.E_AHP + n.g_ADP * n.E_ADP + sum_gE +
      (1 / n.R_m) * n.V_rest) /
    (n.g_fAHP + n.g_sAHP + n.g_ADP + sum_g + (1 / n.R_m))
  { n with Vm := V_inf + (n.Vm - V_inf) * exp (-cfg.dt / tau_eff) }

/-- The member function `IF_neuron::update_membrane_potential_exponential_Euler_Cm`
(lines 459-477); the synapses are read from the heap. -/
def IF_neuron.update_membrane_potential_exponential_Euler_Cm (cfg : Config α) (exp : α → α)
    (n : IF_neuron α) (h : Heap α) : IF_neuron α :=
  let sum_g := (presyn_sums h n.presyn).1
  let sum_gE := (presyn_sums h n.presyn).2
  let g_total := n.g_L + n.g_fAHP + n.g_sAHP + n.g_ADP + sum_g
  let E_total := (n.g_L * n.V_rest + n.g_fAHP * n.E_AHP + n.g_sAHP * n.E_AHP +
      n.g_ADP * n.E_ADP + sum_gE) / g_total
  let tau_eff := n.C_m / g_total
  { n with Vm := E_total + (n.Vm - E_total) * exp (-cfg.dt / tau_eff) }

/-- The member function `IF_neuron::update_adaptive_threshold` (lines 479-490):
the neuron afterwards and the returned `V_th_adaptive`. -/
def IF_neuron.update_adaptive_threshold (cfg : Config α) (n : IF_neuron α) (i : Nat) :
    IF_neuron α × α :=
  let n := { n with h_spike := n.h_spike + cfg.dt * (1 - n.h_spike) / n.tau_h }
  let n := { n with
    V_th_floor :=
      if cfg.with_dynamic_threshold_floor then
        n.V_th_floor - cfg.dt * (n.V_th_floor - n.V_th) / n.tau_floor_decay
      else n.V_th_floor }
  let V_th_adaptive := max (n.V_th + n.dV_th * (1 - n.h_spike)) n.V_th_floor
  ({ n with samples := { n.samples with
      V_th_adaptive := n.samples.V_th_adaptive.set i V_th_adaptive } }, V_th_adaptive)

/-- The member function `IF_neuron::update_with_classical_reset_clamp`
(lines 492-506). -/
def IF_neuron.update_with_classical_reset_clamp (cfg : Config α) (exp : α → α) (self : Nat)
    (i : Nat) (t : α) (h : Heap α) : Heap α :=
  let n := h.neuron self
  let I := n.update_currents h
  if t < n.t_last_spike + n.refractory_period then
    h.setNeuron self { n with Vm := n.V_reset }
  else
    let n := (n.update_membrane_potential_forward_Euler cfg i I).1
    let r := n.update_adaptive_threshold cfg i
    -- Check possible spiking:
    IF_neuron.check_spiking cfg exp self i t r.2 (h.setNeuron self r.1)

/-- The integration step of `IF_neuron::update_with_reset_options`
(lines 516-526): the neuron afterwards and `dV`. -/
def IF_neuron.integrate (cfg : Config α) (exp : α → α) (n : IF_neuron α) (h : Heap α)
    (i : Nat) : IF_neuron α × α :=
  if cfg.use_exponential_Euler then
    if ¬ cfg.Cm_option then (n.update_membrane_potential_exponential_Euler_Rm cfg exp h, 0)
    else (n.update_membrane_potential_exponential_Euler_Cm cfg exp h, 0)
  else
    n.update_membrane_potential_forward_Euler cfg i (n.update_currents h)

/-- The statements of `IF_neuron::update_with_reset_options` before the
refractory gate (lines 509-528): the reset at spike onset, the integration
step and the adaptive threshold.  The result is the neuron, `dV` and
`V_th_adaptive`. -/
def IF_neuron.before_refractory_gate (cfg : Config α) (exp : α → α) (n : IF_neuron α)
    (h : Heap α) (i : Nat) : IF_neuron α × α × α :=
  -- (Option:) Spike onset drives membrane potential below threshold.
  let n := { n with
    Vm :=
      if cfg.spike_option = SpikeOption.RESET_ONSET ∧ n.last_spike_idx.map (· + 1) = some i
      then n.V_reset else n.Vm }
  let r := n.integrate cfg exp h i
  let a := r.1.update_adaptive_threshold cfg i
  (a.1, r.2, a.2)

/-- The member function `IF_neuron::update_with_reset_options` (lines 508-540). -/
def IF_neuron.update_with_reset_options (cfg : Config α) (exp : α → α) (self : Nat)
    (i : Nat) (t : α) (h : Heap α) : Heap α :=
  let r := (h.neuron self).before_refractory_gate cfg exp h i
  let n := r.1
  let dV := r.2.1
  let V_th_adaptive := r.2.2
  if t ≥ n.t_last_spike + n.refractory_period then
    -- (Option:) Drive membrane potential below threshold after absolute refractory period.
    let n := { n with
      Vm :=
        if cfg.spike_option ≠ SpikeOption.RESET_ONSET ∧ ¬ n.reset_done then n.V_reset + dV
        else n.Vm
      reset_done :=
        if cfg.spike_option ≠ SpikeOption.RESET_ONSET ∧ ¬ n.reset_done then true
        else n.reset_done }
    -- Check possible spiking:
    IF_neuron.check_spiking cfg exp self i t V_th_adaptive (h.setNeuron self n)
  else h.setNeuron self n

/-- The fatigue recovery at the start of `IF_neuron::update` (lines 544-547). -/
def IF_neuron.recover_fatigue (cfg : Config α) (n : IF_neuron α) : IF_neuron α :=
  { n with
    fatigue :=
      if cfg.with_fatigue_threshold then max (n.fatigue - cfg.dt / n.tau_fatigue_recovery) 0.0
      else n.fatigue }

/-- The member function `IF_neuron::update` (lines 542-556) of the neuron at
address `self`. -/
def IF_neuron.update (cfg : Config α) (exp : α → α) (self : Nat) (i : Nat) (t : α)
    (h : Heap α) : Heap α :=
  -- Hard-cap nonlinear spiking fatigue threshold.
  let h := h.setNeuron self ((h.neuron self).recover_fatigue cfg)
  let h := IF_neuron.update_conductances cfg exp self i t h
  if cfg.classical_IF then IF_neuron.update_with_classical_reset_clamp cfg exp self i t h
  else IF_neuron.update_with_reset_options cfg exp self i t h

/-- The member function `IF_neuron::record` (lines 558-563). -/
def IF_neuron.record (n : IF_neuron α) (i : Nat) : IF_neuron α :=
  { n with samples := { n.samples with
      Vm := n.samples.Vm.set i n.Vm
      fAHP := n.samples.fAHP.set i n.g_fAHP
      sAHP := n.samples.sAHP.set i n.g_sAHP
      ADP := n.samples.ADP.set i n.g_ADP } }

/-- The effect of `IF_neuron::check_spiking` (lines 375-391) on the neuron's own
members: `spike` is replaced by its member updates `spike_members`. -/
def IF_neuron.check_spiking_members (cfg : Config α) (n : IF_neuron α) (i : Nat)
    (t V_th_adaptive : α) : IF_neuron α :=
  match forced_due n.force_spikes t with
  | some f => { n.spike_members cfg i f with force_spikes := n.force_spikes.tail }
  | none =>
    if cfg.with_fatigue_threshold ∧ n.fatigue > n.fatigue_threshold then n
    else if n.Vm ≥ V_th_adaptive then n.spike_members cfg i t
    else n

/-- The neuron as `update_with_classical_reset_clamp` (lines 492-502) or
`update_with_reset_options` (lines 508-535) leaves it just before the spike
check, with the threshold passed to `check_spiking`; the threshold is `none`
when the refractory gate skips the check.  Here `n` is the neuron after
`update_conductances` and the synapses are read from the heap `h`. -/
def IF_neuron.before_check (cfg : Config α) (exp : α → α) (n : IF_neuron α) (h : Heap α)
    (i : Nat) (t : α) : IF_neuron α × Option α :=
  if cfg.classical_IF then
    if t < n.t_last_spike + n.refractory_period then ({ n with Vm := n.V_reset }, none)
    else
      (((n.update_membrane_potential_forward_Euler cfg i (n.update_currents h)).1
          |>.update_adaptive_threshold cfg i).1,
       some ((n.update_membrane_potential_forward_Euler cfg i (n.update_currents h)).1
          |>.update_adaptive_threshold cfg i).2)
  else
    if t ≥ (n.before_refractory_gate cfg exp h i).1.t_last_spike +
        (n.before_refractory_gate cfg exp h i).1.refractory_period then
      ({ (n.before_refractory_gate cfg exp h i).1 with
          Vm :=
            if cfg.spike_option ≠ SpikeOption.RESET_ONSET ∧
                ¬ (n.before_refractory_gate cfg exp h i).1.reset_done then
              (n.before_refractory_gate cfg exp h i).1.V_reset +
                (n.before_refractory_gate cfg exp h i).2.1
            else (n.before_refractory_gate cfg exp h i).1.Vm
          reset_done :=
            if cfg.spike_option ≠ SpikeOption.RESET_ONSET ∧
                ¬ (n.before_refractory_gate cfg exp h i).1.reset_done then true
            else (n.before_refractory_gate cfg exp h i).1.reset_done },
       some (n.before_refractory_gate cfg exp h i).2.2)
    else ((n.before_refractory_gate cfg exp h i).1, none)

/-- The heap after the fatigue recovery and `update_conductances` of
`IF_neuron::update` (lines 544-549). -/
def IF_neuron.after_conductances (cfg : Config α) (exp : α → α) (self : Nat) (i : Nat)
    (t : α) (h : Heap α) : Heap α :=
  IF_neuron.update_conductances cfg exp self i t
    (h.setNeuron self ((h.neuron self).recover_fatigue cfg))

/-- A run of the neuron at address `self`: the successive calls `update(i, t)`
for the pairs `(i, t)` of `steps`, in order. -/
def IF_neuron.run (cfg : Config α) (exp : α → α) (self : Nat) (steps : List (Nat × α))
    (h : Heap α) : Heap α :=
  steps.foldl (fun h s => IF_neuron.update cfg exp self s.1 s.2 h) h

/-- The spike-dependent state as the constructor leaves it (default member
initialisers of lines 208, 246, 257, 259 and line 306 of the constructor): no
recorded spike, no last spike index, `reset_done`, `h_spike = 1.0` and
`V_th_floor = V_th`.  The parameters are left free: they are public members
and `main` reassigns some of them after construction. -/
def IF_neuron.constructed (n : IF_neuron α) : Prop :=
  n.t_postspikes = [] ∧ n.last_spike_idx = none ∧ n.reset_done = true ∧ n.h_spike = 1.0 ∧
    n.V_th_floor = n.V_th

/-- The heaps reachable from the construction of the neuron at address `self`
by `update` and `spike` calls on that neuron. -/
inductive Reachable (cfg : Config α) (exp : α → α) (self : Nat) : Heap α → Prop where
  | constructed (h : Heap α) : (h.neuron self).constructed → Reachable cfg exp self h
  | update (h : Heap α) (i : Nat) (t : α) :
      Reachable cfg exp self h → Reachable cfg exp self (IF_neuron.update cfg exp self i t h)
  | spike (h : Heap α) (i : Nat) (t : α) :
      Reachable cfg exp self h → Reachable cfg exp self (IF_neuron.spike cfg exp self i t h)

/-- A heap holding one neuron, at every address, and the AMPA example synapse
at every synapse address. -/
def Heap.single (exp log : α → α) (n : IF_neuron α) : Heap α where
  neuron := fun _ => n
  syn := fun _ => AMPA_example exp log

/-- A freshly constructed neuron under the source's configuration with one
forced spike scheduled at `100` ms and no incoming synapses. -/
def fresh_example (exp log : α → α) : IF_neuron α :=
  IF_neuron.init Config.source "PyrIn" [100] [] (norm_value exp log 2.5 30)
    (norm_value exp log 30 300) (norm_value exp log 20 200)

/-- A neuron under the source's configuration that has just fired its forced
spike scheduled at `100` ms (at step `100`) and whose next forced spike is
scheduled at `101` ms, inside the 2 ms refractory period. -/
def refractory_example (exp log : α → α) : IF_neuron α :=
  { (IF_neuron.init Config.source "PyrIn" [100, 101] [] (norm_value exp log 2.5 30)
      (norm_value exp log 30 300) (norm_value exp log 20 200)).spike_members
      Config.source 100 100 with force_spikes := [101] }

/-- The freshly constructed example neuron with its fatigue raised to `400`,
above the fatigue threshold `300`. -/
def fatigued_example (exp log : α → α) : IF_neuron α :=
  { fresh_example exp log with fatigue := 400 }

/-- A freshly constructed neuron under the source's configuration with one
incoming synapse, the AMPA example synapse with its conductance at `10` nS. -/
def driven_example (exp log : α → α) : Heap α where
  neuron := fun _ =>
    IF_neuron.init Config.source "PyrOut" [] [0] (norm_value exp log 2.5 30)
      (norm_value exp log 30 300) (norm_value exp log 20 200)
  syn := fun _ => { AMPA_example exp log with g := 10 }

/-! ## The circuit configured by `main` and its simulation loop -/

/-- The local `g_total` of `update_membrane_potential_exponential_Euler_Cm`
(line 468); the synapses are read from the heap. -/
def IF_neuron.g_total (n : IF_neuron α) (h : Heap α) : α :=
  n.g_L + n.g_fAHP + n.g_sAHP + n.g_ADP + (presyn_sums h n.presyn).1

/-- The local `E_total` of `update_membrane_potential_exponential_Euler_Cm`
(lines 469-473). -/
def IF_neuron.E_total (n : IF_neuron α) (h : Heap α) : α :=
  (n.g_L * n.V_rest + n.g_fAHP * n.E_AHP + n.g_sAHP * n.E_AHP + n.g_ADP * n.E_ADP +
    (presyn_sums h n.presyn).2) / n.g_total h

/-- The neuron, `dV` and `V_th_adaptive` as `update(i, t)` has them in
`update_with_reset_options` just before the refractory gate (line 530). -/
def IF_neuron.gate_input (cfg : Config α) (exp : α → α) (self : Nat) (i : Nat) (t : α)
    (h : Heap α) : IF_neuron α × α × α :=
  ((IF_neuron.after_conductances cfg exp self i t h).neuron self).before_refractory_gate cfg exp
    (IF_neuron.after_conductances cfg exp self i t h) i

/-- The neuron as `update(i, t)` brings it to the call of `check_spiking`
(line 504 or 538), or leaves it when the refractory gate skips the call. -/
def IF_neuron.at_check (cfg : Config α) (exp : α → α) (self : Nat) (i : Nat) (t : α)
    (h : Heap α) : IF_neuron α :=
  (((IF_neuron.after_conductances cfg exp self i t h).neuron self).before_check cfg exp
    (IF_neuron.after_conductances cfg exp self i t h) i t).1

/-- A freshly constructed neuron under the source's configuration with forced
spikes scheduled every refractory period (`2` ms) from `0` to `10` ms and no
incoming synapses. -/
def rapid_example (exp log : α → α) : IF_neuron α :=
  IF_neuron.init Config.source "PyrIn" [0, 2, 4, 6, 8, 10] [] (norm_value exp log 2.5 30)
    (norm_value exp log 30 300) (norm_value exp log 20 200)

/-- The update calls of the first `11` steps of a simulation with `dt = 1`:
step `i` at time `t = i`. -/
def rapid_steps : List (Nat × α) :=
  [(0, 0), (1, 1), (2, 2), (3, 3), (4, 4), (5, 5), (6, 6), (7, 7), (8, 8), (9, 9), (10, 10)]

end Model

/-! ## Synapse: weight and plasticity -/

section Synapse

variable {α : Type} [LinearOrderedField α]

/-- C2: the synaptic weight never leaves `[0,1]`.  `PreSyn::update` does not
touch the weight, so a weight in `[0,1]` stays there; `PreSyn::stdp_update`
leaves a weight in `[0,1]` in `[0,1]`; and whenever `stdp_update` applies a
change (kind is not `None`, source history non-empty) the new weight is in
`[0,1]` whatever the prior weight was. -/
theorem weight_stays_in_unit_interval (exp : α → α) (p : PreSyn α) (hist : List α)
    (i : Nat) (t Vm : α) :
    (0 ≤ p.weight ∧ p.weight ≤ 1 →
      0 ≤ (p.update exp hist i t Vm).weight ∧ (p.update exp hist i t Vm).weight ≤ 1) ∧
    (0 ≤ p.weight ∧ p.weight ≤ 1 →
      0 ≤ (p.stdp_update exp hist t).2.weight ∧ (p.stdp_update exp hist t).2.weight ≤ 1) ∧
    (p.STDP_type ≠ "None" → hist ≠ [] →
      0 ≤ (p.stdp_update exp hist t).2.weight ∧ (p.stdp_update exp hist t).2.weight ≤ 1) := by
  have clamp : ∀ w : α, 0 ≤ max 0 (min 1 w) ∧ max 0 (min 1 w) ≤ 1 := fun w =>
    ⟨le_max_left _ _, max_le zero_le_one (min_le_left _ _)⟩
  refine ⟨fun hw => hw, fun hw => ?_, fun hk hh => ?_⟩
  · unfold PreSyn.stdp_update
    cases hist.getLast? with
    | none => exact hw
    | some t_pre =>
      by_cases hk : p.STDP_type = "None"
      · simpa [hk] using hw
      · simp [hk]
  · unfold PreSyn.stdp_update
    cases hl : hist.getLast? with
    | none => exact absurd (List.getLast?_eq_none_iff.mp hl) hh
    | some t_pre => simp [hk]

/-- C3: for a Hebbian or Anti-Hebbian synapse whose source history is non-empty
(`older ++ [t_pre]`), `stdp_update(t)` pairs `t` with the last entry `t_pre`
only: with `Δt = t - t_pre` (Hebbian) or `t_pre - t` (Anti-Hebbian) and
`dw = A_pos·exp(-Δt/tau_pos)` if `Δt > 0`, `-A_neg·exp(Δt/tau_neg)` otherwise, it
sets the weight to `clamp(weight + dw, 0, 1)`, changes nothing else and returns
the unclamped `dw`; so any two histories with the same last entry give the
same `dw` and the same new synapse. -/
theorem stdp_update_pairs_with_last_spike (exp : α → α) (p : PreSyn α) (older : List α)
    (t_pre t : α) (hk : p.STDP_type = "Hebbian" ∨ p.STDP_type = "Anti-Hebbian") :
    (p.stdp_update exp (older ++ [t_pre]) t =
      (if 0 < (if p.STDP_type = "Hebbian" then t - t_pre else t_pre - t) then
          p.A_pos * exp (-((if p.STDP_type = "Hebbian" then t - t_pre else t_pre - t) / p.tau_pos))
        else
          -(p.A_neg * exp ((if p.STDP_type = "Hebbian" then t - t_pre else t_pre - t) / p.tau_neg)),
       { p with weight := max 0 (min 1 (p.weight +
          (if 0 < (if p.STDP_type = "Hebbian" then t - t_pre else t_pre - t) then
            p.A_pos * exp (-((if p.STDP_type = "Hebbian" then t - t_pre else t_pre - t) /
              p.tau_pos))
          else
            -(p.A_neg * exp ((if p.STDP_type = "Hebbian" then t - t_pre else t_pre - t) /
              p.tau_neg))))) })) ∧
    ∀ older2 : List α,
      p.stdp_update exp (older2 ++ [t_pre]) t = p.stdp_update exp (older ++ [t_pre]) t := by
  have hnone : p.STDP_type ≠ "None" := by
    rcases hk with hk | hk <;> rw [hk] <;> decide
  have e : ∀ a b c : α, -((a - b) / c) = (b - a) / c := fun a b c => by
    rw [← neg_div, neg_sub]
  constructor
  · rcases hk with hk | hk
    · have h1 : ¬ (p.STDP_type = "Anti-Hebbian") := by rw [hk]; decide
      simp [PreSyn.stdp_update, hnone, h1, hk, neg_div, e]
    · have h1 : ¬ (p.STDP_type = "Hebbian") := by rw [hk]; decide
      simp [PreSyn.stdp_update, hnone, h1, hk, neg_div, e]
  · intro older2
    simp [PreSyn.stdp_update]

/-- C4: `stdp_update(t)` is a no-op returning `0` whenever the STDP kind is
`None` or the source neuron has no recorded spikes: every field of the synapse,
the weight included, is unchanged, for every `t` and every prior weight. -/
theorem stdp_update_noop (exp : α → α) (p : PreSyn α) (hist : List α) (t : α)
    (h : p.STDP_type = "None" ∨ hist = []) :
    p.stdp_update exp hist t = (0, p) := by
  unfold PreSyn.stdp_update
  rcases h with h | h
  · cases hist.getLast? <;> simp [h]
  · simp [h]

end Synapse

/-! ## Conductance kernel: failure and evaluation -/

section Kernel

variable {α : Type} [LinearOrderedField α]

/-- C5: `compute_normalization(tau_rise, tau_decay)` throws the invalid-argument
error exactly when `tau_rise == tau_decay` and returns a value for every pair
with `tau_rise != tau_decay`; constructing a `PreSyn` with
`tau_rise == tau_decay` fails with the same error. -/
theorem compute_normalization_fails_iff_equal (exp log : α → α) (tau_rise tau_decay : α) :
    (compute_normalization exp log tau_rise tau_decay =
        Except.error "tau_rise must be different from tau_decay for normalization." ↔
      tau_rise = tau_decay) ∧
    (tau_rise ≠ tau_decay → ∃ v, compute_normalization exp log tau_rise tau_decay = Except.ok v) ∧
    (tau_rise = tau_decay →
      ∀ (n_steps : Nat) (rec : String) (src : Nat) (e g_p w delay : α) (stdp_type : String)
        (a_pos a_neg t_pos t_neg : α) (vgated : Bool),
        PreSyn.new exp log n_steps rec src tau_rise tau_decay e g_p w delay stdp_type
            a_pos a_neg t_pos t_neg vgated =
          Except.error "tau_rise must be different from tau_decay for normalization.") := by
  refine ⟨⟨fun h => ?_, fun h => ?_⟩, fun h => ?_, fun h => ?_⟩
  · by_contra hne
    simp [compute_normalization, hne] at h
  · simp [compute_normalization, h]
  · simp [compute_normalization, h]
  · intros
    simp [PreSyn.new, compute_normalization, h]

/-- The scan of `g_norm` over spikes that all lie after `t` adds nothing. -/
theorem g_norm_loop_all_later (exp : α → α) (t tau_rise tau_decay norm sdd hdelta : α)
    (l : List α) (gnorm : α) (h : ∀ s ∈ l, t < s) :
    g_norm_loop exp t tau_rise tau_decay norm sdd hdelta l gnorm = gnorm / norm := by
  induction l generalizing gnorm with
  | nil => rfl
  | cons s rest ih =>
    have hs : ¬ (t - s ≥ 0) := by
      have := h s (List.mem_cons_self _ _)
      simp only [ge_iff_le, sub_nonneg, not_le]
      exact this
    simp only [g_norm_loop, hs, if_false]
    exact ih gnorm (fun x hx => h x (List.mem_cons_of_mem _ hx))

/-- C8: for `norm ≠ 0` (the returned `gnorm / norm` is `0 / 0` otherwise),
`g_norm` returns `0` for every `t` when the spike history is empty, and it is
causal: for every spike history and onset delay it returns `0` whenever
`t - onset_delay` is earlier than every spike time in the history; in
particular, for a non-decreasing history, for every `t` before the first spike
plus the onset delay. -/
theorem g_norm_empty_and_causal (exp : α → α) (t tau_rise tau_decay norm onset_delay
    spike_dt_delta history_delta : α) (hnorm : norm ≠ 0) :
    g_norm exp t [] tau_rise tau_decay norm onset_delay spike_dt_delta history_delta = 0 ∧
    (∀ spike_times : List α, (∀ s ∈ spike_times, t - onset_delay < s) →
      g_norm exp t spike_times tau_rise tau_decay norm onset_delay spike_dt_delta
        history_delta = 0) ∧
    (∀ (first : α) (rest : List α), List.Pairwise (· ≤ ·) (first :: rest) →
      t < first + onset_delay →
      g_norm exp t (first :: rest) tau_rise tau_decay norm onset_delay spike_dt_delta
        history_delta = 0) := by
  have causal : ∀ spike_times : List α, (∀ s ∈ spike_times, t - onset_delay < s) →
      g_norm exp t spike_times tau_rise tau_decay norm onset_delay spike_dt_delta
        history_delta = 0 := by
    intro spike_times h
    unfold g_norm
    rw [g_norm_loop_all_later exp _ _ _ _ _ _ _ _ (fun s hs => h s (List.mem_reverse.mp hs))]
    exact (div_eq_iff hnorm).mpr (zero_mul norm).symm
  have hempty : g_norm exp t [] tau_rise tau_decay norm onset_delay spike_dt_delta
      history_delta = 0 / norm := rfl
  refine ⟨hempty.trans ((div_eq_iff hnorm).mpr (zero_mul norm).symm), fun l h => causal l h,
    fun first rest hp ht => ?_⟩
  apply causal
  have h1 : t - onset_delay < first := sub_lt_iff_lt_add.mpr ht
  intro s hs
  rcases List.mem_cons.mp hs with rfl | hs
  · exact h1
  · exact lt_of_lt_of_le h1 (List.rel_of_pairwise_cons hp hs)

/-- The scan of `g_norm` over spikes none of which is older than the horizon
never stops early: it adds the term of every spike with `t - s ≥ 0`. -/
theorem g_norm_loop_within_horizon (exp : α → α) (t tau_rise tau_decay norm sdd hdelta : α)
    (l : List α) (gnorm : α) (h : ∀ s ∈ l, t - s ≤ sdd) :
    g_norm_loop exp t tau_rise tau_decay norm sdd hdelta l gnorm =
      (gnorm + ((l.filter (fun s => 0 ≤ t - s)).map (fun s =>
        exp (-(t - s) / tau_decay) - exp (-(t - s) / tau_rise))).sum) / norm := by
  induction l generalizing gnorm with
  | nil => simp [g_norm_loop]
  | cons s rest ih =>
    have hs : ¬ (t - s > sdd) := not_lt.mpr (h s (List.mem_cons_self _ _))
    have ih2 := fun g => ih g (fun x hx => h x (List.mem_cons_of_mem _ hx))
    by_cases h0 : 0 ≤ t - s
    · simp only [g_norm_loop, ge_iff_le, h0, if_true, hs, false_and, if_false, ih2,
        List.filter_cons, decide_True, List.map_cons, List.sum_cons, add_assoc]
    · simp only [g_norm_loop, ge_iff_le, h0, if_false, ih2, List.filter_cons, decide_False]
      simp

/-- C9: for every spike history in which no spike is older than the horizon
(every spike has `(t - onset_delay) - spikeTime ≤ 1000`), `g_norm` with the
default horizon and cutoff equals exactly the sum, over every spike with
`Δ = (t - onset_delay) - spikeTime ≥ 0`, of
`(exp(-Δ/tau_decay) - exp(-Δ/tau_rise)) / norm`; spikes with `Δ < 0` contribute
nothing. -/
theorem g_norm_eq_kernel_sum (exp : α → α) (t : α) (spike_times : List α)
    (tau_rise tau_decay norm onset_delay : α)
    (h : ∀ s ∈ spike_times, (t - onset_delay) - s ≤ 1000) :
    g_norm_default exp t spike_times tau_rise tau_decay norm onset_delay =
      kernelValue_spec exp t spike_times tau_rise tau_decay norm onset_delay := by
  unfold g_norm_default g_norm kernelValue_spec
  rw [g_norm_loop_within_horizon exp _ _ _ _ _ _ _ _ (fun s hs => h s (List.mem_reverse.mp hs))]
  rw [zero_add, List.filter_reverse, List.map_reverse, List.sum_reverse]
  simp only [div_eq_mul_inv]
  rw [List.sum_map_mul_right]

end Kernel

/-! ## Conductance kernel over the reals: sign and peak of the normalization -/

section RealKernel

/-- The peak time is positive for positive, distinct time constants in either
order. -/
theorem t_peak_pos (tau_rise tau_decay : ℝ) (hr : 0 < tau_rise) (hd : 0 < tau_decay)
    (hne : tau_rise ≠ tau_decay) : 0 < t_peak_spec Real.log tau_rise tau_decay := by
  unfold t_peak_spec
  rcases lt_or_gt_of_ne hne with h | h
  · have h1 : 0 < tau_decay - tau_rise := sub_pos.mpr h
    have h2 : 0 < Real.log (tau_decay / tau_rise) :=
      Real.log_pos ((one_lt_div hr).mpr h)
    positivity
  · have h1 : tau_decay - tau_rise < 0 := sub_neg.mpr h
    have h2 : Real.log (tau_decay / tau_rise) < 0 :=
      Real.log_neg (div_pos hd hr) ((div_lt_one hr).mpr h)
    have h3 : tau_rise * tau_decay / (tau_decay - tau_rise) < 0 :=
      div_neg_of_pos_of_neg (mul_pos hr hd) h1
    exact mul_pos_of_neg_of_neg h3 h2

/-- At the peak time the two exponentials are in the ratio of the time
constants: the derivative of the bi-exponential difference vanishes there. -/
theorem exp_ratio_at_t_peak (tau_rise tau_decay : ℝ) (hr : 0 < tau_rise) (hd : 0 < tau_decay)
    (hne : tau_rise ≠ tau_decay) :
    Real.exp (-t_peak_spec Real.log tau_rise tau_decay / tau_decay) =
      tau_decay / tau_rise * Real.exp (-t_peak_spec Real.log tau_rise tau_decay / tau_rise) := by
  have hsub : tau_decay - tau_rise ≠ 0 := sub_ne_zero.mpr (Ne.symm hne)
  have key : -t_peak_spec Real.log tau_rise tau_decay / tau_decay =
      Real.log (tau_decay / tau_rise) +
        -t_peak_spec Real.log tau_rise tau_decay / tau_rise := by
    unfold t_peak_spec
    field_simp
    ring
  rw [key, Real.exp_add, Real.exp_log (div_pos hd hr)]

/-- Bernoulli's inequality for the exponential: `p·(e^u - 1) ≤ e^(p·u) - 1` for
`p ≥ 1`. -/
theorem exp_bernoulli (u p : ℝ) (hp : 1 ≤ p) :
    p * (Real.exp u - 1) ≤ Real.exp (u * p) - 1 := by
  have h := one_add_mul_self_le_rpow_one_add
    (show (-1 : ℝ) ≤ Real.exp u - 1 by linarith [Real.exp_pos u]) hp
  rw [show (1 : ℝ) + (Real.exp u - 1) = Real.exp u by ring, ← Real.exp_mul] at h
  linarith

/-- The difference `exp(-a·x) - exp(-b·x)` with `0 < a < b` is largest at a
point `tp` where `a·exp(-a·tp) = b·exp(-b·tp)`. -/
theorem biexp_le_peak (a b tp x : ℝ) (ha : 0 < a) (hab : a < b)
    (hpk : a * Real.exp (-(a * tp)) = b * Real.exp (-(b * tp))) :
    Real.exp (-(a * x)) - Real.exp (-(b * x)) ≤
      Real.exp (-(a * tp)) - Real.exp (-(b * tp)) := by
  have hb : 0 < b := lt_trans ha hab
  have hp : 1 ≤ b / a := (one_le_div ha).mpr hab.le
  have hB := exp_bernoulli (-(a * (x - tp))) (b / a) hp
  have e1 : -(a * (x - tp)) * (b / a) = -(b * (x - tp)) := by
    field_simp
    ring
  rw [e1] at hB
  have eA : Real.exp (-(a * x)) = Real.exp (-(a * tp)) * Real.exp (-(a * (x - tp))) := by
    rw [← Real.exp_add]
    congr 1
    ring
  have eB : Real.exp (-(b * x)) = Real.exp (-(b * tp)) * Real.exp (-(b * (x - tp))) := by
    rw [← Real.exp_add]
    congr 1
    ring
  have hBpos : 0 < Real.exp (-(b * tp)) := Real.exp_pos _
  have hA : Real.exp (-(a * tp)) = b / a * Real.exp (-(b * tp)) := by
    field_simp
    linarith
  have h2 := mul_le_mul_of_nonneg_left hB hBpos.le
  rw [eA, eB, hA]
  nlinarith [h2]

/-- Unfolding a successful `compute_normalization`: the time constants differ
and the result is the bi-exponential difference at the peak time. -/
theorem compute_normalization_ok (tau_rise tau_decay norm : ℝ)
    (h : compute_normalization Real.exp Real.log tau_rise tau_decay = Except.ok norm) :
    tau_rise ≠ tau_decay ∧
    norm = Real.exp (-t_peak_spec Real.log tau_rise tau_decay / tau_decay) -
      Real.exp (-t_peak_spec Real.log tau_rise tau_decay / tau_rise) := by
  by_cases hne : tau_rise = tau_decay
  · simp [compute_normalization, hne] at h
  · refine ⟨hne, ?_⟩
    simp only [compute_normalization, hne, if_false, Except.ok.injEq] at h
    rw [← h]
    rfl

/-- One term of the kernel, `exp(-Δ/tau_decay) - exp(-Δ/tau_rise)`, compared with
the normalization: for `tau_rise < tau_decay` every term with `Δ ≥ 0` lies in
`[0, norm]` and `norm > 0`; for `tau_rise > tau_decay` it lies in `[norm, 0]`
and `norm < 0`. -/
theorem term_between_zero_and_norm (tau_rise tau_decay norm : ℝ) (hr : 0 < tau_rise)
    (hd : 0 < tau_decay)
    (h : compute_normalization Real.exp Real.log tau_rise tau_decay = Except.ok norm) :
    (tau_rise < tau_decay → 0 < norm ∧ ∀ x : ℝ, 0 ≤ x →
      0 ≤ Real.exp (-x / tau_decay) - Real.exp (-x / tau_rise) ∧
      Real.exp (-x / tau_decay) - Real.exp (-x / tau_rise) ≤ norm) ∧
    (tau_decay < tau_rise → norm < 0 ∧ ∀ x : ℝ, 0 ≤ x →
      Real.exp (-x / tau_decay) - Real.exp (-x / tau_rise) ≤ 0 ∧
      norm ≤ Real.exp (-x / tau_decay) - Real.exp (-x / tau_rise)) := by
  obtain ⟨hne, hn⟩ := compute_normalization_ok _ _ _ h
  have htp := t_peak_pos tau_rise tau_decay hr hd hne
  have hratio := exp_ratio_at_t_peak tau_rise tau_decay hr hd hne
  set tp := t_peak_spec Real.log tau_rise tau_decay with htpdef
  have cv : ∀ (x τ : ℝ), -x / τ = -(τ⁻¹ * x) := fun x τ => by
    rw [neg_div, div_eq_inv_mul]
  have mono : ∀ (τ₁ τ₂ x : ℝ), 0 < τ₁ → τ₁ < τ₂ → 0 ≤ x →
      Real.exp (-x / τ₁) ≤ Real.exp (-x / τ₂) := by
    intro τ₁ τ₂ x h1 h12 hx
    apply Real.exp_le_exp.mpr
    rw [neg_div, neg_div, neg_le_neg_iff]
    exact div_le_div_of_nonneg_left hx h1 h12.le
  have smono : ∀ (τ₁ τ₂ x : ℝ), 0 < τ₁ → τ₁ < τ₂ → 0 < x →
      Real.exp (-x / τ₁) < Real.exp (-x / τ₂) := by
    intro τ₁ τ₂ x h1 h12 hx
    apply Real.exp_lt_exp.mpr
    rw [neg_div, neg_div, neg_lt_neg_iff]
    exact div_lt_div_of_pos_left hx h1 h12
  constructor
  · intro hlt
    refine ⟨?_, fun x hx => ⟨?_, ?_⟩⟩
    · rw [hn]
      exact sub_pos.mpr (smono _ _ _ hr hlt htp)
    · exact sub_nonneg.mpr (mono _ _ _ hr hlt hx)
    · rw [hn, cv x, cv x, cv tp, cv tp]
      apply biexp_le_peak _ _ _ _ (inv_pos.mpr hd) (inv_strictAnti₀ hr hlt)
      rw [← cv, ← cv, hratio]
      field_simp
  · intro hlt
    refine ⟨?_, fun x hx => ⟨?_, ?_⟩⟩
    · rw [hn]
      exact sub_neg.mpr (smono _ _ _ hd hlt htp)
    · exact sub_nonpos.mpr (mono _ _ _ hd hlt hx)
    · have := biexp_le_peak tau_rise⁻¹ tau_decay⁻¹ tp x (inv_pos.mpr hr)
        (inv_strictAnti₀ hd hlt) (by
          rw [← cv, ← cv, hratio]
          field_simp)
      rw [hn, cv x, cv x, cv tp, cv tp]
      linarith

/-- The scan of `g_norm` keeps a non-negative normalized sum non-negative when
every term it can add is non-negative after division by `norm`. -/
theorem g_norm_loop_nonneg (t tau_rise tau_decay norm sdd hdelta : ℝ)
    (hterm : ∀ x : ℝ, 0 ≤ x →
      0 ≤ (Real.exp (-x / tau_decay) - Real.exp (-x / tau_rise)) / norm)
    (l : List ℝ) (gnorm : ℝ) (hg : 0 ≤ gnorm / norm) :
    0 ≤ g_norm_loop Real.exp t tau_rise tau_decay norm sdd hdelta l gnorm := by
  induction l generalizing gnorm with
  | nil => exact hg
  | cons s rest ih =>
    unfold g_norm_loop
    by_cases h0 : t - s ≥ 0
    · simp only [h0, if_true]
      split
      · exact hg
      · apply ih
        rw [add_div]
        exact add_nonneg hg (hterm _ h0)
    · simp only [h0, if_false]
      exact ih gnorm hg

/-- With the normalization of `compute_normalization`, `g_norm` is non-negative
for positive time constants in either order. -/
theorem g_norm_nonneg (t : ℝ) (l : List ℝ) (tau_rise tau_decay norm onset sdd hdelta : ℝ)
    (hr : 0 < tau_rise) (hd : 0 < tau_decay)
    (h : compute_normalization Real.exp Real.log tau_rise tau_decay = Except.ok norm) :
    0 ≤ g_norm Real.exp t l tau_rise tau_decay norm onset sdd hdelta := by
  obtain ⟨hne, -⟩ := compute_normalization_ok _ _ _ h
  obtain ⟨hA, hB⟩ := term_between_zero_and_norm tau_rise tau_decay norm hr hd h
  unfold g_norm
  apply g_norm_loop_nonneg
  · intro x hx
    rcases lt_or_gt_of_ne hne with hlt | hlt
    · exact div_nonneg ((hA hlt).2 x hx).1 (hA hlt).1.le
    · exact div_nonneg_of_nonpos ((hB hlt).2 x hx).1 (hB hlt).1.le
  · simp

/-- The Mg2+ block factor over the reals is positive. -/
theorem B_NMDA_pos (V : ℝ) : 0 < B_NMDA Real.exp V 1.0 := by
  unfold B_NMDA
  have := Real.exp_pos (-0.062 * V)
  positivity

/-- C1: for every synapse with `g_peak ≥ 0`, weight in `[0,1]`, positive
`tau_rise ≠ tau_decay` and `norm = compute_normalization(tau_rise, tau_decay)`,
every source spike history, in-range step index `i`, time `t` and postsynaptic
voltage `Vm` (voltage-gated or not), `PreSyn::update` leaves the conductance `g`
with `0 ≤ g ≤ g_peak` and stores that same value in the history buffer at
index `i`.  (`tau_rise ≠ tau_decay` is implied by the successful normalization,
and of the weight only `0 ≤ weight` is needed.) -/
theorem update_conductance_in_range (p : PreSyn ℝ) (syn_times : List ℝ) (i : Nat) (t Vm : ℝ)
    (hg : 0 ≤ p.g_peak) (hw0 : 0 ≤ p.weight)
    (hr : 0 < p.tau_rise) (hd : 0 < p.tau_decay)
    (hnorm : compute_normalization Real.exp Real.log p.tau_rise p.tau_decay = Except.ok p.norm)
    (hi : i < p.g_k.length) :
    0 ≤ (p.update Real.exp syn_times i t Vm).g ∧
    (p.update Real.exp syn_times i t Vm).g ≤ p.g_peak ∧
    (p.update Real.exp syn_times i t Vm).g_k[i]? = some (p.update Real.exp syn_times i t Vm).g := by
  have hk := g_norm_nonneg t syn_times p.tau_rise p.tau_decay p.norm p.onset_delay 1000 0.001
    hr hd hnorm
  have hB := B_NMDA_pos Vm
  refine ⟨?_, ?_, ?_⟩
  · unfold PreSyn.update g_norm_default
    by_cases hv : p.voltage_gated
    · simp only [hv, if_true]
      exact le_min hg (by positivity)
    · simp only [hv]
      exact le_min hg (by positivity)
  · unfold PreSyn.update
    by_cases hv : p.voltage_gated
    · simp only [hv, if_true]
      exact min_le_left _ _
    · simp only [hv]
      exact min_le_left _ _
  · simp [PreSyn.update, List.getElem?_set_self hi]

/-- C1 instantiated at the AMPA example synapse, history `[100]`, step `101`,
`t = 101`, `Vm = -70`. -/
theorem update_conductance_in_range_witness :
    0 ≤ ((AMPA_example Real.exp Real.log).update Real.exp [100] 101 101 (-70)).g ∧
    ((AMPA_example Real.exp Real.log).update Real.exp [100] 101 101 (-70)).g ≤ 20.58 ∧
    ((AMPA_example Real.exp Real.log).update Real.exp [100] 101 101 (-70)).g_k[101]? =
      some ((AMPA_example Real.exp Real.log).update Real.exp [100] 101 101 (-70)).g :=
  update_conductance_in_range (AMPA_example Real.exp Real.log) [100] 101 101 (-70)
    (by norm_num [AMPA_example]) (by norm_num [AMPA_example])
    (by norm_num [AMPA_example]) (by norm_num [AMPA_example])
    (by norm_num [AMPA_example, compute_normalization, norm_value, t_peak_spec])
    (by
      show 101 < (List.replicate 4000 (0 : ℝ)).length
      rw [List.length_replicate]
      norm_num)

end RealKernel

/-! ## Neuron: heap frame lemmas -/

section HeapAccess

variable {α : Type}

/-- Reading back a neuron just stored. -/
theorem Heap.setNeuron_neuron_self (h : Heap α) (a : Nat) (n : IF_neuron α) :
    (h.setNeuron a n).neuron a = n := by
  simp [Heap.setNeuron]

/-- Storing a synapse leaves every neuron as it was. -/
theorem Heap.setSyn_neuron (h : Heap α) (a : Nat) (p : PreSyn α) :
    (h.setSyn a p).neuron = h.neuron := rfl

end HeapAccess

section NeuronFrame

variable {α : Type} [LinearOrderedField α]

/-- The conductance updates of the incoming synapses leave every neuron as it
was. -/
theorem foldl_syn_update_neuron (exp : α → α) (i : Nat) (t : α) (self : Nat) (l : List Nat)
    (h : Heap α) :
    (l.foldl (fun h p => syn_update_at exp i t (h.neuron self).Vm h p) h).neuron = h.neuron := by
  induction l generalizing h with
  | nil => rfl
  | cons p rest ih =>
    rw [List.foldl_cons, ih]
    rfl

/-- The STDP updates of the incoming synapses leave every neuron as it was. -/
theorem foldl_stdp_update_neuron (exp : α → α) (t : α) (l : List Nat) (h : Heap α) :
    (l.foldl (stdp_update_at exp t) h).neuron = h.neuron := by
  induction l generalizing h with
  | nil => rfl
  | cons p rest ih =>
    rw [List.foldl_cons, ih]
    rfl

/-- The neuron at `self` after `spike` is the neuron after the member updates
of `spike`: the STDP loop only writes synapses. -/
theorem spike_neuron_self (cfg : Config α) (exp : α → α) (self i : Nat) (t : α) (h : Heap α) :
    (IF_neuron.spike cfg exp self i t h).neuron self = (h.neuron self).spike_members cfg i t := by
  unfold IF_neuron.spike
  by_cases hs : cfg.with_stdp
  · simp only [hs, if_true, foldl_stdp_update_neuron, Heap.setNeuron_neuron_self]
  · simp [hs, Heap.setNeuron_neuron_self]

/-- The spike bookkeeping written by the member updates of `spike`. -/
theorem spike_members_bookkeeping (cfg : Config α) (n : IF_neuron α) (i : Nat) (t : α) :
    (n.spike_members cfg i t).spike_train = n.spike_train.set i true ∧
    (n.spike_members cfg i t).t_postspikes = n.t_postspikes ++ [t] ∧
    (n.spike_members cfg i t).force_spikes = n.force_spikes ∧
    (n.spike_members cfg i t).t_last_spike = t :=
  ⟨rfl, rfl, rfl, rfl⟩

/-- The integration step writes only `Vm` and the `dV` samples. -/
theorem integrate_bookkeeping (cfg : Config α) (exp : α → α) (n : IF_neuron α) (h : Heap α)
    (i : Nat) :
    (n.integrate cfg exp h i).1.force_spikes = n.force_spikes ∧
    (n.integrate cfg exp h i).1.t_postspikes = n.t_postspikes ∧
    (n.integrate cfg exp h i).1.spike_train = n.spike_train ∧
    (n.integrate cfg exp h i).1.t_last_spike = n.t_last_spike ∧
    (n.integrate cfg exp h i).1.refractory_period = n.refractory_period := by
  unfold IF_neuron.integrate
  split
  · split <;> exact ⟨rfl, rfl, rfl, rfl, rfl⟩
  · exact ⟨rfl, rfl, rfl, rfl, rfl⟩

/-- The statements before the refractory gate leave the spike bookkeeping, the
forced-spike queue and the refractory period as they were. -/
theorem before_refractory_gate_bookkeeping (cfg : Config α) (exp : α → α) (n : IF_neuron α)
    (h : Heap α) (i : Nat) :
    (n.before_refractory_gate cfg exp h i).1.force_spikes = n.force_spikes ∧
    (n.before_refractory_gate cfg exp h i).1.t_postspikes = n.t_postspikes ∧
    (n.before_refractory_gate cfg exp h i).1.spike_train = n.spike_train ∧
    (n.before_refractory_gate cfg exp h i).1.t_last_spike = n.t_last_spike ∧
    (n.before_refractory_gate cfg exp h i).1.refractory_period = n.refractory_period := by
  obtain ⟨h1, h2, h3, h4, h5⟩ := integrate_bookkeeping cfg exp
    { n with Vm :=
        if cfg.spike_option = SpikeOption.RESET_ONSET ∧ n.last_spike_idx.map (· + 1) = some i
        then n.V_reset else n.Vm } h i
  exact ⟨h1, h2, h3, h4, h5⟩

/-- The neuron at `self` after the fatigue recovery and `update_conductances`:
its spike bookkeeping, forced-spike queue and refractory period are as
before. -/
theorem update_conductances_bookkeeping (cfg : Config α) (exp : α → α) (self i : Nat) (t : α)
    (h : Heap α) :
    ((IF_neuron.update_conductances cfg exp self i t
        (h.setNeuron self ((h.neuron self).recover_fatigue cfg))).neuron self).force_spikes =
      (h.neuron self).force_spikes ∧
    ((IF_neuron.update_conductances cfg exp self i t
        (h.setNeuron self ((h.neuron self).recover_fatigue cfg))).neuron self).t_postspikes =
      (h.neuron self).t_postspikes ∧
    ((IF_neuron.update_conductances cfg exp self i t
        (h.setNeuron self ((h.neuron self).recover_fatigue cfg))).neuron self).spike_train =
      (h.neuron self).spike_train ∧
    ((IF_neuron.update_conductances cfg exp self i t
        (h.setNeuron self ((h.neuron self).recover_fatigue cfg))).neuron self).t_last_spike =
      (h.neuron self).t_last_spike ∧
    ((IF_neuron.update_conductances cfg exp self i t
        (h.setNeuron self ((h.neuron self).recover_fatigue cfg))).neuron self).refractory_period =
      (h.neuron self).refractory_period := by
  unfold IF_neuron.update_conductances
  simp only [Heap.setNeuron_neuron_self, foldl_syn_update_neuron]
  exact ⟨rfl, rfl, rfl, rfl, rfl⟩

/-- A due forced spike fires in `check_spiking`: the neuron at `self` afterwards
is the neuron after the member updates of `spike` at the scheduled time, with
the head of the forced-spike queue erased. -/
theorem check_spiking_forced (cfg : Config α) (exp : α → α) (self i : Nat) (t f V : α)
    (rest : List α) (h : Heap α) (hq : (h.neuron self).force_spikes = f :: rest) (ht : t ≥ f) :
    ((IF_neuron.check_spiking cfg exp self i t V h).neuron self).spike_train =
      (h.neuron self).spike_train.set i true ∧
    ((IF_neuron.check_spiking cfg exp self i t V h).neuron self).t_postspikes =
      (h.neuron self).t_postspikes ++ [f] ∧
    ((IF_neuron.check_spiking cfg exp self i t V h).neuron self).force_spikes = rest := by
  have hdue : forced_due (h.neuron self).force_spikes t = some f := by
    rw [hq]
    simp [forced_due, ht]
  unfold IF_neuron.check_spiking
  rw [hdue]
  simp only [erase_forced_head, Heap.setNeuron_neuron_self, spike_neuron_self]
  refine ⟨rfl, rfl, ?_⟩
  show (h.neuron self).force_spikes.tail = rest
  rw [hq]
  rfl

/-- Inside the refractory window (`t < t_last_spike + refractory_period`) an
update leaves the forced-spike queue, the spike history and the spike record
of the neuron as they were, in both modes. -/
theorem update_in_refractory_bookkeeping (cfg : Config α) (exp : α → α) (self i : Nat)
    (t : α) (h : Heap α)
    (href : t < (h.neuron self).t_last_spike + (h.neuron self).refractory_period) :
    ((IF_neuron.update cfg exp self i t h).neuron self).force_spikes =
      (h.neuron self).force_spikes ∧
    ((IF_neuron.update cfg exp self i t h).neuron self).t_postspikes =
      (h.neuron self).t_postspikes ∧
    ((IF_neuron.update cfg exp self i t h).neuron self).spike_train =
      (h.neuron self).spike_train := by
  obtain ⟨b1, b2, b3, b4, b5⟩ := update_conductances_bookkeeping cfg exp self i t h
  have hu : IF_neuron.update cfg exp self i t h =
      if cfg.classical_IF then
        IF_neuron.update_with_classical_reset_clamp cfg exp self i t
          (IF_neuron.update_conductances cfg exp self i t
            (h.setNeuron self ((h.neuron self).recover_fatigue cfg)))
      else
        IF_neuron.update_with_reset_options cfg exp self i t
          (IF_neuron.update_conductances cfg exp self i t
            (h.setNeuron self ((h.neuron self).recover_fatigue cfg))) := rfl
  rw [hu]
  generalize IF_neuron.update_conductances cfg exp self i t
    (h.setNeuron self ((h.neuron self).recover_fatigue cfg)) = h1 at b1 b2 b3 b4 b5 ⊢
  by_cases hc : cfg.classical_IF
  · simp only [hc, if_true]
    unfold IF_neuron.update_with_classical_reset_clamp
    have hgate : t < (h1.neuron self).t_last_spike + (h1.neuron self).refractory_period := by
      rw [b4, b5]
      exact href
    simp only [hgate, if_true, Heap.setNeuron_neuron_self]
    exact ⟨b1, b2, b3⟩
  · simp only [hc, Bool.false_eq_true, if_false]
    unfold IF_neuron.update_with_reset_options
    obtain ⟨g1, g2, g3, g4, g5⟩ := before_refractory_gate_bookkeeping cfg exp (h1.neuron self) h1 i
    have hgate : ¬ (t ≥ ((h1.neuron self).before_refractory_gate cfg exp h1 i).1.t_last_spike +
        ((h1.neuron self).before_refractory_gate cfg exp h1 i).1.refractory_period) := by
      rw [g4, g5, b4, b5]
      exact not_le.mpr href
    simp only [hgate, if_false, Heap.setNeuron_neuron_self]
    exact ⟨g1.trans b1, g2.trans b2, g3.trans b3⟩

end NeuronFrame

/-! ## Neuron: forced spikes -/

section ForcedSpikes

variable {α : Type} [LinearOrderedField α]

/-- C10, as amended: for every neuron state whose forced-spike queue has head
`T`, an `update(i, t)` with in-range step index `i` and `t ≥ T` that is outside
the refractory window (`t ≥ t_last_spike + refractory_period`) marks step `i`
as spiked, appends `T` (the scheduled time, not `t`) to the spike history and
removes exactly that one head entry from the queue, in the reset-option mode
and in the classical mode alike, regardless of the membrane voltage, the
effective threshold and the fatigue. -/
theorem forced_spike_fires_outside_refractory (cfg : Config α) (exp : α → α) (self i : Nat)
    (t T : α) (rest : List α) (h : Heap α)
    (hq : (h.neuron self).force_spikes = T :: rest) (ht : t ≥ T)
    (href : t ≥ (h.neuron self).t_last_spike + (h.neuron self).refractory_period)
    (hi : i < (h.neuron self).spike_train.length) :
    ((IF_neuron.update cfg exp self i t h).neuron self).spike_train[i]? = some true ∧
    ((IF_neuron.update cfg exp self i t h).neuron self).t_postspikes =
      (h.neuron self).t_postspikes ++ [T] ∧
    ((IF_neuron.update cfg exp self i t h).neuron self).force_spikes = rest := by
  obtain ⟨b1, b2, b3, b4, b5⟩ := update_conductances_bookkeeping cfg exp self i t h
  have hu : IF_neuron.update cfg exp self i t h =
      if cfg.classical_IF then
        IF_neuron.update_with_classical_reset_clamp cfg exp self i t
          (IF_neuron.update_conductances cfg exp self i t
            (h.setNeuron self ((h.neuron self).recover_fatigue cfg)))
      else
        IF_neuron.update_with_reset_options cfg exp self i t
          (IF_neuron.update_conductances cfg exp self i t
            (h.setNeuron self ((h.neuron self).recover_fatigue cfg))) := rfl
  rw [hu]
  generalize IF_neuron.update_conductances cfg exp self i t
    (h.setNeuron self ((h.neuron self).recover_fatigue cfg)) = h1 at b1 b2 b3 b4 b5 ⊢
  have fin : ∀ h2 : Heap α, (h2.neuron self).force_spikes = T :: rest →
      (h2.neuron self).t_postspikes = (h.neuron self).t_postspikes →
      (h2.neuron self).spike_train = (h.neuron self).spike_train → ∀ V : α,
      ((IF_neuron.check_spiking cfg exp self i t V h2).neuron self).spike_train[i]? = some true ∧
      ((IF_neuron.check_spiking cfg exp self i t V h2).neuron self).t_postspikes =
        (h.neuron self).t_postspikes ++ [T] ∧
      ((IF_neuron.check_spiking cfg exp self i t V h2).neuron self).force_spikes = rest := by
    intro h2 q2 p2 s2 V
    obtain ⟨c1, c2, c3⟩ := check_spiking_forced cfg exp self i t T V rest h2 q2 ht
    rw [c1, c2, c3, p2, s2]
    exact ⟨List.getElem?_set_self hi, rfl, rfl⟩
  by_cases hc : cfg.classical_IF
  · simp only [hc, if_true]
    unfold IF_neuron.update_with_classical_reset_clamp
    have hgate : ¬ (t < (h1.neuron self).t_last_spike + (h1.neuron self).refractory_period) := by
      rw [b4, b5]
      exact not_lt.mpr href
    simp only [hgate, if_false]
    apply fin
    · rw [Heap.setNeuron_neuron_self]
      exact b1.trans hq
    · rw [Heap.setNeuron_neuron_self]
      exact b2
    · rw [Heap.setNeuron_neuron_self]
      exact b3
  · simp only [hc, Bool.false_eq_true, if_false]
    unfold IF_neuron.update_with_reset_options
    obtain ⟨g1, g2, g3, g4, g5⟩ := before_refractory_gate_bookkeeping cfg exp (h1.neuron self) h1 i
    have hgate : t ≥ ((h1.neuron self).before_refractory_gate cfg exp h1 i).1.t_last_spike +
        ((h1.neuron self).before_refractory_gate cfg exp h1 i).1.refractory_period := by
      rw [g4, g5, b4, b5]
      exact href
    simp only [hgate, if_true]
    apply fin
    · rw [Heap.setNeuron_neuron_self]
      exact g1.trans (b1.trans hq)
    · rw [Heap.setNeuron_neuron_self]
      exact g2.trans b2
    · rw [Heap.setNeuron_neuron_self]
      exact g3.trans b3

/-- C10 (amended) instantiated at a freshly constructed neuron with a forced
spike scheduled at `100` ms, updated at step `100`, `t = 100`. -/
theorem forced_spike_fires_outside_refractory_witness :
    ((IF_neuron.update Config.source Real.exp 0 100 100
        (Heap.single Real.exp Real.log (fresh_example Real.exp Real.log))).neuron 0).spike_train[100]?
      = some true ∧
    ((IF_neuron.update Config.source Real.exp 0 100 100
        (Heap.single Real.exp Real.log (fresh_example Real.exp Real.log))).neuron 0).t_postspikes
      = [] ++ [100] ∧
    ((IF_neuron.update Config.source Real.exp 0 100 100
        (Heap.single Real.exp Real.log (fresh_example Real.exp Real.log))).neuron 0).force_spikes
      = [] :=
  forced_spike_fires_outside_refractory Config.source Real.exp 0 100 100 100 []
    (Heap.single Real.exp Real.log (fresh_example Real.exp Real.log)) rfl (le_refl _)
    (by
      show (100 : ℝ) ≥ -1000 + 2
      norm_num)
    (by
      show 100 < (List.replicate 4000 false).length
      rw [List.length_replicate]
      norm_num)

/-- C10 fails as stated: a neuron that fired at `100` ms (refractory period
`2` ms) and whose forced-spike queue has head `101` is updated at the first
step with `t ≥ 101`, step `101` at `t = 101`; the refractory gate skips the
spike check, so step `101` is not marked as spiked, nothing is appended to the
spike history `[100]` and the queue still holds `101`. -/
theorem forced_spike_held_back_example :
    ((Heap.single Real.exp Real.log (refractory_example Real.exp Real.log)).neuron 0).force_spikes
      = [101] ∧
    ((Heap.single Real.exp Real.log (refractory_example Real.exp Real.log)).neuron 0).t_postspikes
      = [100] ∧
    ((IF_neuron.update Config.source Real.exp 0 101 101
        (Heap.single Real.exp Real.log (refractory_example Real.exp Real.log))).neuron 0).force_spikes
      = [101] ∧
    ((IF_neuron.update Config.source Real.exp 0 101 101
        (Heap.single Real.exp Real.log (refractory_example Real.exp Real.log))).neuron 0).t_postspikes
      = [100] ∧
    ((IF_neuron.update Config.source Real.exp 0 101 101
        (Heap.single Real.exp Real.log (refractory_example Real.exp Real.log))).neuron 0).spike_train[101]?
      = some false := by
  obtain ⟨h1, h2, h3⟩ := update_in_refractory_bookkeeping Config.source Real.exp 0 101 101
    (Heap.single Real.exp Real.log (refractory_example Real.exp Real.log))
    (by
      show (101 : ℝ) < 100 + 2
      norm_num)
  rw [h1, h2, h3]
  refine ⟨rfl, rfl, rfl, rfl, ?_⟩
  show ((List.replicate 4000 false).set 100 true)[101]? = some false
  rw [List.getElem?_set_ne (by norm_num), List.getElem?_replicate]
  simp

end ForcedSpikes

/-! ## Instances at the example synapse -/

section Instances

/-- C2 instantiated at the AMPA example synapse (weight `0.5`, Hebbian) with
source history `[100]` and `t = 105`. -/
theorem weight_stays_in_unit_interval_witness :
    (0 ≤ ((AMPA_example Real.exp Real.log).update Real.exp [100] 101 105 (-70)).weight ∧
      ((AMPA_example Real.exp Real.log).update Real.exp [100] 101 105 (-70)).weight ≤ 1) ∧
    (0 ≤ ((AMPA_example Real.exp Real.log).stdp_update Real.exp [100] 105).2.weight ∧
      ((AMPA_example Real.exp Real.log).stdp_update Real.exp [100] 105).2.weight ≤ 1) ∧
    (0 ≤ ((AMPA_example Real.exp Real.log).stdp_update Real.exp [100] 105).2.weight ∧
      ((AMPA_example Real.exp Real.log).stdp_update Real.exp [100] 105).2.weight ≤ 1) :=
  ⟨(weight_stays_in_unit_interval Real.exp (AMPA_example Real.exp Real.log) [100] 101 105
      (-70)).1 ⟨by norm_num [AMPA_example], by norm_num [AMPA_example]⟩,
   (weight_stays_in_unit_interval Real.exp (AMPA_example Real.exp Real.log) [100] 101 105
      (-70)).2.1 ⟨by norm_num [AMPA_example], by norm_num [AMPA_example]⟩,
   (weight_stays_in_unit_interval Real.exp (AMPA_example Real.exp Real.log) [100] 101 105
      (-70)).2.2
      (by
        show "Hebbian" ≠ "None"
        decide)
      (by simp)⟩

/-- C3 instantiated at the AMPA example synapse: with source history
`[90, 100]` and `t = 105` the returned `dw` is `0.01·exp(-(105 - 100)/20)`, the
same as with history `[100]`. -/
theorem stdp_update_pairs_with_last_spike_witness :
    ((AMPA_example Real.exp Real.log).stdp_update Real.exp ([90] ++ [100]) 105).1 =
      0.01 * Real.exp (-((105 - 100) / 20)) ∧
    (AMPA_example Real.exp Real.log).stdp_update Real.exp ([] ++ [100]) 105 =
      (AMPA_example Real.exp Real.log).stdp_update Real.exp ([90] ++ [100]) 105 := by
  have h := stdp_update_pairs_with_last_spike Real.exp (AMPA_example Real.exp Real.log) [90]
    100 105 (Or.inl rfl)
  refine ⟨?_, h.2 []⟩
  rw [h.1]
  norm_num [AMPA_example]

/-- C4 instantiated at the AMPA example synapse with an empty source history. -/
theorem stdp_update_noop_witness :
    (AMPA_example Real.exp Real.log).stdp_update Real.exp [] 105 =
      (0, AMPA_example Real.exp Real.log) :=
  stdp_update_noop Real.exp (AMPA_example Real.exp Real.log) [] 105 (Or.inr rfl)

/-- C5 instantiated: `compute_normalization(0.5, 3)` returns a value, and
constructing a synapse with `tau_rise = tau_decay = 3` fails. -/
theorem compute_normalization_fails_iff_equal_witness :
    (∃ v, compute_normalization Real.exp Real.log 0.5 3 = Except.ok v) ∧
    PreSyn.new Real.exp Real.log 4000 "AMPA" 0 3 3 0 20.58 0.5 1.1 "Hebbian" 0.01 0.01 20 20
        false =
      Except.error "tau_rise must be different from tau_decay for normalization." :=
  ⟨(compute_normalization_fails_iff_equal Real.exp Real.log 0.5 3).2.1 (by norm_num),
   (compute_normalization_fails_iff_equal Real.exp Real.log 3 3).2.2 rfl 4000 "AMPA" 0 0
      20.58 0.5 1.1 "Hebbian" 0.01 0.01 20 20 false⟩

/-- C8 instantiated with the AMPA kernel (onset delay `1.1`): at `t = 50` a
history `[100, 200]` gives `0`. -/
theorem g_norm_empty_and_causal_witness :
    g_norm Real.exp 50 [100, 200] 0.5 3 (norm_value Real.exp Real.log 0.5 3) 1.1 1000 0.001
      = 0 :=
  (g_norm_empty_and_causal Real.exp 50 0.5 3 (norm_value Real.exp Real.log 0.5 3) 1.1 1000
      0.001
    (ne_of_gt ((term_between_zero_and_norm 0.5 3 _ (by norm_num) (by norm_num)
      (by norm_num [compute_normalization, norm_value, t_peak_spec])).1 (by norm_num)).1)).2.1
    [100, 200]
    (by
      intro s hs
      simp only [List.mem_cons, List.mem_singleton, List.not_mem_nil, or_false] at hs
      rcases hs with rfl | rfl <;> norm_num)

/-- C9 instantiated with the AMPA kernel (onset delay `1.1`) at `t = 150` and
history `[100, 200]`. -/
theorem g_norm_eq_kernel_sum_witness :
    g_norm_default Real.exp 150 [100, 200] 0.5 3 (norm_value Real.exp Real.log 0.5 3) 1.1 =
      kernelValue_spec Real.exp 150 [100, 200] 0.5 3 (norm_value Real.exp Real.log 0.5 3) 1.1 :=
  g_norm_eq_kernel_sum Real.exp 150 [100, 200] 0.5 3 (norm_value Real.exp Real.log 0.5 3) 1.1
    (by
      intro s hs
      simp only [List.mem_cons, List.mem_singleton, List.not_mem_nil, or_false] at hs
      rcases hs with rfl | rfl <;> norm_num)

end Instances

/-! ## Recording -/

section Recording

variable {α : Type}

/-- C18: `record(i)` is a pure read of the neuron's dynamic state: it changes
none of `Vm`, the fAHP/sAHP/ADP conductances, fatigue, `h_spike`, the threshold
floor, the spike history, the spike record or the forced queue (indeed no
member other than `samples`); it writes only entry `i` of the `Vm`, `fAHP`,
`sAHP` and `ADP` sample series, for in-range `i` the current value; and it is
idempotent. -/
theorem record_is_pure_read (n : IF_neuron α) (i : Nat) :
    ((n.record i).Vm = n.Vm ∧ (n.record i).g_fAHP = n.g_fAHP ∧
      (n.record i).g_sAHP = n.g_sAHP ∧ (n.record i).g_ADP = n.g_ADP ∧
      (n.record i).fatigue = n.fatigue ∧ (n.record i).h_spike = n.h_spike ∧
      (n.record i).V_th_floor = n.V_th_floor ∧ (n.record i).t_postspikes = n.t_postspikes ∧
      (n.record i).spike_train = n.spike_train ∧ (n.record i).force_spikes = n.force_spikes) ∧
    n.record i = { n with samples := (n.record i).samples } ∧
    ((n.record i).samples.dV = n.samples.dV ∧
      (n.record i).samples.V_th_adaptive = n.samples.V_th_adaptive) ∧
    (∀ j : Nat, j ≠ i →
      (n.record i).samples.Vm[j]? = n.samples.Vm[j]? ∧
      (n.record i).samples.fAHP[j]? = n.samples.fAHP[j]? ∧
      (n.record i).samples.sAHP[j]? = n.samples.sAHP[j]? ∧
      (n.record i).samples.ADP[j]? = n.samples.ADP[j]?) ∧
    (i < n.samples.Vm.length → (n.record i).samples.Vm[i]? = some n.Vm) ∧
    (i < n.samples.fAHP.length → (n.record i).samples.fAHP[i]? = some n.g_fAHP) ∧
    (i < n.samples.sAHP.length → (n.record i).samples.sAHP[i]? = some n.g_sAHP) ∧
    (i < n.samples.ADP.length → (n.record i).samples.ADP[i]? = some n.g_ADP) ∧
    (n.record i).record i = n.record i := by
  refine ⟨⟨rfl, rfl, rfl, rfl, rfl, rfl, rfl, rfl, rfl, rfl⟩, rfl, ⟨rfl, rfl⟩, ?_, ?_, ?_, ?_, ?_,
    ?_⟩
  · intro j hj
    have hij : i ≠ j := fun e => hj e.symm
    simp only [IF_neuron.record]
    exact ⟨List.getElem?_set_ne hij, List.getElem?_set_ne hij, List.getElem?_set_ne hij,
      List.getElem?_set_ne hij⟩
  · intro h
    exact List.getElem?_set_self h
  · intro h
    exact List.getElem?_set_self h
  · intro h
    exact List.getElem?_set_self h
  · intro h
    exact List.getElem?_set_self h
  · simp only [IF_neuron.record, List.set_set]

end Recording

/-! ## Repeated STDP pairing -/

section RepeatedPairing

/-- One `stdp_update` of a Hebbian synapse against the last source spike
`t_pre`: the weight becomes `clamp(weight + dw, 0, 1)`, nothing else changes. -/
theorem stdp_update_hebbian (q : PreSyn ℝ) (older : List ℝ) (t_pre t : ℝ)
    (hk : q.STDP_type = "Hebbian") :
    (q.stdp_update Real.exp (older ++ [t_pre]) t).2 =
      { q with weight := max 0 (min 1 (q.weight +
          (if t - t_pre > 0 then q.A_pos * Real.exp (-(t - t_pre) / q.tau_pos)
           else -q.A_neg * Real.exp ((t - t_pre) / q.tau_neg)))) } := by
  have h1 : q.STDP_type ≠ "None" := by rw [hk]; decide
  have h2 : q.STDP_type ≠ "Anti-Hebbian" := by rw [hk]; decide
  simp [PreSyn.stdp_update, h1, h2]

/-- Closed form of a repeated potentiating pairing: after `k` calls the weight
is `min(1, w + k·dw)`. -/
theorem stdp_repeat_potentiation (p : PreSyn ℝ) (older : List ℝ) (t_pre t : ℝ)
    (hk : p.STDP_type = "Hebbian") (hw0 : 0 ≤ p.weight) (hw1 : p.weight ≤ 1)
    (hA : 0 < p.A_pos) (ht : t_pre < t) (k : Nat) :
    p.stdp_repeat Real.exp (older ++ [t_pre]) t k =
      { p with
        weight := min 1 (p.weight + k * (p.A_pos * Real.exp (-(t - t_pre) / p.tau_pos))) } := by
  have hdw : 0 < p.A_pos * Real.exp (-(t - t_pre) / p.tau_pos) :=
    mul_pos hA (Real.exp_pos _)
  induction k with
  | zero =>
    simp only [PreSyn.stdp_repeat, Nat.cast_zero, zero_mul, add_zero, min_eq_right hw1]
  | succ k ih =>
    rw [PreSyn.stdp_repeat, ih, stdp_update_hebbian]
    swap
    · exact hk
    have hpos : t - t_pre > 0 := sub_pos.mpr ht
    simp only [hpos, if_true]
    congr 1
    set dw := p.A_pos * Real.exp (-(t - t_pre) / p.tau_pos) with hdwdef
    have hk0 : (0 : ℝ) ≤ k := Nat.cast_nonneg k
    have hx : 0 ≤ min 1 (p.weight + k * dw) :=
      le_min zero_le_one (add_nonneg hw0 (mul_nonneg hk0 hdw.le))
    rw [max_eq_right (le_min zero_le_one (add_nonneg hx hdw.le))]
    push_cast
    rcases le_total (p.weight + k * dw) 1 with h | h
    · rw [min_eq_right h]
      congr 1
      ring
    · rw [min_eq_left h, min_eq_left (by linarith), min_eq_left (by nlinarith)]

/-- Closed form of a repeated depressing pairing: after `k` calls the weight
is `max(0, w - k·|dw|)`. -/
theorem stdp_repeat_depression (p : PreSyn ℝ) (older : List ℝ) (t_pre t : ℝ)
    (hk : p.STDP_type = "Hebbian") (hw0 : 0 ≤ p.weight) (hw1 : p.weight ≤ 1)
    (hA : 0 < p.A_neg) (ht : t ≤ t_pre) (k : Nat) :
    p.stdp_repeat Real.exp (older ++ [t_pre]) t k =
      { p with
        weight := max 0 (p.weight - k * (p.A_neg * Real.exp ((t - t_pre) / p.tau_neg))) } := by
  have hdw : 0 < p.A_neg * Real.exp ((t - t_pre) / p.tau_neg) :=
    mul_pos hA (Real.exp_pos _)
  induction k with
  | zero =>
    simp only [PreSyn.stdp_repeat, Nat.cast_zero, zero_mul, sub_zero, max_eq_right hw0]
  | succ k ih =>
    rw [PreSyn.stdp_repeat, ih, stdp_update_hebbian]
    swap
    · exact hk
    have hneg : ¬ (t - t_pre > 0) := not_lt.mpr (sub_nonpos.mpr ht)
    simp only [hneg, if_false]
    congr 1
    set dw := p.A_neg * Real.exp ((t - t_pre) / p.tau_neg) with hdwdef
    have hk0 : (0 : ℝ) ≤ k := Nat.cast_nonneg k
    have e : -p.A_neg * Real.exp ((t - t_pre) / p.tau_neg) = -dw := by
      rw [hdwdef]
      ring
    rw [e]
    have hx : max 0 (p.weight - k * dw) ≤ 1 :=
      max_le zero_le_one (by nlinarith)
    rw [min_eq_right (by linarith)]
    push_cast
    rcases le_total 0 (p.weight - k * dw) with h | h
    · rw [max_eq_right h]
      congr 1
      ring
    · rw [max_eq_left h, max_eq_left (by linarith), max_eq_left (by nlinarith)]

/-- Repeated pairing in exact arithmetic (`weight + dw` without rounding), for a
Hebbian synapse with weight in `[0,1]`: if `A_pos > 0` and the
source's most recent spike `t_pre` is strictly before `t`, then `stdp_update(t)`
never decreases the weight, and repeating the same pairing makes the weight
exactly `1` after `ceil((1 - w)/dw)` applications and at every later one;
symmetrically, if `A_neg > 0` and `t ≤ t_pre` (`Δt ≤ 0`), the weight never
increases, and it is exactly `0` after `ceil(w/|dw|)` applications and at every
later one. -/
theorem stdp_repeated_pairing_saturates (p : PreSyn ℝ) (older : List ℝ) (t_pre t : ℝ)
    (hk : p.STDP_type = "Hebbian") (hw0 : 0 ≤ p.weight) (hw1 : p.weight ≤ 1) :
    (0 < p.A_pos → t_pre < t →
      (∀ k : Nat, (p.stdp_repeat Real.exp (older ++ [t_pre]) t k).weight ≤
        (p.stdp_repeat Real.exp (older ++ [t_pre]) t (k + 1)).weight) ∧
      (∀ k : Nat,
        ⌈(1 - p.weight) / (p.A_pos * Real.exp (-(t - t_pre) / p.tau_pos))⌉₊ ≤ k →
        (p.stdp_repeat Real.exp (older ++ [t_pre]) t k).weight = 1)) ∧
    (0 < p.A_neg → t ≤ t_pre →
      (∀ k : Nat, (p.stdp_repeat Real.exp (older ++ [t_pre]) t (k + 1)).weight ≤
        (p.stdp_repeat Real.exp (older ++ [t_pre]) t k).weight) ∧
      (∀ k : Nat,
        ⌈p.weight / (p.A_neg * Real.exp ((t - t_pre) / p.tau_neg))⌉₊ ≤ k →
        (p.stdp_repeat Real.exp (older ++ [t_pre]) t k).weight = 0)) := by
  constructor
  · intro hA ht
    have hdw : 0 < p.A_pos * Real.exp (-(t - t_pre) / p.tau_pos) :=
      mul_pos hA (Real.exp_pos _)
    constructor
    · intro k
      rw [stdp_repeat_potentiation p older t_pre t hk hw0 hw1 hA ht,
        stdp_repeat_potentiation p older t_pre t hk hw0 hw1 hA ht]
      show min 1 _ ≤ min 1 _
      apply min_le_min le_rfl
      push_cast
      nlinarith
    · intro k hkc
      rw [stdp_repeat_potentiation p older t_pre t hk hw0 hw1 hA ht]
      show min 1 _ = 1
      apply min_eq_left
      have h1 := Nat.ceil_le.mp hkc
      rw [div_le_iff₀ hdw] at h1
      linarith
  · intro hA ht
    have hdw : 0 < p.A_neg * Real.exp ((t - t_pre) / p.tau_neg) :=
      mul_pos hA (Real.exp_pos _)
    constructor
    · intro k
      rw [stdp_repeat_depression p older t_pre t hk hw0 hw1 hA ht,
        stdp_repeat_depression p older t_pre t hk hw0 hw1 hA ht]
      show max 0 _ ≤ max 0 _
      apply max_le_max le_rfl
      push_cast
      nlinarith
    · intro k hkc
      rw [stdp_repeat_depression p older t_pre t hk hw0 hw1 hA ht]
      show max 0 _ = 0
      apply max_eq_left
      have h1 := Nat.ceil_le.mp hkc
      rw [div_le_iff₀ hdw] at h1
      linarith

end RepeatedPairing

/-! ## Voltage integration: currents and steady state -/

section Integration

variable {α : Type} [LinearOrderedField α]

/-- The loop of `presyn_sums` started from any accumulators adds the list sums
of the synaptic conductances and of their products with the reversal
potentials. -/
theorem presyn_sums_foldl (h : Heap α) (l : List Nat) (a b : α) :
    l.foldl (fun acc p => (acc.1 + (h.syn p).g, acc.2 + (h.syn p).g * (h.syn p).E)) (a, b) =
      (a + (l.map (fun p => (h.syn p).g)).sum,
       b + (l.map (fun p => (h.syn p).g * (h.syn p).E)).sum) := by
  induction l generalizing a b with
  | nil => simp
  | cons p rest ih =>
    rw [List.foldl_cons, ih]
    simp only [List.map_cons, List.sum_cons, add_assoc]

/-- The sums `sum_g` and `sum_gE` of the source are the list sums over the
incoming synapses. -/
theorem presyn_sums_eq (h : Heap α) (l : List Nat) :
    presyn_sums h l =
      ((l.map (fun p => (h.syn p).g)).sum, (l.map (fun p => (h.syn p).g * (h.syn p).E)).sum) := by
  unfold presyn_sums
  rw [presyn_sums_foldl]
  norm_num

end Integration

section SteadyState

/-- C19 at a failing input: a freshly constructed neuron (`R_m = 0.1`,
`C_m = 100`, `tau_m = 10`, `g_L = 10`, `Vm = V_rest = -70`, no adaptation
conductance) with one synapse of conductance `10` and reversal potential `0`,
`dt = 1`.  Both formulations compute the steady-state voltage `-35`, but the
resistance form uses `tau_eff = tau_m/(1 + R_m·(g_fAHP + g_sAHP + g_ADP)) = 10`,
leaving the synaptic conductance out, while the capacitance form uses
`tau_eff = C_m/g_total = 5`; the new `Vm` differs. -/
theorem exponential_Euler_Rm_Cm_differ_example :
    (((driven_example Real.exp Real.log).neuron 0).update_membrane_potential_exponential_Euler_Rm
        Config.source Real.exp (driven_example Real.exp Real.log)).Vm =
      -35 + (-70 - -35) * Real.exp (-1 / 10) ∧
    (((driven_example Real.exp Real.log).neuron 0).update_membrane_potential_exponential_Euler_Cm
        Config.source Real.exp (driven_example Real.exp Real.log)).Vm =
      -35 + (-70 - -35) * Real.exp (-1 / 5) ∧
    (((driven_example Real.exp Real.log).neuron 0).update_membrane_potential_exponential_Euler_Rm
        Config.source Real.exp (driven_example Real.exp Real.log)).Vm ≠
    (((driven_example Real.exp Real.log).neuron 0).update_membrane_potential_exponential_Euler_Cm
        Config.source Real.exp (driven_example Real.exp Real.log)).Vm := by
  have hsum : presyn_sums (driven_example Real.exp Real.log) [0] = (10, 0) := by
    rw [presyn_sums_eq]
    show (([10] : List ℝ).sum, ([10 * 0] : List ℝ).sum) = (10, 0)
    norm_num
  have hRm : (((driven_example Real.exp Real.log).neuron 0).update_membrane_potential_exponential_Euler_Rm
        Config.source Real.exp (driven_example Real.exp Real.log)).Vm =
      -35 + (-70 - -35) * Real.exp (-1 / 10) := by
    show (0.0 * (-90) + 0.0 * (-90) + 0.0 * (-20) +
          (presyn_sums (driven_example Real.exp Real.log) [0]).2 +
          1 / (100.0 / 1000) * (-70 : ℝ)) /
        (0.0 + 0.0 + 0.0 + (presyn_sums (driven_example Real.exp Real.log) [0]).1 +
          1 / (100.0 / 1000)) +
      (-70 - (0.0 * (-90) + 0.0 * (-90) + 0.0 * (-20) +
          (presyn_sums (driven_example Real.exp Real.log) [0]).2 +
          1 / (100.0 / 1000) * (-70 : ℝ)) /
        (0.0 + 0.0 + 0.0 + (presyn_sums (driven_example Real.exp Real.log) [0]).1 +
          1 / (100.0 / 1000))) *
        Real.exp (-1 / (100.0 / 1000 * 100 / (1 + 100.0 / 1000 * (0.0 + 0.0 + 0.0)))) = _
    rw [hsum]
    norm_num
  have hCm : (((driven_example Real.exp Real.log).neuron 0).update_membrane_potential_exponential_Euler_Cm
        Config.source Real.exp (driven_example Real.exp Real.log)).Vm =
      -35 + (-70 - -35) * Real.exp (-1 / 5) := by
    show (1.0 / (100.0 / 1000) * (-70 : ℝ) + 0.0 * (-90) + 0.0 * (-90) + 0.0 * (-20) +
          (presyn_sums (driven_example Real.exp Real.log) [0]).2) /
        (1.0 / (100.0 / 1000) + 0.0 + 0.0 + 0.0 +
          (presyn_sums (driven_example Real.exp Real.log) [0]).1) +
      (-70 - (1.0 / (100.0 / 1000) * (-70 : ℝ) + 0.0 * (-90) + 0.0 * (-90) + 0.0 * (-20) +
          (presyn_sums (driven_example Real.exp Real.log) [0]).2) /
        (1.0 / (100.0 / 1000) + 0.0 + 0.0 + 0.0 +
          (presyn_sums (driven_example Real.exp Real.log) [0]).1)) *
        Real.exp (-1 / (100 / (1.0 / (100.0 / 1000) + 0.0 + 0.0 + 0.0 +
          (presyn_sums (driven_example Real.exp Real.log) [0]).1))) = _
    rw [hsum]
    norm_num
  refine ⟨hRm, hCm, ?_⟩
  rw [hRm, hCm]
  intro e
  have e2 : Real.exp (-1 / 10) = Real.exp (-1 / 5) := by linarith
  have e3 := Real.exp_injective e2
  norm_num at e3

end SteadyState

/-! ## Conductance kernel: the early exit of the scan -/

section EarlyExit

/-- Past a point `x` where `b·exp(-b·x) ≤ a·exp(-a·x)` (`0 < a < b`), the
difference `exp(-a·x) - exp(-b·x)` does not increase. -/
theorem biexp_antitone_of_slope (a b x s : ℝ) (ha : 0 < a) (hab : a < b) (hs : 0 ≤ s)
    (hx : b * Real.exp (-(b * x)) ≤ a * Real.exp (-(a * x))) :
    Real.exp (-(a * (x + s))) - Real.exp (-(b * (x + s))) ≤
      Real.exp (-(a * x)) - Real.exp (-(b * x)) := by
  have hp : 1 ≤ b / a := (one_le_div ha).mpr hab.le
  have hB := exp_bernoulli (-(a * s)) (b / a) hp
  have e1 : -(a * s) * (b / a) = -(b * s) := by
    field_simp
    ring
  rw [e1] at hB
  have eA : Real.exp (-(a * (x + s))) = Real.exp (-(a * x)) * Real.exp (-(a * s)) := by
    rw [← Real.exp_add]
    congr 1
    ring
  have eB : Real.exp (-(b * (x + s))) = Real.exp (-(b * x)) * Real.exp (-(b * s)) := by
    rw [← Real.exp_add]
    congr 1
    ring
  have hya : Real.exp (-(a * s)) ≤ 1 := by
    rw [Real.exp_le_one_iff]
    exact neg_nonpos.mpr (mul_nonneg ha.le hs)
  have hBpos : 0 < Real.exp (-(b * x)) := Real.exp_pos _
  have hBA : b / a * Real.exp (-(b * x)) ≤ Real.exp (-(a * x)) := by
    rw [div_mul_eq_mul_div, div_le_iff₀ ha]
    linarith
  rw [eA, eB]
  have h1 : Real.exp (-(b * x)) * (1 - Real.exp (-(b * s))) ≤
      Real.exp (-(b * x)) * (b / a * (1 - Real.exp (-(a * s)))) :=
    mul_le_mul_of_nonneg_left (by linarith) hBpos.le
  have h2 : b / a * Real.exp (-(b * x)) * (1 - Real.exp (-(a * s))) ≤
      Real.exp (-(a * x)) * (1 - Real.exp (-(a * s))) :=
    mul_le_mul_of_nonneg_right hBA (by linarith)
  nlinarith [h1, h2]

/-- For `tau_rise < tau_decay` the kernel term does not increase with the spike
age once the age is past the peak time. -/
theorem kernel_term_antitone_after_peak (tau_rise tau_decay x y : ℝ) (hr : 0 < tau_rise)
    (hlt : tau_rise < tau_decay) (hx : t_peak_spec Real.log tau_rise tau_decay ≤ x)
    (hxy : x ≤ y) :
    kernel_term Real.exp tau_rise tau_decay y ≤ kernel_term Real.exp tau_rise tau_decay x := by
  have hd : 0 < tau_decay := lt_trans hr hlt
  have hratio := exp_ratio_at_t_peak tau_rise tau_decay hr hd hlt.ne
  set tp := t_peak_spec Real.log tau_rise tau_decay with htpdef
  have cv : ∀ (z τ : ℝ), -z / τ = -(τ⁻¹ * z) := fun z τ => by
    rw [neg_div, div_eq_inv_mul]
  have hab : tau_decay⁻¹ < tau_rise⁻¹ := inv_strictAnti₀ hr hlt
  have ha : 0 < tau_decay⁻¹ := inv_pos.mpr hd
  have hpk : tau_decay⁻¹ * Real.exp (-(tau_decay⁻¹ * tp)) =
      tau_rise⁻¹ * Real.exp (-(tau_rise⁻¹ * tp)) := by
    rw [← cv, ← cv, hratio]
    field_simp
  have hslope : tau_rise⁻¹ * Real.exp (-(tau_rise⁻¹ * x)) ≤
      tau_decay⁻¹ * Real.exp (-(tau_decay⁻¹ * x)) := by
    have e1 : Real.exp (-(tau_rise⁻¹ * x)) =
        Real.exp (-(tau_rise⁻¹ * tp)) * Real.exp (-(tau_rise⁻¹ * (x - tp))) := by
      rw [← Real.exp_add]
      congr 1
      ring
    have e2 : Real.exp (-(tau_decay⁻¹ * x)) =
        Real.exp (-(tau_decay⁻¹ * tp)) * Real.exp (-(tau_decay⁻¹ * (x - tp))) := by
      rw [← Real.exp_add]
      congr 1
      ring
    have hm : Real.exp (-(tau_rise⁻¹ * (x - tp))) ≤ Real.exp (-(tau_decay⁻¹ * (x - tp))) := by
      rw [Real.exp_le_exp, neg_le_neg_iff]
      exact mul_le_mul_of_nonneg_right hab.le (sub_nonneg.mpr hx)
    rw [e1, e2, ← mul_assoc, ← mul_assoc, ← hpk]
    exact mul_le_mul_of_nonneg_left hm (mul_pos ha (Real.exp_pos _)).le
  have key := biexp_antitone_of_slope tau_decay⁻¹ tau_rise⁻¹ x (y - x) ha hab
    (sub_nonneg.mpr hxy) hslope
  rw [add_sub_cancel] at key
  unfold kernel_term
  rw [cv y, cv y, cv x, cv x]
  exact key

/-- The scan of `g_norm` returns at a spike that passes the exit test of line 66,
whatever spikes remain to be scanned. -/
theorem g_norm_loop_stops (t tau_rise tau_decay norm sdd hdelta s : ℝ) (rest : List ℝ)
    (gnorm : ℝ) (hΔ : t - s > sdd) (h0 : 0 ≤ sdd)
    (hterm : kernel_term Real.exp tau_rise tau_decay (t - s) < hdelta) :
    g_norm_loop Real.exp t tau_rise tau_decay norm sdd hdelta (s :: rest) gnorm =
      gnorm / norm := by
  have hge : t - s ≥ 0 := le_of_lt (lt_of_le_of_lt h0 hΔ)
  unfold kernel_term at hterm
  simp only [g_norm_loop, hge, if_true, hΔ, hterm, and_self]

/-- C20, as amended: for positive `tau_rise < tau_decay` whose peak time is at
most the 1000 ms horizon and every non-decreasing spike history, whenever the
scan stops early at a spike `s` (`Δ > 1000` and its term below `0.001·norm`),
every older spike's term `exp(-Δ/tau_decay) - exp(-Δ/tau_rise)` is no larger than
the term at which the scan stopped, so every omitted term is below
`0.001·norm`.  Here `t` is the time already shifted by the onset delay and
`older ++ [s]` the part of the history not yet scanned; the statement holds for
every value of `norm`, in particular for
`compute_normalization(tau_rise, tau_decay)`. -/
theorem early_exit_drops_smaller_terms (tau_rise tau_decay norm t s : ℝ) (older : List ℝ)
    (gnorm : ℝ) (hr : 0 < tau_rise) (hlt : tau_rise < tau_decay)
    (hpeak : t_peak_spec Real.log tau_rise tau_decay ≤ 1000)
    (hsorted : List.Pairwise (· ≤ ·) (older ++ [s]))
    (hΔ : t - s > 1000)
    (hterm : kernel_term Real.exp tau_rise tau_decay (t - s) < 0.001 * norm) :
    g_norm_loop Real.exp t tau_rise tau_decay norm 1000 (0.001 * norm) (older ++ [s]).reverse
      gnorm = gnorm / norm ∧
    ∀ s' ∈ older,
      kernel_term Real.exp tau_rise tau_decay (t - s') ≤
        kernel_term Real.exp tau_rise tau_decay (t - s) ∧
      kernel_term Real.exp tau_rise tau_decay (t - s') < 0.001 * norm := by
  constructor
  · rw [List.reverse_append, List.reverse_singleton, List.singleton_append]
    exact g_norm_loop_stops t tau_rise tau_decay norm 1000 (0.001 * norm) s older.reverse gnorm
      hΔ (by norm_num) hterm
  · intro s' hs'
    have hle : s' ≤ s := by
      rw [List.pairwise_append] at hsorted
      exact hsorted.2.2 s' hs' s (List.mem_singleton_self s)
    have hmono := kernel_term_antitone_after_peak tau_rise tau_decay (t - s) (t - s') hr hlt
      (by linarith) (by linarith)
    exact ⟨hmono, lt_of_le_of_lt hmono hterm⟩

/-- A bound for the exponential of a negative number: `exp(-x) ≤ 1/(1 + x)` for
`x ≥ 0`. -/
theorem exp_neg_le_inv (x : ℝ) (hx : 0 ≤ x) : Real.exp (-x) ≤ 1 / (1 + x) := by
  rw [Real.exp_neg, ← one_div]
  apply one_div_le_one_div_of_le (by linarith)
  linarith [Real.add_one_le_exp x]

/-- C20 (amended) instantiated with the AMPA kernel (`tau_rise = 0.5`,
`tau_decay = 3`, peak time `0.6·ln 6`), shifted time `10100` and history
`[50, 100]`: the scan stops at the spike at `100` and the term of the spike at
`50` is smaller. -/
theorem early_exit_drops_smaller_terms_witness :
    g_norm_loop Real.exp 10100 0.5 3 (norm_value Real.exp Real.log 0.5 3) 1000
        (0.001 * norm_value Real.exp Real.log 0.5 3) ([50] ++ [100]).reverse 0 =
      0 / norm_value Real.exp Real.log 0.5 3 ∧
    ∀ s' ∈ [(50 : ℝ)],
      kernel_term Real.exp 0.5 3 (10100 - s') ≤ kernel_term Real.exp 0.5 3 (10100 - 100) ∧
      kernel_term Real.exp 0.5 3 (10100 - s') < 0.001 * norm_value Real.exp Real.log 0.5 3 :=
  early_exit_drops_smaller_terms 0.5 3 (norm_value Real.exp Real.log 0.5 3) 10100 100 [50] 0
    (by norm_num) (by norm_num)
    (by
      have h6 : Real.log (3 / 0.5) ≤ 3 / 0.5 - 1 := Real.log_le_sub_one_of_pos (by norm_num)
      unfold t_peak_spec
      norm_num at h6 ⊢
      linarith)
    (by
      simp only [List.singleton_append, List.pairwise_cons, List.mem_singleton, forall_eq,
        List.not_mem_nil, false_implies, implies_true, List.Pairwise.nil, and_true]
      norm_num)
    (by norm_num)
    (by
      have hok : compute_normalization Real.exp Real.log 0.5 3 =
          Except.ok (norm_value Real.exp Real.log 0.5 3) := by
        norm_num [compute_normalization, norm_value, t_peak_spec]
      have hpk := ((term_between_zero_and_norm 0.5 3 _ (by norm_num) (by norm_num) hok).1
        (by norm_num)).2 1 (by norm_num)
      have hlow : (1 : ℝ) / 3 ≤ Real.exp (-1 / 3) - Real.exp (-1 / 0.5) := by
        have h1 := Real.add_one_le_exp (-1 / 3 : ℝ)
        have h2 := exp_neg_le_inv 2 (by norm_num)
        rw [show (-1 : ℝ) / 0.5 = -2 by norm_num]
        linarith
      have hup : Real.exp (-(10100 - 100) / 3) ≤ 3 / 10003 := by
        have h3 := exp_neg_le_inv (10000 / 3) (by norm_num)
        rw [show (-(10100 - 100) : ℝ) / 3 = -(10000 / 3) by norm_num]
        calc Real.exp (-(10000 / 3)) ≤ 1 / (1 + 10000 / 3) := h3
          _ = 3 / 10003 := by norm_num
      have hpos := Real.exp_pos (-(10100 - 100) / 0.5)
      unfold kernel_term
      linarith [hpk.2])

/-- C20 fails as stated: with `tau_rise = 10^7 < tau_decay = 2·10^7` the peak time
is `2·10^7·ln 2` and `compute_normalization` returns `1/4`.  At shifted time
`t = t_peak`, with the non-decreasing history `[0, t_peak - 1001]`, the scan
stops at the most recent spike (`Δ = 1001 > 1000`, term below `0.001·norm`),
yet the older spike at `0` has `Δ = t_peak` and its term is `norm = 1/4`: larger
than the term at which the scan stopped and not below `0.001·norm`. -/
theorem early_exit_drops_peak_term_example :
    compute_normalization Real.exp Real.log 10000000 20000000 = Except.ok (1 / 4) ∧
    List.Pairwise (· ≤ ·) ([0] ++ [t_peak_spec Real.log 10000000 20000000 - 1001]) ∧
    t_peak_spec Real.log 10000000 20000000 -
        (t_peak_spec Real.log 10000000 20000000 - 1001) > 1000 ∧
    kernel_term Real.exp 10000000 20000000
        (t_peak_spec Real.log 10000000 20000000 -
          (t_peak_spec Real.log 10000000 20000000 - 1001)) < 0.001 * (1 / 4) ∧
    g_norm_loop Real.exp (t_peak_spec Real.log 10000000 20000000) 10000000 20000000 (1 / 4)
        1000 (0.001 * (1 / 4))
        ([0] ++ [t_peak_spec Real.log 10000000 20000000 - 1001]).reverse 0 = 0 / (1 / 4) ∧
    ¬ (kernel_term Real.exp 10000000 20000000 (t_peak_spec Real.log 10000000 20000000 - 0) ≤
        kernel_term Real.exp 10000000 20000000
          (t_peak_spec Real.log 10000000 20000000 -
            (t_peak_spec Real.log 10000000 20000000 - 1001))) ∧
    ¬ (kernel_term Real.exp 10000000 20000000 (t_peak_spec Real.log 10000000 20000000 - 0) <
        0.001 * (1 / 4)) := by
  have htp : t_peak_spec Real.log 10000000 20000000 = 20000000 * Real.log 2 := by
    unfold t_peak_spec
    norm_num
  have e2 : Real.exp (-Real.log 2) = 1 / 2 := by
    rw [← Real.log_inv, Real.exp_log (by norm_num)]
    norm_num
  have e4 : Real.exp (-(2 * Real.log 2)) = 1 / 4 := by
    have : -(2 * Real.log 2) = Real.log (1 / 4) := by
      rw [show (1 / 4 : ℝ) = (2 ^ 2)⁻¹ by norm_num, Real.log_inv, Real.log_pow]
      push_cast
      ring
    rw [this]
    exact Real.exp_log (by norm_num)
  have hpeak : kernel_term Real.exp 10000000 20000000
      (t_peak_spec Real.log 10000000 20000000 - 0) = 1 / 4 := by
    unfold kernel_term
    rw [htp, sub_zero,
      show -(20000000 * Real.log 2) / 20000000 = -Real.log 2 by ring,
      show -(20000000 * Real.log 2) / 10000000 = -(2 * Real.log 2) by ring, e2, e4]
    norm_num
  have hok : compute_normalization Real.exp Real.log 10000000 20000000 = Except.ok (1 / 4) := by
    have h := hpeak
    unfold kernel_term at h
    rw [sub_zero] at h
    unfold compute_normalization
    rw [if_neg (by norm_num)]
    exact congrArg Except.ok h
  have hΔ : t_peak_spec Real.log 10000000 20000000 -
      (t_peak_spec Real.log 10000000 20000000 - 1001) = 1001 := by ring
  have hstop : kernel_term Real.exp 10000000 20000000 1001 < 0.001 * (1 / 4) := by
    unfold kernel_term
    have h1 : Real.exp (-1001 / 20000000) ≤ 1 := by
      rw [Real.exp_le_one_iff]
      norm_num
    have h2 := Real.add_one_le_exp (-1001 / 10000000 : ℝ)
    norm_num at h2 ⊢
    linarith
  have hl2 := Real.log_two_gt_d9
  refine ⟨hok, ?_, ?_, ?_, ?_, ?_, ?_⟩
  · simp only [List.singleton_append, List.pairwise_cons, List.mem_singleton, forall_eq,
      List.not_mem_nil, false_implies, implies_true, List.Pairwise.nil, and_true]
    rw [htp]
    norm_num at hl2 ⊢
    linarith
  · rw [hΔ]
    norm_num
  · rw [hΔ]
    exact hstop
  · rw [List.reverse_append, List.reverse_singleton, List.singleton_append]
    apply g_norm_loop_stops
    · rw [hΔ]
      norm_num
    · norm_num
    · rw [hΔ]
      exact hstop
  · rw [hpeak, hΔ]
    intro hle
    have := lt_of_le_of_lt hle hstop
    norm_num at this
  · rw [hpeak]
    norm_num

end EarlyExit

/-! ## Neuron: one update, step by step -/

section UpdateSteps

variable {α : Type} [LinearOrderedField α]

/-- The neuron at `self` after `check_spiking` is given by the member-level
view of `check_spiking`. -/
theorem check_spiking_neuron_self (cfg : Config α) (exp : α → α) (self i : Nat) (t V : α)
    (h : Heap α) :
    (IF_neuron.check_spiking cfg exp self i t V h).neuron self =
      (h.neuron self).check_spiking_members cfg i t V := by
  unfold IF_neuron.check_spiking IF_neuron.check_spiking_members
  cases forced_due (h.neuron self).force_spikes t with
  | some f =>
    simp only [erase_forced_head, Heap.setNeuron_neuron_self, spike_neuron_self]
    rfl
  | none =>
    simp only []
    split
    · rfl
    · split
      · exact spike_neuron_self cfg exp self i t h
      · rfl

/-- An update is the fatigue recovery and `update_conductances`, then the
statements up to the spike check, then the spike check unless the refractory
gate skips it. -/
theorem update_eq_check_spiking (cfg : Config α) (exp : α → α) (self i : Nat) (t : α)
    (h : Heap α) :
    IF_neuron.update cfg exp self i t h =
      match (((IF_neuron.after_conductances cfg exp self i t h).neuron self).before_check cfg exp
          (IF_neuron.after_conductances cfg exp self i t h) i t).2 with
      | none =>
        (IF_neuron.after_conductances cfg exp self i t h).setNeuron self
          (((IF_neuron.after_conductances cfg exp self i t h).neuron self).before_check cfg exp
            (IF_neuron.after_conductances cfg exp self i t h) i t).1
      | some V =>
        IF_neuron.check_spiking cfg exp self i t V
          ((IF_neuron.after_conductances cfg exp self i t h).setNeuron self
            (((IF_neuron.after_conductances cfg exp self i t h).neuron self).before_check cfg exp
              (IF_neuron.after_conductances cfg exp self i t h) i t).1) := by
  have hu : IF_neuron.update cfg exp self i t h =
      if cfg.classical_IF then
        IF_neuron.update_with_classical_reset_clamp cfg exp self i t
          (IF_neuron.after_conductances cfg exp self i t h)
      else
        IF_neuron.update_with_reset_options cfg exp self i t
          (IF_neuron.after_conductances cfg exp self i t h) := rfl
  rw [hu]
  generalize IF_neuron.after_conductances cfg exp self i t h = h1
  unfold IF_neuron.before_check
  by_cases hc : cfg.classical_IF
  · simp only [hc, if_true]
    unfold IF_neuron.update_with_classical_reset_clamp
    by_cases hg : t < (h1.neuron self).t_last_spike + (h1.neuron self).refractory_period
    · simp only [hg, if_true]
    · simp only [hg, if_false]
  · simp only [hc, Bool.false_eq_true, if_false]
    unfold IF_neuron.update_with_reset_options
    by_cases hg : t ≥ ((h1.neuron self).before_refractory_gate cfg exp h1 i).1.t_last_spike +
        ((h1.neuron self).before_refractory_gate cfg exp h1 i).1.refractory_period
    · simp only [hg, if_true]
    · simp only [hg, if_false]

/-- The neuron at `self` after the fatigue recovery and `update_conductances`. -/
theorem after_conductances_neuron_self (cfg : Config α) (exp : α → α) (self i : Nat) (t : α)
    (h : Heap α) :
    (IF_neuron.after_conductances cfg exp self i t h).neuron self =
      ((h.neuron self).recover_fatigue cfg).update_own_conductances cfg exp t := by
  unfold IF_neuron.after_conductances IF_neuron.update_conductances
  simp only [Heap.setNeuron_neuron_self, foldl_syn_update_neuron]

/-- The integration step writes only `Vm` and `samples`. -/
theorem integrate_frame (cfg : Config α) (exp : α → α) (n : IF_neuron α) (h : Heap α)
    (i : Nat) :
    ∃ (v : α) (s : Samples α), (n.integrate cfg exp h i).1 = { n with Vm := v, samples := s } := by
  unfold IF_neuron.integrate
  split
  · split
    · exact ⟨_, n.samples, rfl⟩
    · exact ⟨_, n.samples, rfl⟩
  · exact ⟨_, _, rfl⟩

/-- The statements before the refractory gate write only `Vm`, `samples`,
`h_spike` and `V_th_floor`. -/
theorem before_refractory_gate_frame (cfg : Config α) (exp : α → α) (n : IF_neuron α)
    (h : Heap α) (i : Nat) :
    ∃ (v : α) (s : Samples α) (hs f : α),
      (n.before_refractory_gate cfg exp h i).1 =
        { n with Vm := v, samples := s, h_spike := hs, V_th_floor := f } := by
  obtain ⟨v, s, e⟩ := integrate_frame cfg exp
    { n with Vm :=
        if cfg.spike_option = SpikeOption.RESET_ONSET ∧ n.last_spike_idx.map (· + 1) = some i
        then n.V_reset else n.Vm } h i
  unfold IF_neuron.before_refractory_gate
  simp only []
  rw [e]
  exact ⟨_, _, _, _, rfl⟩

/-- Up to the spike check an update writes only `Vm`, `samples`, `h_spike`,
`V_th_floor` and `reset_done` of the neuron it is given. -/
theorem before_check_frame (cfg : Config α) (exp : α → α) (n : IF_neuron α) (h : Heap α)
    (i : Nat) (t : α) :
    ∃ (v : α) (s : Samples α) (hs f : α) (rd : Bool),
      (n.before_check cfg exp h i t).1 =
        { n with Vm := v, samples := s, h_spike := hs, V_th_floor := f, reset_done := rd } := by
  obtain ⟨v, s, hs, f, e⟩ := before_refractory_gate_frame cfg exp n h i
  unfold IF_neuron.before_check
  split
  · split
    · exact ⟨_, n.samples, n.h_spike, n.V_th_floor, n.reset_done, rfl⟩
    · exact ⟨_, _, _, _, n.reset_done, rfl⟩
  · split
    · simp only [e]
      exact ⟨_, _, _, _, _, rfl⟩
    · rw [e]
      exact ⟨_, _, _, _, n.reset_done, rfl⟩

/-- The neuron an update brings to the spike check, compared with the neuron
before the update: the spike bookkeeping, the forced-spike queue, the
refractory period and the fatigue threshold are as before, and the fatigue is
the recovered fatigue. -/
theorem pre_check_bookkeeping (cfg : Config α) (exp : α → α) (self i : Nat) (t : α)
    (h : Heap α) :
    ((((IF_neuron.after_conductances cfg exp self i t h).neuron self).before_check cfg exp
        (IF_neuron.after_conductances cfg exp self i t h) i t).1.force_spikes =
      (h.neuron self).force_spikes) ∧
    ((((IF_neuron.after_conductances cfg exp self i t h).neuron self).before_check cfg exp
        (IF_neuron.after_conductances cfg exp self i t h) i t).1.t_postspikes =
      (h.neuron self).t_postspikes) ∧
    ((((IF_neuron.after_conductances cfg exp self i t h).neuron self).before_check cfg exp
        (IF_neuron.after_conductances cfg exp self i t h) i t).1.spike_train =
      (h.neuron self).spike_train) ∧
    ((((IF_neuron.after_conductances cfg exp self i t h).neuron self).before_check cfg exp
        (IF_neuron.after_conductances cfg exp self i t h) i t).1.fatigue =
      ((h.neuron self).recover_fatigue cfg).fatigue) ∧
    ((((IF_neuron.after_conductances cfg exp self i t h).neuron self).before_check cfg exp
        (IF_neuron.after_conductances cfg exp self i t h) i t).1.fatigue_threshold =
      (h.neuron self).fatigue_threshold) := by
  obtain ⟨v, s, hs, f, rd, e⟩ := before_check_frame cfg exp
    ((IF_neuron.after_conductances cfg exp self i t h).neuron self)
    (IF_neuron.after_conductances cfg exp self i t h) i t
  rw [e, after_conductances_neuron_self]
  exact ⟨rfl, rfl, rfl, rfl, rfl⟩

/-- The three outcomes of the spike check on the neuron's own members: no spike,
the due forced spike (recorded at its scheduled time, head of the queue
erased), or a threshold spike (recorded at `t`, only when no forced spike is
due and the fatigue cap does not block it). -/
theorem check_spiking_members_cases (cfg : Config α) (n : IF_neuron α) (i : Nat) (t V : α) :
    n.check_spiking_members cfg i t V = n ∨
    (∃ (f : α) (rest : List α), n.force_spikes = f :: rest ∧ t ≥ f ∧
      n.check_spiking_members cfg i t V =
        { n.spike_members cfg i f with force_spikes := rest }) ∨
    (forced_due n.force_spikes t = none ∧
      ¬ (cfg.with_fatigue_threshold ∧ n.fatigue > n.fatigue_threshold) ∧ n.Vm ≥ V ∧
      n.check_spiking_members cfg i t V = n.spike_members cfg i t) := by
  unfold IF_neuron.check_spiking_members
  cases hq : n.force_spikes with
  | nil =>
    simp only [forced_due]
    by_cases hb : cfg.with_fatigue_threshold ∧ n.fatigue > n.fatigue_threshold
    · left
      rw [if_pos hb]
    · rw [if_neg hb]
      by_cases hv : n.Vm ≥ V
      · right
        right
        rw [if_pos hv]
        exact ⟨trivial, hb, hv, rfl⟩
      · left
        rw [if_neg hv]
  | cons f rest =>
    simp only [forced_due]
    by_cases hd : t ≥ f
    · right
      left
      simp only [hd, if_true, List.tail_cons]
      exact ⟨f, rest, rfl, hd, rfl⟩
    · simp only [hd, if_false]
      by_cases hb : cfg.with_fatigue_threshold ∧ n.fatigue > n.fatigue_threshold
      · left
        rw [if_pos hb]
      · rw [if_neg hb]
        by_cases hv : n.Vm ≥ V
        · right
          right
          rw [if_pos hv]
          exact ⟨trivial, hb, hv, rfl⟩
        · left
          rw [if_neg hv]

/-- The neuron at `self` after an update is the neuron brought to the spike
check, or that neuron after the spike check. -/
theorem update_neuron_self (cfg : Config α) (exp : α → α) (self i : Nat) (t : α)
    (h : Heap α) :
    (IF_neuron.update cfg exp self i t h).neuron self =
      match (((IF_neuron.after_conductances cfg exp self i t h).neuron self).before_check cfg exp
          (IF_neuron.after_conductances cfg exp self i t h) i t).2 with
      | none =>
        (((IF_neuron.after_conductances cfg exp self i t h).neuron self).before_check cfg exp
          (IF_neuron.after_conductances cfg exp self i t h) i t).1
      | some V =>
        ((((IF_neuron.after_conductances cfg exp self i t h).neuron self).before_check cfg exp
          (IF_neuron.after_conductances cfg exp self i t h) i t).1).check_spiking_members
            cfg i t V := by
  rw [update_eq_check_spiking]
  cases (((IF_neuron.after_conductances cfg exp self i t h).neuron self).before_check cfg exp
      (IF_neuron.after_conductances cfg exp self i t h) i t).2 with
  | none => simp only [Heap.setNeuron_neuron_self]
  | some V => simp only [check_spiking_neuron_self, Heap.setNeuron_neuron_self]

/-- The three outcomes of an update for the neuron at `self`, in terms of the
neuron `N` the update brings to the spike check: `N` itself (no spike), `N`
after the due forced spike, or `N` after a threshold spike. -/
theorem update_neuron_cases (cfg : Config α) (exp : α → α) (self i : Nat) (t : α)
    (h : Heap α) :
    ∃ N : IF_neuron α,
      N = (((IF_neuron.after_conductances cfg exp self i t h).neuron self).before_check cfg exp
        (IF_neuron.after_conductances cfg exp self i t h) i t).1 ∧
      ((IF_neuron.update cfg exp self i t h).neuron self = N ∨
       (∃ (f : α) (rest : List α), N.force_spikes = f :: rest ∧ t ≥ f ∧
          (IF_neuron.update cfg exp self i t h).neuron self =
            { N.spike_members cfg i f with force_spikes := rest }) ∨
       (forced_due N.force_spikes t = none ∧
          ¬ (cfg.with_fatigue_threshold ∧ N.fatigue > N.fatigue_threshold) ∧
          (IF_neuron.update cfg exp self i t h).neuron self = N.spike_members cfg i t)) := by
  refine ⟨_, rfl, ?_⟩
  rw [update_neuron_self]
  cases (((IF_neuron.after_conductances cfg exp self i t h).neuron self).before_check cfg exp
      (IF_neuron.after_conductances cfg exp self i t h) i t).2 with
  | none => exact Or.inl rfl
  | some V =>
    simp only []
    rcases check_spiking_members_cases cfg
      (((IF_neuron.after_conductances cfg exp self i t h).neuron self).before_check cfg exp
        (IF_neuron.after_conductances cfg exp self i t h) i t).1 i t V with c | c | c
    · exact Or.inl c
    · exact Or.inr (Or.inl c)
    · exact Or.inr (Or.inr ⟨c.1, c.2.1, c.2.2.2⟩)

end UpdateSteps

/-! ## Neuron: spikes per update -/

section SpikesPerUpdate

variable {α : Type} [LinearOrderedField α]

/-- The three outcomes of an update in terms of the neuron before the update:
no spike (history, queue, spike record as before, fatigue the recovered
fatigue); the due forced spike; or a threshold spike, taken only when no
forced spike is due and the fatigue cap does not block it. -/
theorem update_outcomes (cfg : Config α) (exp : α → α) (self i : Nat) (t : α) (h : Heap α) :
    (((IF_neuron.update cfg exp self i t h).neuron self).t_postspikes =
        (h.neuron self).t_postspikes ∧
      ((IF_neuron.update cfg exp self i t h).neuron self).force_spikes =
        (h.neuron self).force_spikes ∧
      ((IF_neuron.update cfg exp self i t h).neuron self).spike_train =
        (h.neuron self).spike_train ∧
      ((IF_neuron.update cfg exp self i t h).neuron self).fatigue =
        ((h.neuron self).recover_fatigue cfg).fatigue) ∨
    (∃ (f : α) (rest : List α), (h.neuron self).force_spikes = f :: rest ∧ t ≥ f ∧
      ((IF_neuron.update cfg exp self i t h).neuron self).t_postspikes =
        (h.neuron self).t_postspikes ++ [f] ∧
      ((IF_neuron.update cfg exp self i t h).neuron self).force_spikes = rest ∧
      ((IF_neuron.update cfg exp self i t h).neuron self).spike_train =
        (h.neuron self).spike_train.set i true ∧
      ((IF_neuron.update cfg exp self i t h).neuron self).fatigue =
        if cfg.with_fatigue_threshold then ((h.neuron self).recover_fatigue cfg).fatigue + 1
        else ((h.neuron self).recover_fatigue cfg).fatigue) ∨
    (forced_due (h.neuron self).force_spikes t = none ∧
      ¬ (cfg.with_fatigue_threshold ∧
        ((h.neuron self).recover_fatigue cfg).fatigue > (h.neuron self).fatigue_threshold) ∧
      ((IF_neuron.update cfg exp self i t h).neuron self).t_postspikes =
        (h.neuron self).t_postspikes ++ [t] ∧
      ((IF_neuron.update cfg exp self i t h).neuron self).force_spikes =
        (h.neuron self).force_spikes ∧
      ((IF_neuron.update cfg exp self i t h).neuron self).spike_train =
        (h.neuron self).spike_train.set i true ∧
      ((IF_neuron.update cfg exp self i t h).neuron self).fatigue =
        if cfg.with_fatigue_threshold then ((h.neuron self).recover_fatigue cfg).fatigue + 1
        else ((h.neuron self).recover_fatigue cfg).fatigue) := by
  obtain ⟨b1, b2, b3, b4, b5⟩ := pre_check_bookkeeping cfg exp self i t h
  obtain ⟨N, hN, hc⟩ := update_neuron_cases cfg exp self i t h
  rw [← hN] at b1 b2 b3 b4 b5
  rcases hc with c | ⟨f, rest, hq, hd, c⟩ | ⟨hnd, hnb, c⟩
  · left
    rw [c]
    exact ⟨b2, b1, b3, b4⟩
  · right
    left
    refine ⟨f, rest, b1 ▸ hq, hd, ?_⟩
    rw [c]
    refine ⟨?_, rfl, ?_, ?_⟩
    · show N.t_postspikes ++ [f] = _
      rw [b2]
    · show N.spike_train.set i true = _
      rw [b3]
    · show (if cfg.with_fatigue_threshold then N.fatigue + 1 else N.fatigue) = _
      rw [b4]
  · right
    right
    rw [b1] at hnd
    rw [b4, b5] at hnb
    refine ⟨hnd, hnb, ?_⟩
    rw [c]
    refine ⟨?_, b1, ?_, ?_⟩
    · show N.t_postspikes ++ [t] = _
      rw [b2]
    · show N.spike_train.set i true = _
      rw [b3]
    · show (if cfg.with_fatigue_threshold then N.fatigue + 1 else N.fatigue) = _
      rw [b4]

/-- C14: a single `update(i, t)` produces at most one spike, for every neuron
state and every `(i, t)`: it appends at most one time to the spike history, can
change the spike record only at index `i`, removes at most one entry (the
head) from the forced-spike queue, and raises the fatigue left by this step's
recovery by at most one unit increment (so by at most `1` over the fatigue
before the update when that is non-negative and `dt/tau_fatigue_recovery ≥ 0`);
and when a forced spike fires (the head `f` leaves the queue), the time
appended is `f` alone: no threshold spike is taken in the same step. -/
theorem update_at_most_one_spike (cfg : Config α) (exp : α → α) (self i : Nat) (t : α)
    (h : Heap α) :
    (((IF_neuron.update cfg exp self i t h).neuron self).t_postspikes =
        (h.neuron self).t_postspikes ∨
      ∃ x : α, ((IF_neuron.update cfg exp self i t h).neuron self).t_postspikes =
        (h.neuron self).t_postspikes ++ [x]) ∧
    (∀ j : Nat, j ≠ i →
      ((IF_neuron.update cfg exp self i t h).neuron self).spike_train[j]? =
        (h.neuron self).spike_train[j]?) ∧
    (((IF_neuron.update cfg exp self i t h).neuron self).force_spikes =
        (h.neuron self).force_spikes ∨
      ((IF_neuron.update cfg exp self i t h).neuron self).force_spikes =
        (h.neuron self).force_spikes.tail) ∧
    (((IF_neuron.update cfg exp self i t h).neuron self).fatigue =
        ((h.neuron self).recover_fatigue cfg).fatigue ∨
      ((IF_neuron.update cfg exp self i t h).neuron self).fatigue =
        ((h.neuron self).recover_fatigue cfg).fatigue + 1) ∧
    (0 ≤ (h.neuron self).fatigue → 0 ≤ cfg.dt / (h.neuron self).tau_fatigue_recovery →
      ((IF_neuron.update cfg exp self i t h).neuron self).fatigue ≤
        (h.neuron self).fatigue + 1) ∧
    (∀ (f : α) (rest : List α), (h.neuron self).force_spikes = f :: rest →
      ((IF_neuron.update cfg exp self i t h).neuron self).force_spikes = rest →
      ((IF_neuron.update cfg exp self i t h).neuron self).t_postspikes =
        (h.neuron self).t_postspikes ++ [f]) := by
  have hrec : 0 ≤ (h.neuron self).fatigue → 0 ≤ cfg.dt / (h.neuron self).tau_fatigue_recovery →
      ((h.neuron self).recover_fatigue cfg).fatigue ≤ (h.neuron self).fatigue := by
    intro h0 hd
    show (if cfg.with_fatigue_threshold then
        max ((h.neuron self).fatigue - cfg.dt / (h.neuron self).tau_fatigue_recovery) 0.0
      else (h.neuron self).fatigue) ≤ _
    split
    · apply max_le
      · linarith
      · norm_num
        exact h0
    · exact le_rfl
  rcases update_outcomes cfg exp self i t h with ⟨c1, c2, c3, c4⟩ | ⟨f, rest, hq, -, c1, c2, c3, c4⟩ |
    ⟨-, -, c1, c2, c3, c4⟩
  · refine ⟨Or.inl c1, fun j _ => by rw [c3], Or.inl c2, Or.inl c4, ?_, ?_⟩
    · intro h0 hd
      rw [c4]
      linarith [hrec h0 hd]
    · intro f rest hq hr
      rw [c2, hq] at hr
      exact absurd hr (List.cons_ne_self f rest)
  · refine ⟨Or.inr ⟨f, c1⟩, ?_, Or.inr ?_, ?_, ?_, ?_⟩
    · intro j hj
      rw [c3]
      exact List.getElem?_set_ne (fun e => hj e.symm)
    · rw [c2, hq]
      rfl
    · rw [c4]
      split
      · exact Or.inr rfl
      · exact Or.inl rfl
    · intro h0 hd
      rw [c4]
      split
      · linarith [hrec h0 hd]
      · linarith [hrec h0 hd]
    · intro f2 rest2 hq2 _
      rw [hq] at hq2
      rw [c1, (List.cons.inj hq2).1]
  · refine ⟨Or.inr ⟨t, c1⟩, ?_, Or.inl c2, ?_, ?_, ?_⟩
    · intro j hj
      rw [c3]
      exact List.getElem?_set_ne (fun e => hj e.symm)
    · rw [c4]
      split
      · exact Or.inr rfl
      · exact Or.inl rfl
    · intro h0 hd
      rw [c4]
      split
      · linarith [hrec h0 hd]
      · linarith [hrec h0 hd]
    · intro f rest hq hr
      rw [c2, hq] at hr
      exact absurd hr (List.cons_ne_self f rest)

/-- The conductance updates of the incoming synapses leave every synaptic
weight as it was. -/
theorem foldl_syn_update_weight (exp : α → α) (i : Nat) (t : α) (self : Nat) (l : List Nat)
    (h : Heap α) (q : Nat) :
    ((l.foldl (fun h p => syn_update_at exp i t (h.neuron self).Vm h p) h).syn q).weight =
      (h.syn q).weight := by
  induction l generalizing h with
  | nil => rfl
  | cons p rest ih =>
    rw [List.foldl_cons, ih]
    unfold syn_update_at Heap.setSyn
    by_cases e : q = p
    · subst e
      simp only [Function.update_same]
      rfl
    · simp only [Function.update_noteq e]

/-- The fatigue recovery and `update_conductances` leave every synaptic weight
as it was. -/
theorem after_conductances_weight (cfg : Config α) (exp : α → α) (self i : Nat) (t : α)
    (h : Heap α) (q : Nat) :
    ((IF_neuron.after_conductances cfg exp self i t h).syn q).weight = (h.syn q).weight := by
  unfold IF_neuron.after_conductances IF_neuron.update_conductances
  exact foldl_syn_update_weight exp i t self _ _ q

/-- With no forced spike due and the fatigue cap exceeded, `check_spiking`
returns without any effect. -/
theorem check_spiking_blocked (cfg : Config α) (exp : α → α) (self i : Nat) (t V : α)
    (h : Heap α) (hnd : forced_due (h.neuron self).force_spikes t = none)
    (hb : cfg.with_fatigue_threshold ∧ (h.neuron self).fatigue > (h.neuron self).fatigue_threshold) :
    IF_neuron.check_spiking cfg exp self i t V h = h := by
  unfold IF_neuron.check_spiking
  rw [hnd]
  simp only [hb, and_self, if_true]

/-- The test that no forced spike is due: the queue is empty or `t` is before
its head. -/
theorem forced_due_eq_none (l : List α) (t : α)
    (hq : l = [] ∨ ∃ (f : α) (rest : List α), l = f :: rest ∧ t < f) :
    forced_due l t = none := by
  rcases hq with rfl | ⟨f, rest, rfl, hlt⟩
  · rfl
  · simp [forced_due, not_le.mpr hlt]

/-- C11: with the fatigue cap enabled and no forced spike due (queue empty or
`t` before its head), an `update(i, t)` of a neuron whose fatigue after this
step's decay is greater than `fatigue_threshold` produces no spike, whatever
`Vm` and the effective threshold are: the spike history, the spike record and
the forced queue are unchanged, the fatigue is the decayed fatigue (no
increment) and every synaptic weight is unchanged; conversely, an update that
appends to the spike history has decayed fatigue `≤ fatigue_threshold`. -/
theorem fatigue_cap_blocks_threshold_spike (cfg : Config α) (exp : α → α) (self i : Nat)
    (t : α) (h : Heap α) (hen : cfg.with_fatigue_threshold = true)
    (hq : (h.neuron self).force_spikes = [] ∨
      ∃ (f : α) (rest : List α), (h.neuron self).force_spikes = f :: rest ∧ t < f) :
    (((h.neuron self).recover_fatigue cfg).fatigue > (h.neuron self).fatigue_threshold →
      ((IF_neuron.update cfg exp self i t h).neuron self).t_postspikes =
        (h.neuron self).t_postspikes ∧
      ((IF_neuron.update cfg exp self i t h).neuron self).spike_train =
        (h.neuron self).spike_train ∧
      ((IF_neuron.update cfg exp self i t h).neuron self).force_spikes =
        (h.neuron self).force_spikes ∧
      ((IF_neuron.update cfg exp self i t h).neuron self).fatigue =
        max ((h.neuron self).fatigue - cfg.dt / (h.neuron self).tau_fatigue_recovery) 0 ∧
      ∀ p : Nat, ((IF_neuron.update cfg exp self i t h).syn p).weight = (h.syn p).weight) ∧
    (((IF_neuron.update cfg exp self i t h).neuron self).t_postspikes ≠
        (h.neuron self).t_postspikes →
      max ((h.neuron self).fatigue - cfg.dt / (h.neuron self).tau_fatigue_recovery) 0 ≤
        (h.neuron self).fatigue_threshold) := by
  have hnd := forced_due_eq_none (h.neuron self).force_spikes t hq
  have hrec : ((h.neuron self).recover_fatigue cfg).fatigue =
      max ((h.neuron self).fatigue - cfg.dt / (h.neuron self).tau_fatigue_recovery) 0 := by
    show (if cfg.with_fatigue_threshold then
        max ((h.neuron self).fatigue - cfg.dt / (h.neuron self).tau_fatigue_recovery) 0.0
      else (h.neuron self).fatigue) = _
    rw [if_pos hen]
    norm_num
  obtain ⟨b1, b2, b3, b4, b5⟩ := pre_check_bookkeeping cfg exp self i t h
  have part1 : ((h.neuron self).recover_fatigue cfg).fatigue > (h.neuron self).fatigue_threshold →
      IF_neuron.update cfg exp self i t h =
        (IF_neuron.after_conductances cfg exp self i t h).setNeuron self
          (((IF_neuron.after_conductances cfg exp self i t h).neuron self).before_check cfg exp
            (IF_neuron.after_conductances cfg exp self i t h) i t).1 := by
    intro hcap
    rw [update_eq_check_spiking]
    cases (((IF_neuron.after_conductances cfg exp self i t h).neuron self).before_check cfg exp
        (IF_neuron.after_conductances cfg exp self i t h) i t).2 with
    | none => rfl
    | some V =>
      simp only []
      apply check_spiking_blocked
      · rw [Heap.setNeuron_neuron_self, b1]
        exact hnd
      · rw [Heap.setNeuron_neuron_self, b4, b5]
        exact ⟨hen, hcap⟩
  constructor
  · intro hcap
    rw [part1 hcap, Heap.setNeuron_neuron_self, b1, b2, b3, b4]
    exact ⟨rfl, rfl, rfl, hrec, fun p => after_conductances_weight cfg exp self i t h p⟩
  · intro hne
    by_contra hcon
    have hcap : ((h.neuron self).recover_fatigue cfg).fatigue >
        (h.neuron self).fatigue_threshold := by
      rw [hrec]
      exact not_le.mp hcon
    apply hne
    rw [part1 hcap, Heap.setNeuron_neuron_self, b2]

end SpikesPerUpdate

/-! ## Neuron: order of the spike history -/

section HistoryOrder

variable {α : Type} [LinearOrderedField α]

/-- One update keeps the spike history non-decreasing, the forced-spike queue
ascending and every recorded spike no later than every queued one, provided
every recorded spike is before the time `t` of the update; afterwards every
recorded spike is at or before `t`. -/
theorem update_keeps_history_sorted (cfg : Config α) (exp : α → α) (self i : Nat) (t : α)
    (h : Heap α)
    (h1 : List.Pairwise (· ≤ ·) (h.neuron self).t_postspikes)
    (h2 : List.Pairwise (· ≤ ·) (h.neuron self).force_spikes)
    (h3 : ∀ s ∈ (h.neuron self).t_postspikes, ∀ f ∈ (h.neuron self).force_spikes, s ≤ f)
    (h4 : ∀ s ∈ (h.neuron self).t_postspikes, s < t) :
    List.Pairwise (· ≤ ·) ((IF_neuron.update cfg exp self i t h).neuron self).t_postspikes ∧
    List.Pairwise (· ≤ ·) ((IF_neuron.update cfg exp self i t h).neuron self).force_spikes ∧
    (∀ s ∈ ((IF_neuron.update cfg exp self i t h).neuron self).t_postspikes,
      ∀ f ∈ ((IF_neuron.update cfg exp self i t h).neuron self).force_spikes, s ≤ f) ∧
    (∀ s ∈ ((IF_neuron.update cfg exp self i t h).neuron self).t_postspikes, s ≤ t) := by
  rcases update_outcomes cfg exp self i t h with ⟨c1, c2, -, -⟩ | ⟨f, rest, hq, hd, c1, c2, -, -⟩ |
    ⟨hnd, -, c1, c2, -, -⟩
  · rw [c1, c2]
    exact ⟨h1, h2, h3, fun s hs => (h4 s hs).le⟩
  · rw [c1, c2]
    rw [hq] at h2 h3
    have hf : ∀ s ∈ (h.neuron self).t_postspikes, s ≤ f := fun s hs =>
      h3 s hs f (List.mem_cons_self f rest)
    refine ⟨?_, (List.pairwise_cons.mp h2).2, ?_, ?_⟩
    · rw [List.pairwise_append]
      refine ⟨h1, List.pairwise_singleton _ _, ?_⟩
      intro a ha b hb
      rw [List.mem_singleton] at hb
      rw [hb]
      exact hf a ha
    · intro s hs f2 hf2
      rcases List.mem_append.mp hs with hs | hs
      · exact h3 s hs f2 (List.mem_cons_of_mem f hf2)
      · rw [List.mem_singleton] at hs
        rw [hs]
        exact (List.pairwise_cons.mp h2).1 f2 hf2
    · intro s hs
      rcases List.mem_append.mp hs with hs | hs
      · exact (h4 s hs).le
      · rw [List.mem_singleton] at hs
        rw [hs]
        exact hd
  · rw [c1, c2]
    refine ⟨?_, h2, ?_, ?_⟩
    · rw [List.pairwise_append]
      refine ⟨h1, List.pairwise_singleton _ _, ?_⟩
      intro a ha b hb
      rw [List.mem_singleton] at hb
      rw [hb]
      exact (h4 a ha).le
    · intro s hs f2 hf2
      rcases List.mem_append.mp hs with hs | hs
      · exact h3 s hs f2 hf2
      · rw [List.mem_singleton] at hs
        rw [hs]
        cases hq : (h.neuron self).force_spikes with
        | nil =>
          rw [hq] at hf2
          exact absurd hf2 (List.not_mem_nil _)
        | cons f rest =>
          rw [hq] at hnd h2 hf2
          have hlt : t < f := by
            by_contra hcon
            simp [forced_due, not_lt.mp hcon] at hnd
          rcases List.mem_cons.mp hf2 with e | e
          · rw [e]
            exact hlt.le
          · exact le_trans hlt.le ((List.pairwise_cons.mp h2).1 f2 e)
    · intro s hs
      rcases List.mem_append.mp hs with hs | hs
      · exact (h4 s hs).le
      · rw [List.mem_singleton] at hs
        rw [hs]

/-- A run with strictly increasing update times keeps the invariant of
`update_keeps_history_sorted`, provided every spike recorded before the run is
before every update time of the run. -/
theorem run_keeps_history_sorted (cfg : Config α) (exp : α → α) (self : Nat)
    (steps : List (Nat × α)) (h : Heap α)
    (htimes : List.Pairwise (· < ·) (steps.map Prod.snd))
    (h1 : List.Pairwise (· ≤ ·) (h.neuron self).t_postspikes)
    (h2 : List.Pairwise (· ≤ ·) (h.neuron self).force_spikes)
    (h3 : ∀ s ∈ (h.neuron self).t_postspikes, ∀ f ∈ (h.neuron self).force_spikes, s ≤ f)
    (h4 : ∀ s ∈ (h.neuron self).t_postspikes, ∀ t ∈ steps.map Prod.snd, s < t) :
    List.Pairwise (· ≤ ·) ((IF_neuron.run cfg exp self steps h).neuron self).t_postspikes := by
  induction steps generalizing h with
  | nil => exact h1
  | cons st rest ih =>
    rw [List.map_cons, List.pairwise_cons] at htimes
    obtain ⟨k1, k2, k3, k4⟩ := update_keeps_history_sorted cfg exp self st.1 st.2 h h1 h2 h3
      (fun s hs => h4 s hs st.2 (by simp))
    show List.Pairwise (· ≤ ·)
      ((IF_neuron.run cfg exp self rest (IF_neuron.update cfg exp self st.1 st.2 h)).neuron
        self).t_postspikes
    apply ih _ htimes.2 k1 k2 k3
    intro s hs t ht
    exact lt_of_le_of_lt (k4 s hs) (htimes.1 t ht)

/-- C13: for every run that starts from a neuron with an empty spike history (as
freshly constructed) and an ascending forced-spike schedule and calls `update`
with strictly increasing times, the spike history is non-decreasing after the
run (hence after every update of it, each prefix being such a run), and each
further update only appends to it: the history before is a prefix of the
history after. -/
theorem spike_history_append_only_sorted (cfg : Config α) (exp : α → α) (self : Nat)
    (steps : List (Nat × α)) (h : Heap α)
    (hfresh : (h.neuron self).t_postspikes = [])
    (hsched : List.Pairwise (· ≤ ·) (h.neuron self).force_spikes)
    (htimes : List.Pairwise (· < ·) (steps.map Prod.snd)) :
    List.Pairwise (· ≤ ·) ((IF_neuron.run cfg exp self steps h).neuron self).t_postspikes ∧
    (∀ k : Nat, List.Pairwise (· ≤ ·)
      ((IF_neuron.run cfg exp self (steps.take k) h).neuron self).t_postspikes) ∧
    (∀ (i : Nat) (t : α),
      ((IF_neuron.run cfg exp self steps h).neuron self).t_postspikes <+:
        ((IF_neuron.run cfg exp self (steps ++ [(i, t)]) h).neuron self).t_postspikes) := by
  have base : ∀ l : List (Nat × α), List.Pairwise (· < ·) (l.map Prod.snd) →
      List.Pairwise (· ≤ ·) ((IF_neuron.run cfg exp self l h).neuron self).t_postspikes := by
    intro l hl
    apply run_keeps_history_sorted cfg exp self l h hl
    · rw [hfresh]
      exact List.Pairwise.nil
    · exact hsched
    · rw [hfresh]
      intro s hs
      exact absurd hs (List.not_mem_nil _)
    · rw [hfresh]
      intro s hs
      exact absurd hs (List.not_mem_nil _)
  refine ⟨base steps htimes, ?_, ?_⟩
  · intro k
    apply base
    rw [← List.take_append_drop k steps, List.map_append, List.pairwise_append] at htimes
    exact htimes.1
  · intro i t
    have e : IF_neuron.run cfg exp self (steps ++ [(i, t)]) h =
        IF_neuron.update cfg exp self i t (IF_neuron.run cfg exp self steps h) := by
      unfold IF_neuron.run
      rw [List.foldl_append]
      rfl
    rw [e]
    rcases update_outcomes cfg exp self i t (IF_neuron.run cfg exp self steps h) with
      ⟨c1, -, -, -⟩ | ⟨f, rest, -, -, c1, -, -, -⟩ | ⟨-, -, c1, -, -, -⟩
    · rw [c1]
    · rw [c1]
      exact List.prefix_append _ _
    · rw [c1]
      exact List.prefix_append _ _

end HistoryOrder

/-! ## Neuron: adaptive threshold -/

section AdaptiveThreshold

variable {α : Type} [LinearOrderedField α]

/-- The constructor leaves the spike-dependent state as `constructed` says. -/
theorem init_constructed (cfg : Config α) (neuron_id : String) (f_spikes : List α)
    (p_syn : List Nat) (nf ns nA : α) :
    (IF_neuron.init cfg neuron_id f_spikes p_syn nf ns nA).constructed :=
  ⟨rfl, rfl, rfl, rfl, rfl⟩

end AdaptiveThreshold

/-! ## Neuron: a step without input -/

section QuietStep

variable {α : Type} [LinearOrderedField α]

end QuietStep

/-! ## Instances at the example states -/

section StateInstances

/-- C11 instantiated at the fatigued example neuron (fatigue `400`, threshold
`300`, forced spike scheduled at `100`) updated at step `5`, `t = 5`. -/
theorem fatigue_cap_blocks_threshold_spike_witness :
    ((IF_neuron.update Config.source Real.exp 0 5 5
        (Heap.single Real.exp Real.log (fatigued_example Real.exp Real.log))).neuron 0).t_postspikes
      = [] ∧
    ((IF_neuron.update Config.source Real.exp 0 5 5
        (Heap.single Real.exp Real.log (fatigued_example Real.exp Real.log))).neuron 0).fatigue
      = max (400 - 1 / 1000) 0 :=
  have h := (fatigue_cap_blocks_threshold_spike Config.source Real.exp 0 5 5
    (Heap.single Real.exp Real.log (fatigued_example Real.exp Real.log)) rfl
    (Or.inr ⟨100, [], rfl, by norm_num⟩)).1
    (by
      show (if true = true then max ((400 : ℝ) - 1 / 1000) 0.0 else 400) > 300
      rw [if_pos rfl]
      exact lt_max_of_lt_left (by norm_num))
  ⟨h.1, h.2.2.2.1⟩

/-- C13 instantiated at the freshly constructed example neuron (forced spike
scheduled at `100`) and the run of updates at times `99`, `100`, `101`. -/
theorem spike_history_append_only_sorted_witness :
    List.Pairwise (· ≤ ·)
      ((IF_neuron.run Config.source Real.exp 0 [(99, 99), (100, 100), (101, 101)]
        (Heap.single Real.exp Real.log (fresh_example Real.exp Real.log))).neuron 0).t_postspikes :=
  (spike_history_append_only_sorted Config.source Real.exp 0 [(99, 99), (100, 100), (101, 101)]
    (Heap.single Real.exp Real.log (fresh_example Real.exp Real.log)) rfl
    (List.pairwise_singleton _ _)
    (by
      simp only [List.map_cons, List.map_nil, List.pairwise_cons, List.mem_cons,
        List.mem_singleton, List.not_mem_nil, false_implies, implies_true, List.Pairwise.nil,
        and_true, forall_eq_or_imp, forall_eq]
      norm_num)).1

/-- C14 instantiated at the freshly constructed example neuron updated at step
`100`, `t = 100`: the fatigue rises by at most `1`. -/
theorem update_at_most_one_spike_witness :
    ((IF_neuron.update Config.source Real.exp 0 100 100
        (Heap.single Real.exp Real.log (fresh_example Real.exp Real.log))).neuron 0).fatigue ≤
      0.0 + 1 ∧
    ((IF_neuron.update Config.source Real.exp 0 100 100
        (Heap.single Real.exp Real.log (fresh_example Real.exp Real.log))).neuron 0).spike_train[101]?
      = (List.replicate 4000 false)[101]? :=
  ⟨(update_at_most_one_spike Config.source Real.exp 0 100 100
      (Heap.single Real.exp Real.log (fresh_example Real.exp Real.log))).2.2.2.2.1
      (by
        show (0 : ℝ) ≤ 0.0
        norm_num)
      (by
        show (0 : ℝ) ≤ 1 / 1000
        norm_num),
   (update_at_most_one_spike Config.source Real.exp 0 100 100
      (Heap.single Real.exp Real.log (fresh_example Real.exp Real.log))).2.1 101 (by decide)⟩

/-- Repeated pairing in exact arithmetic at the AMPA example synapse (weight
`0.5`, `A_pos = A_neg = 0.01`): a pairing with `t_pre = 100 < t = 105` never decreases the weight, and a
pairing with `t = 95 ≤ t_pre = 100` never increases it. -/
theorem stdp_repeated_pairing_saturates_witness :
    ((AMPA_example Real.exp Real.log).stdp_repeat Real.exp ([] ++ [100]) 105 3).weight ≤
      ((AMPA_example Real.exp Real.log).stdp_repeat Real.exp ([] ++ [100]) 105 (3 + 1)).weight ∧
    ((AMPA_example Real.exp Real.log).stdp_repeat Real.exp ([] ++ [100]) 95 (3 + 1)).weight ≤
      ((AMPA_example Real.exp Real.log).stdp_repeat Real.exp ([] ++ [100]) 95 3).weight :=
  ⟨((stdp_repeated_pairing_saturates (AMPA_example Real.exp Real.log) [] 100 105 rfl
      (by
        show (0 : ℝ) ≤ 0.5
        norm_num)
      (by
        show (0.5 : ℝ) ≤ 1
        norm_num)).1
      (by
        show (0 : ℝ) < 0.01
        norm_num)
      (by norm_num)).1 3,
   ((stdp_repeated_pairing_saturates (AMPA_example Real.exp Real.log) [] 100 95 rfl
      (by
        show (0 : ℝ) ≤ 0.5
        norm_num)
      (by
        show (0.5 : ℝ) ≤ 1
        norm_num)).2
      (by
        show (0 : ℝ) < 0.01
        norm_num)
      (by norm_num)).1 3⟩

/-- C18 instantiated at the freshly constructed example neuron and step `100`:
entry `101` of the `Vm` series is untouched and entry `100` holds `Vm`. -/
theorem record_is_pure_read_witness :
    (((fresh_example Real.exp Real.log).record 100).samples.Vm[101]? =
      (fresh_example Real.exp Real.log).samples.Vm[101]?) ∧
    ((fresh_example Real.exp Real.log).record 100).samples.Vm[100]? =
      some (fresh_example Real.exp Real.log).Vm :=
  ⟨((record_is_pure_read (fresh_example Real.exp Real.log) 100).2.2.2.1 101 (by decide)).1,
   (record_is_pure_read (fresh_example Real.exp Real.log) 100).2.2.2.2.1
    (by
      show 100 < (List.replicate 4000 (0.0 : ℝ)).length
      rw [List.length_replicate]
      norm_num)⟩

end StateInstances

/-! ## The circuit of `main`: the output neuron before the first input -/

section NeverSpiked

variable {α : Type} [LinearOrderedField α]

/-- Up to the spike check an update keeps `reset_done` once it is set. -/
theorem before_check_reset_done (cfg : Config α) (exp : α → α) (n : IF_neuron α) (h : Heap α)
    (i : Nat) (t : α) (hr : n.reset_done = true) :
    (n.before_check cfg exp h i t).1.reset_done = true := by
  obtain ⟨v, s, hs, f, e⟩ := before_refractory_gate_frame cfg exp n h i
  unfold IF_neuron.before_check
  split
  · split
    · exact hr
    · exact hr
  · split
    · show (if _ then true else _) = true
      split
      · rfl
      · rw [e]
        exact hr
    · rw [e]
      exact hr

end NeverSpiked

section CircuitSteps

variable {α : Type} [LinearOrderedField α]

end CircuitSteps

section CircuitStart

variable {α : Type} [LinearOrderedField α]

end CircuitStart

section CircuitInstances

end CircuitInstances

/-! ## Synapse: sign of the STDP weight change -/

section StdpSign

end StdpSign

/-! ## Neuron: the capacitance-form exponential-Euler step does not overshoot -/

section NoOvershoot

end NoOvershoot

section SignAndOvershootInstances

end SignAndOvershootInstances

/-! ## Neuron: the refractory gate -/

section RefractoryGate

variable {α : Type} [LinearOrderedField α]

/-- Inside the refractory window the statements up to the spike check end
without a spike check: in the classical mode with the clamp `Vm = V_reset`, in
the reset-option mode with the neuron as the statements before the gate leave
it. -/
theorem before_check_closed (cfg : Config α) (exp : α → α) (n : IF_neuron α) (h : Heap α)
    (i : Nat) (t : α) (href : t < n.t_last_spike + n.refractory_period) :
    (n.before_check cfg exp h i t).2 = none ∧
    (n.before_check cfg exp h i t).1 =
      if cfg.classical_IF then { n with Vm := n.V_reset }
      else (n.before_refractory_gate cfg exp h i).1 := by
  unfold IF_neuron.before_check
  by_cases hc : cfg.classical_IF = true
  · rw [if_pos hc, if_pos href, if_pos hc]
    exact ⟨rfl, rfl⟩
  · obtain ⟨-, -, -, g4, g5⟩ := before_refractory_gate_bookkeeping cfg exp n h i
    have hgate : ¬ (t ≥ (n.before_refractory_gate cfg exp h i).1.t_last_spike +
        (n.before_refractory_gate cfg exp h i).1.refractory_period) := by
      rw [g4, g5]
      exact not_le.mpr href
    rw [if_neg hc, if_neg hgate, if_neg hc]
    exact ⟨rfl, rfl⟩

/-- Outside the refractory window, in the reset-option mode, the statements up
to the spike check apply the reset-after restoration when it is pending and
pass the adaptive threshold to the spike check. -/
theorem before_check_open (cfg : Config α) (exp : α → α) (n : IF_neuron α) (h : Heap α)
    (i : Nat) (t : α) (hc : cfg.classical_IF = false)
    (hopen : t ≥ n.t_last_spike + n.refractory_period) :
    (n.before_check cfg exp h i t).2 = some (n.before_refractory_gate cfg exp h i).2.2 ∧
    (n.before_check cfg exp h i t).1.Vm =
      (if cfg.spike_option ≠ SpikeOption.RESET_ONSET ∧ ¬ n.reset_done then
        n.V_reset + (n.before_refractory_gate cfg exp h i).2.1
      else (n.before_refractory_gate cfg exp h i).1.Vm) ∧
    (n.before_check cfg exp h i t).1.reset_done =
      (if cfg.spike_option ≠ SpikeOption.RESET_ONSET ∧ ¬ n.reset_done then true
      else n.reset_done) := by
  obtain ⟨-, -, -, g4, g5⟩ := before_refractory_gate_bookkeeping cfg exp n h i
  obtain ⟨v, s, hs, f, e⟩ := before_refractory_gate_frame cfg exp n h i
  have hrd : (n.before_refractory_gate cfg exp h i).1.reset_done = n.reset_done := by rw [e]
  have hvr : (n.before_refractory_gate cfg exp h i).1.V_reset = n.V_reset := by rw [e]
  have hgate : t ≥ (n.before_refractory_gate cfg exp h i).1.t_last_spike +
      (n.before_refractory_gate cfg exp h i).1.refractory_period := by
    rw [g4, g5]
    exact hopen
  have hc' : ¬ cfg.classical_IF = true := by
    rw [hc]
    exact Bool.false_ne_true
  unfold IF_neuron.before_check
  rw [if_neg hc', if_pos hgate]
  refine ⟨rfl, ?_, ?_⟩
  · show (if _ then (n.before_refractory_gate cfg exp h i).1.V_reset + _ else _) = _
    rw [hrd, hvr]
  · show (if _ then true else (n.before_refractory_gate cfg exp h i).1.reset_done) = _
    rw [hrd]

/-- The statements before the refractory gate relax `h_spike` and the
threshold floor, and return `dV = 0` under exponential Euler. -/
theorem before_refractory_gate_values (cfg : Config α) (exp : α → α) (n : IF_neuron α)
    (h : Heap α) (i : Nat) :
    (n.before_refractory_gate cfg exp h i).1.h_spike =
      n.h_spike + cfg.dt * (1 - n.h_spike) / n.tau_h ∧
    (cfg.use_exponential_Euler = true → (n.before_refractory_gate cfg exp h i).2.1 = 0) := by
  obtain ⟨v, s, e⟩ := integrate_frame cfg exp
    { n with Vm :=
        if cfg.spike_option = SpikeOption.RESET_ONSET ∧ n.last_spike_idx.map (· + 1) = some i
        then n.V_reset else n.Vm } h i
  constructor
  · unfold IF_neuron.before_refractory_gate
    simp only []
    rw [e]
    rfl
  · intro hexp
    show (IF_neuron.integrate cfg exp _ h i).2 = 0
    unfold IF_neuron.integrate
    rw [if_pos hexp]
    split
    · rfl
    · rfl

/-- Inside the refractory window an update is the fatigue recovery and
`update_conductances` followed by the clamp (classical mode) or by the
statements before the gate (reset-option mode): `check_spiking` is not
called. -/
theorem update_in_window (cfg : Config α) (exp : α → α) (self i : Nat) (t : α) (h : Heap α)
    (href : t < (h.neuron self).t_last_spike + (h.neuron self).refractory_period) :
    IF_neuron.update cfg exp self i t h =
      (IF_neuron.after_conductances cfg exp self i t h).setNeuron self
        (if cfg.classical_IF then
          { (IF_neuron.after_conductances cfg exp self i t h).neuron self with
            Vm := ((IF_neuron.after_conductances cfg exp self i t h).neuron self).V_reset }
        else
          (((IF_neuron.after_conductances cfg exp self i t h).neuron self).before_refractory_gate
            cfg exp (IF_neuron.after_conductances cfg exp self i t h) i).1) := by
  have hn1 := after_conductances_neuron_self cfg exp self i t h
  have href1 : t < ((IF_neuron.after_conductances cfg exp self i t h).neuron self).t_last_spike +
      ((IF_neuron.after_conductances cfg exp self i t h).neuron self).refractory_period := by
    rw [hn1]
    exact href
  obtain ⟨c1, c2⟩ := before_check_closed cfg exp
    ((IF_neuron.after_conductances cfg exp self i t h).neuron self)
    (IF_neuron.after_conductances cfg exp self i t h) i t href1
  rw [update_eq_check_spiking, c1, c2]

/-- Outside the refractory window, in the reset-option mode, the neuron after
an update is the result of the spike check on the neuron the statements up to
the check leave. -/
theorem update_open (cfg : Config α) (exp : α → α) (self i : Nat) (t : α) (h : Heap α)
    (hc : cfg.classical_IF = false)
    (hopen : t ≥ (h.neuron self).t_last_spike + (h.neuron self).refractory_period) :
    (IF_neuron.update cfg exp self i t h).neuron self =
      ((((IF_neuron.after_conductances cfg exp self i t h).neuron self).before_check cfg exp
        (IF_neuron.after_conductances cfg exp self i t h) i t).1).check_spiking_members cfg i t
        (((IF_neuron.after_conductances cfg exp self i t h).neuron self).before_refractory_gate
          cfg exp (IF_neuron.after_conductances cfg exp self i t h) i).2.2 := by
  have hn1 := after_conductances_neuron_self cfg exp self i t h
  have hopen1 : t ≥ ((IF_neuron.after_conductances cfg exp self i t h).neuron self).t_last_spike +
      ((IF_neuron.after_conductances cfg exp self i t h).neuron self).refractory_period := by
    rw [hn1]
    exact hopen
  obtain ⟨c1, -⟩ := before_check_open cfg exp
    ((IF_neuron.after_conductances cfg exp self i t h).neuron self)
    (IF_neuron.after_conductances cfg exp self i t h) i t hc hopen1
  rw [update_neuron_self, c1]

/-- C21: spike checking is gated by the refractory window.  For every neuron
state and every `t < t_last_spike + refractory_period`, `update(i, t)` produces
no spike in the reset-option mode and in the classical mode alike: the spike
history, the spike record and the forced queue are unchanged, the fatigue is
the decayed fatigue without the increment of a spike, every synaptic weight
is unchanged, and `reset_done` and the remembered `V_reset` are unchanged; in
the reset-option mode the neuron is left as the statements before the gate
leave it, so the reset-after restoration of `Vm` is not applied, and in the
classical mode `Vm` is clamped to `V_reset`.  Conversely an update that changes
the spike history, the spike record, the forced queue or `reset_done` has
`t ≥ t_last_spike + refractory_period`. -/
theorem refractory_window_blocks_spike_check (cfg : Config α) (exp : α → α) (self i : Nat)
    (t : α) (h : Heap α) :
    (t < (h.neuron self).t_last_spike + (h.neuron self).refractory_period →
      ((IF_neuron.update cfg exp self i t h).neuron self).t_postspikes =
        (h.neuron self).t_postspikes ∧
      ((IF_neuron.update cfg exp self i t h).neuron self).spike_train =
        (h.neuron self).spike_train ∧
      ((IF_neuron.update cfg exp self i t h).neuron self).force_spikes =
        (h.neuron self).force_spikes ∧
      ((IF_neuron.update cfg exp self i t h).neuron self).fatigue =
        ((h.neuron self).recover_fatigue cfg).fatigue ∧
      (∀ q : Nat, ((IF_neuron.update cfg exp self i t h).syn q).weight = (h.syn q).weight) ∧
      ((IF_neuron.update cfg exp self i t h).neuron self).reset_done =
        (h.neuron self).reset_done ∧
      ((IF_neuron.update cfg exp self i t h).neuron self).V_reset = (h.neuron self).V_reset ∧
      (cfg.classical_IF = false →
        (IF_neuron.update cfg exp self i t h).neuron self =
          (((IF_neuron.after_conductances cfg exp self i t h).neuron self).before_refractory_gate
            cfg exp (IF_neuron.after_conductances cfg exp self i t h) i).1) ∧
      (cfg.classical_IF = true →
        ((IF_neuron.update cfg exp self i t h).neuron self).Vm = (h.neuron self).V_reset)) ∧
    ((((IF_neuron.update cfg exp self i t h).neuron self).t_postspikes ≠
          (h.neuron self).t_postspikes ∨
        ((IF_neuron.update cfg exp self i t h).neuron self).spike_train ≠
          (h.neuron self).spike_train ∨
        ((IF_neuron.update cfg exp self i t h).neuron self).force_spikes ≠
          (h.neuron self).force_spikes ∨
        ((IF_neuron.update cfg exp self i t h).neuron self).reset_done ≠
          (h.neuron self).reset_done) →
      t ≥ (h.neuron self).t_last_spike + (h.neuron self).refractory_period) := by
  have key : t < (h.neuron self).t_last_spike + (h.neuron self).refractory_period →
      ((IF_neuron.update cfg exp self i t h).neuron self).t_postspikes =
        (h.neuron self).t_postspikes ∧
      ((IF_neuron.update cfg exp self i t h).neuron self).spike_train =
        (h.neuron self).spike_train ∧
      ((IF_neuron.update cfg exp self i t h).neuron self).force_spikes =
        (h.neuron self).force_spikes ∧
      ((IF_neuron.update cfg exp self i t h).neuron self).fatigue =
        ((h.neuron self).recover_fatigue cfg).fatigue ∧
      (∀ q : Nat, ((IF_neuron.update cfg exp self i t h).syn q).weight = (h.syn q).weight) ∧
      ((IF_neuron.update cfg exp self i t h).neuron self).reset_done =
        (h.neuron self).reset_done ∧
      ((IF_neuron.update cfg exp self i t h).neuron self).V_reset = (h.neuron self).V_reset ∧
      (cfg.classical_IF = false →
        (IF_neuron.update cfg exp self i t h).neuron self =
          (((IF_neuron.after_conductances cfg exp self i t h).neuron self).before_refractory_gate
            cfg exp (IF_neuron.after_conductances cfg exp self i t h) i).1) ∧
      (cfg.classical_IF = true →
        ((IF_neuron.update cfg exp self i t h).neuron self).Vm = (h.neuron self).V_reset) := by
    intro href
    have hn1 := after_conductances_neuron_self cfg exp self i t h
    obtain ⟨v, s, hs, f, e⟩ := before_refractory_gate_frame cfg exp
      ((IF_neuron.after_conductances cfg exp self i t h).neuron self)
      (IF_neuron.after_conductances cfg exp self i t h) i
    have hw : ∀ q : Nat, ((IF_neuron.after_conductances cfg exp self i t h).syn q).weight =
        (h.syn q).weight := after_conductances_weight cfg exp self i t h
    rw [update_in_window cfg exp self i t h href, Heap.setNeuron_neuron_self]
    by_cases hc : cfg.classical_IF = true
    · rw [if_pos hc, hn1]
      refine ⟨rfl, rfl, rfl, rfl, hw, rfl, rfl, fun hcf => ?_, fun _ => rfl⟩
      rw [hc] at hcf
      exact absurd hcf (by decide)
    · rw [if_neg hc]
      refine ⟨?_, ?_, ?_, ?_, hw, ?_, ?_, fun _ => rfl, fun hct => absurd hct hc⟩
      · rw [e, hn1]
        rfl
      · rw [e, hn1]
        rfl
      · rw [e, hn1]
        rfl
      · rw [e, hn1]
        rfl
      · rw [e, hn1]
        rfl
      · rw [e, hn1]
        rfl
  refine ⟨key, ?_⟩
  intro hch
  by_contra hlt
  obtain ⟨k1, k2, k3, -, -, k6, -⟩ := key (not_le.mp hlt)
  rcases hch with c | c | c | c
  · exact c k1
  · exact c k2
  · exact c k3
  · exact c k6

end RefractoryGate

section RefractoryGateInstances

/-- C21 instantiated at the refractory example neuron (last spike at `100`,
refractory period `2`, next forced spike scheduled at `101`) updated at step
`101`, `t = 101`: the scheduled spike is not taken. -/
theorem refractory_window_blocks_spike_check_witness :
    ((IF_neuron.update Config.source Real.exp 0 101 101
        (Heap.single Real.exp Real.log (refractory_example Real.exp Real.log))).neuron
      0).t_postspikes =
      ((Heap.single Real.exp Real.log (refractory_example Real.exp Real.log)).neuron
        0).t_postspikes ∧
    ((IF_neuron.update Config.source Real.exp 0 101 101
        (Heap.single Real.exp Real.log (refractory_example Real.exp Real.log))).neuron
      0).force_spikes = [101] :=
  have h := (refractory_window_blocks_spike_check Config.source Real.exp 0 101 101
    (Heap.single Real.exp Real.log (refractory_example Real.exp Real.log))).1
    (by
      show (101 : ℝ) < 100 + 2
      norm_num)
  ⟨h.1, h.2.2.1⟩

end RefractoryGateInstances

/-! ## Neuron: the NO_RESET policy -/

section NoReset

variable {α : Type} [LinearOrderedField α]

/-- Inside the refractory window an update leaves the remembered `V_reset`,
`reset_done`, the last spike time, the forced queue and the parameters of the
refractory gate and of the inactivation variable as they were; in the
reset-option mode `h_spike` is relaxed towards `1`. -/
theorem update_window_members (cfg : Config α) (exp : α → α) (self i : Nat) (t : α)
    (h : Heap α)
    (href : t < (h.neuron self).t_last_spike + (h.neuron self).refractory_period) :
    ((IF_neuron.update cfg exp self i t h).neuron self).V_reset = (h.neuron self).V_reset ∧
    ((IF_neuron.update cfg exp self i t h).neuron self).reset_done =
      (h.neuron self).reset_done ∧
    ((IF_neuron.update cfg exp self i t h).neuron self).t_last_spike =
      (h.neuron self).t_last_spike ∧
    ((IF_neuron.update cfg exp self i t h).neuron self).refractory_period =
      (h.neuron self).refractory_period ∧
    ((IF_neuron.update cfg exp self i t h).neuron self).force_spikes =
      (h.neuron self).force_spikes ∧
    ((IF_neuron.update cfg exp self i t h).neuron self).tau_h = (h.neuron self).tau_h ∧
    ((IF_neuron.update cfg exp self i t h).neuron self).dh_spike = (h.neuron self).dh_spike ∧
    (cfg.classical_IF = false →
      ((IF_neuron.update cfg exp self i t h).neuron self).h_spike =
        (h.neuron self).h_spike + cfg.dt * (1 - (h.neuron self).h_spike) / (h.neuron self).tau_h)
    := by
  have hn1 := after_conductances_neuron_self cfg exp self i t h
  obtain ⟨v, s, hs, f, e⟩ := before_refractory_gate_frame cfg exp
    ((IF_neuron.after_conductances cfg exp self i t h).neuron self)
    (IF_neuron.after_conductances cfg exp self i t h) i
  obtain ⟨hv, -⟩ := before_refractory_gate_values cfg exp
    ((IF_neuron.after_conductances cfg exp self i t h).neuron self)
    (IF_neuron.after_conductances cfg exp self i t h) i
  rw [update_in_window cfg exp self i t h href, Heap.setNeuron_neuron_self]
  by_cases hc : cfg.classical_IF = true
  · rw [if_pos hc, hn1]
    refine ⟨rfl, rfl, rfl, rfl, rfl, rfl, rfl, fun hcf => ?_⟩
    rw [hc] at hcf
    exact absurd hcf (by decide)
  · rw [if_neg hc]
    refine ⟨?_, ?_, ?_, ?_, ?_, ?_, ?_, fun _ => ?_⟩
    · rw [e, hn1]
      rfl
    · rw [e, hn1]
      rfl
    · rw [e, hn1]
      rfl
    · rw [e, hn1]
      rfl
    · rw [e, hn1]
      rfl
    · rw [e, hn1]
      rfl
    · rw [e, hn1]
      rfl
    · rw [hv, hn1]
      rfl

/-- A run of updates that all lie inside the refractory window leaves the
remembered `V_reset`, `reset_done`, the last spike time and the refractory
period as they were. -/
theorem run_in_window (cfg : Config α) (exp : α → α) (self : Nat) (steps : List (Nat × α))
    (h : Heap α)
    (hall : ∀ s ∈ steps, s.2 < (h.neuron self).t_last_spike + (h.neuron self).refractory_period) :
    ((IF_neuron.run cfg exp self steps h).neuron self).V_reset = (h.neuron self).V_reset ∧
    ((IF_neuron.run cfg exp self steps h).neuron self).reset_done =
      (h.neuron self).reset_done ∧
    ((IF_neuron.run cfg exp self steps h).neuron self).t_last_spike =
      (h.neuron self).t_last_spike ∧
    ((IF_neuron.run cfg exp self steps h).neuron self).refractory_period =
      (h.neuron self).refractory_period := by
  induction steps generalizing h with
  | nil => exact ⟨rfl, rfl, rfl, rfl⟩
  | cons s rest ih =>
    obtain ⟨u1, u2, u3, u4, -⟩ := update_window_members cfg exp self s.1 s.2 h
      (hall s (List.mem_cons_self _ _))
    have hrun : IF_neuron.run cfg exp self (s :: rest) h =
        IF_neuron.run cfg exp self rest (IF_neuron.update cfg exp self s.1 s.2 h) := rfl
    obtain ⟨r1, r2, r3, r4⟩ := ih (IF_neuron.update cfg exp self s.1 s.2 h)
      (by
        intro s' hs'
        rw [u3, u4]
        exact hall s' (List.mem_cons_of_mem _ hs'))
    rw [hrun]
    exact ⟨r1.trans u1, r2.trans u2, r3.trans u3, r4.trans u4⟩

/-- Outside the refractory window with the restoration pending, under a policy
other than RESET_ONSET in the reset-option mode, an update brings to the spike
check a neuron with `Vm = V_reset + dV` and `reset_done` set, `dV` being `0`
under exponential Euler, and then calls the spike check. -/
theorem update_restores (cfg : Config α) (exp : α → α) (self i : Nat) (t : α) (h : Heap α)
    (hc : cfg.classical_IF = false) (hno : cfg.spike_option ≠ SpikeOption.RESET_ONSET)
    (hopen : t ≥ (h.neuron self).t_last_spike + (h.neuron self).refractory_period)
    (hrd : (h.neuron self).reset_done = false) :
    (IF_neuron.at_check cfg exp self i t h).Vm =
      (h.neuron self).V_reset + (IF_neuron.gate_input cfg exp self i t h).2.1 ∧
    (IF_neuron.at_check cfg exp self i t h).reset_done = true ∧
    (cfg.use_exponential_Euler = true → (IF_neuron.gate_input cfg exp self i t h).2.1 = 0) ∧
    (IF_neuron.update cfg exp self i t h).neuron self =
      (IF_neuron.at_check cfg exp self i t h).check_spiking_members cfg i t
        (IF_neuron.gate_input cfg exp self i t h).2.2 := by
  have hn1 := after_conductances_neuron_self cfg exp self i t h
  have hopen1 : t ≥ ((IF_neuron.after_conductances cfg exp self i t h).neuron self).t_last_spike +
      ((IF_neuron.after_conductances cfg exp self i t h).neuron self).refractory_period := by
    rw [hn1]
    exact hopen
  have hrd1 : ((IF_neuron.after_conductances cfg exp self i t h).neuron self).reset_done
      = false := by
    rw [hn1]
    exact hrd
  have hvr1 : ((IF_neuron.after_conductances cfg exp self i t h).neuron self).V_reset =
      (h.neuron self).V_reset := by
    rw [hn1]
    rfl
  obtain ⟨-, c2, c3⟩ := before_check_open cfg exp
    ((IF_neuron.after_conductances cfg exp self i t h).neuron self)
    (IF_neuron.after_conductances cfg exp self i t h) i t hc hopen1
  obtain ⟨-, hv⟩ := before_refractory_gate_values cfg exp
    ((IF_neuron.after_conductances cfg exp self i t h).neuron self)
    (IF_neuron.after_conductances cfg exp self i t h) i
  have hcond : cfg.spike_option ≠ SpikeOption.RESET_ONSET ∧
      ¬ ((IF_neuron.after_conductances cfg exp self i t h).neuron self).reset_done = true := by
    rw [hrd1]
    exact ⟨hno, Bool.false_ne_true⟩
  rw [if_pos hcond, hvr1] at c2
  rw [if_pos hcond] at c3
  exact ⟨c2, c3, hv, update_open cfg exp self i t h hc hopen⟩

/-- With `reset_done` set, in the reset-option mode, an update does not restore
`Vm`: the neuron brought to the spike check has the `Vm` of the integration
step and `reset_done` still set, and after the update `reset_done` is still
set unless the update took a spike. -/
theorem update_no_second_restore (cfg : Config α) (exp : α → α) (self i : Nat) (t : α)
    (h : Heap α) (hc : cfg.classical_IF = false) (hrd : (h.neuron self).reset_done = true) :
    (IF_neuron.at_check cfg exp self i t h).Vm =
      (IF_neuron.gate_input cfg exp self i t h).1.Vm ∧
    (IF_neuron.at_check cfg exp self i t h).reset_done = true ∧
    (((IF_neuron.update cfg exp self i t h).neuron self).reset_done = true ∨
      ∃ x : α, ((IF_neuron.update cfg exp self i t h).neuron self).t_postspikes =
        (h.neuron self).t_postspikes ++ [x]) := by
  have hn1 := after_conductances_neuron_self cfg exp self i t h
  have hrd1 : ((IF_neuron.after_conductances cfg exp self i t h).neuron self).reset_done
      = true := by
    rw [hn1]
    exact hrd
  have hc' : ¬ cfg.classical_IF = true := by
    rw [hc]
    exact Bool.false_ne_true
  have hM := before_check_reset_done cfg exp
    ((IF_neuron.after_conductances cfg exp self i t h).neuron self)
    (IF_neuron.after_conductances cfg exp self i t h) i t hrd1
  have hVm : (IF_neuron.at_check cfg exp self i t h).Vm =
      (IF_neuron.gate_input cfg exp self i t h).1.Vm := by
    by_cases hopen : t ≥ ((IF_neuron.after_conductances cfg exp self i t h).neuron self).t_last_spike
        + ((IF_neuron.after_conductances cfg exp self i t h).neuron self).refractory_period
    · obtain ⟨-, c2, -⟩ := before_check_open cfg exp
        ((IF_neuron.after_conductances cfg exp self i t h).neuron self)
        (IF_neuron.after_conductances cfg exp self i t h) i t hc hopen
      have hcond : ¬ (cfg.spike_option ≠ SpikeOption.RESET_ONSET ∧
          ¬ ((IF_neuron.after_conductances cfg exp self i t h).neuron self).reset_done = true) := by
        rw [hrd1]
        exact fun hx => hx.2 rfl
      rw [if_neg hcond] at c2
      exact c2
    · obtain ⟨-, c2⟩ := before_check_closed cfg exp
        ((IF_neuron.after_conductances cfg exp self i t h).neuron self)
        (IF_neuron.after_conductances cfg exp self i t h) i t (not_le.mp hopen)
      rw [if_neg hc'] at c2
      show (((IF_neuron.after_conductances cfg exp self i t h).neuron self).before_check cfg exp
        (IF_neuron.after_conductances cfg exp self i t h) i t).1.Vm = _
      rw [c2]
      rfl
  refine ⟨hVm, hM, ?_⟩
  obtain ⟨-, b2, -⟩ := pre_check_bookkeeping cfg exp self i t h
  obtain ⟨N, hN, hcases⟩ := update_neuron_cases cfg exp self i t h
  rw [← hN] at b2
  rcases hcases with c | ⟨f, rest, -, -, c⟩ | ⟨-, -, c⟩
  · left
    rw [c, hN]
    exact hM
  · right
    refine ⟨f, ?_⟩
    rw [c, ← b2]
    rfl
  · right
    refine ⟨t, ?_⟩
    rw [c, ← b2]
    rfl

/-- C22: under the NO_RESET policy in the reset-option mode, a spike taken when
the membrane voltage is `v` remembers `v` in `V_reset`, sets `Vm` to
`V_spike_depol` and clears `reset_done`; through any run of updates inside the
refractory window the restoration stays pending; the first update with
`t ≥ spike time + refractory_period` brings to the spike check a neuron with
`Vm = v + dV`, `dV` being that step's integration delta, which is `0` under
exponential Euler, and with `reset_done` set, and then runs the spike check.
The restoration happens once per spike: an update of a neuron with
`reset_done` set brings to the spike check the `Vm` of the integration step
unrestored, and `reset_done` stays set until an update takes a spike. -/
theorem no_reset_restores_exactly_once (cfg : Config α) (exp : α → α) (self : Nat)
    (hc : cfg.classical_IF = false) (hno : cfg.spike_option = SpikeOption.NO_RESET) :
    (∀ (h : Heap α) (i0 : Nat) (ts : α),
      ((IF_neuron.spike cfg exp self i0 ts h).neuron self).V_reset = (h.neuron self).Vm ∧
      ((IF_neuron.spike cfg exp self i0 ts h).neuron self).Vm = (h.neuron self).V_spike_depol ∧
      ((IF_neuron.spike cfg exp self i0 ts h).neuron self).reset_done = false ∧
      ∀ steps : List (Nat × α),
        (∀ s ∈ steps, s.2 < ts + (h.neuron self).refractory_period) →
        ((IF_neuron.run cfg exp self steps
          (IF_neuron.spike cfg exp self i0 ts h)).neuron self).reset_done = false ∧
        ∀ (i : Nat) (t : α), t ≥ ts + (h.neuron self).refractory_period →
          (IF_neuron.at_check cfg exp self i t
              (IF_neuron.run cfg exp self steps (IF_neuron.spike cfg exp self i0 ts h))).Vm =
            (h.neuron self).Vm +
              (IF_neuron.gate_input cfg exp self i t
                (IF_neuron.run cfg exp self steps (IF_neuron.spike cfg exp self i0 ts h))).2.1 ∧
          (IF_neuron.at_check cfg exp self i t
              (IF_neuron.run cfg exp self steps
                (IF_neuron.spike cfg exp self i0 ts h))).reset_done = true ∧
          (cfg.use_exponential_Euler = true →
            (IF_neuron.at_check cfg exp self i t
              (IF_neuron.run cfg exp self steps (IF_neuron.spike cfg exp self i0 ts h))).Vm =
              (h.neuron self).Vm) ∧
          (IF_neuron.update cfg exp self i t
              (IF_neuron.run cfg exp self steps
                (IF_neuron.spike cfg exp self i0 ts h))).neuron self =
            (IF_neuron.at_check cfg exp self i t
              (IF_neuron.run cfg exp self steps
                (IF_neuron.spike cfg exp self i0 ts h))).check_spiking_members cfg i t
              (IF_neuron.gate_input cfg exp self i t
                (IF_neuron.run cfg exp self steps
                  (IF_neuron.spike cfg exp self i0 ts h))).2.2) ∧
    (∀ (h : Heap α) (i : Nat) (t : α), (h.neuron self).reset_done = true →
      (IF_neuron.at_check cfg exp self i t h).Vm =
        (IF_neuron.gate_input cfg exp self i t h).1.Vm ∧
      (IF_neuron.at_check cfg exp self i t h).reset_done = true ∧
      (((IF_neuron.update cfg exp self i t h).neuron self).reset_done = true ∨
        ∃ x : α, ((IF_neuron.update cfg exp self i t h).neuron self).t_postspikes =
          (h.neuron self).t_postspikes ++ [x])) := by
  have hc' : ¬ cfg.classical_IF = true := by
    rw [hc]
    exact Bool.false_ne_true
  constructor
  · intro h i0 ts
    have hs := spike_neuron_self cfg exp self i0 ts h
    have s1 : ((IF_neuron.spike cfg exp self i0 ts h).neuron self).V_reset =
        (h.neuron self).Vm := by
      rw [hs]
      show (if ¬ cfg.classical_IF = true ∧ cfg.spike_option = SpikeOption.NO_RESET then
        (h.neuron self).Vm else (h.neuron self).V_reset) = _
      rw [if_pos ⟨hc', hno⟩]
    have s2 : ((IF_neuron.spike cfg exp self i0 ts h).neuron self).Vm =
        (h.neuron self).V_spike_depol := by
      rw [hs]
      show (if cfg.classical_IF = true then (h.neuron self).V_reset
        else (h.neuron self).V_spike_depol) = _
      rw [if_neg hc']
    have s3 : ((IF_neuron.spike cfg exp self i0 ts h).neuron self).reset_done = false := by
      rw [hs]
      rfl
    have s4 : ((IF_neuron.spike cfg exp self i0 ts h).neuron self).t_last_spike = ts := by
      rw [hs]
      rfl
    have s5 : ((IF_neuron.spike cfg exp self i0 ts h).neuron self).refractory_period =
        (h.neuron self).refractory_period := by
      rw [hs]
      rfl
    refine ⟨s1, s2, s3, ?_⟩
    intro steps hall
    obtain ⟨r1, r2, r3, r4⟩ := run_in_window cfg exp self steps
      (IF_neuron.spike cfg exp self i0 ts h)
      (by
        rw [s4, s5]
        exact hall)
    refine ⟨r2.trans s3, ?_⟩
    intro i t hopen
    have hne : cfg.spike_option ≠ SpikeOption.RESET_ONSET := by
      rw [hno]
      decide
    obtain ⟨d1, d2, d3, d4⟩ := update_restores cfg exp self i t
      (IF_neuron.run cfg exp self steps (IF_neuron.spike cfg exp self i0 ts h)) hc hne
      (by
        rw [r3, r4, s4, s5]
        exact hopen)
      (r2.trans s3)
    rw [r1, s1] at d1
    refine ⟨d1, d2, ?_, d4⟩
    intro hexp
    rw [d1, d3 hexp, add_zero]
  · intro h i t hrd
    exact update_no_second_restore cfg exp self i t h hc hrd

end NoReset

section NoResetInstances

/-- C22 instantiated at the freshly constructed example neuron under the
source's flags (NO_RESET, exponential Euler): a spike at `100` remembers `Vm`,
the update at `101` lies inside the refractory window, and the update at `102`
brings the remembered `Vm` back to the spike check. -/
theorem no_reset_restores_exactly_once_witness :
    ((IF_neuron.spike Config.source Real.exp 0 100 100
        (Heap.single Real.exp Real.log (fresh_example Real.exp Real.log))).neuron 0).V_reset =
      ((Heap.single Real.exp Real.log (fresh_example Real.exp Real.log)).neuron 0).Vm ∧
    (IF_neuron.at_check Config.source Real.exp 0 102 102
        (IF_neuron.run Config.source Real.exp 0 [(101, 101)]
          (IF_neuron.spike Config.source Real.exp 0 100 100
            (Heap.single Real.exp Real.log (fresh_example Real.exp Real.log))))).Vm =
      ((Heap.single Real.exp Real.log (fresh_example Real.exp Real.log)).neuron 0).Vm :=
  ⟨((no_reset_restores_exactly_once Config.source Real.exp 0 rfl rfl).1
      (Heap.single Real.exp Real.log (fresh_example Real.exp Real.log)) 100 100).1,
   ((((no_reset_restores_exactly_once Config.source Real.exp 0 rfl rfl).1
      (Heap.single Real.exp Real.log (fresh_example Real.exp Real.log)) 100 100).2.2.2
      [(101, 101)]
      (fun s hs => by
        rw [List.mem_singleton.mp hs]
        show (101 : ℝ) < 100 + 2
        norm_num)).2 102 102
      (by
        show (102 : ℝ) ≥ 100 + 2
        norm_num)).2.2.1 rfl⟩

end NoResetInstances

/-! ## Neuron: the inactivation variable has no floor -/

section Inactivation

variable {α : Type} [LinearOrderedField α]

/-- In the reset-option mode the statements up to the spike check relax
`h_spike` towards `1`. -/
theorem before_check_relaxes (cfg : Config α) (exp : α → α) (n : IF_neuron α) (h : Heap α)
    (i : Nat) (t : α) (hc : cfg.classical_IF = false) :
    (n.before_check cfg exp h i t).1.h_spike =
      n.h_spike + cfg.dt * (1 - n.h_spike) / n.tau_h := by
  obtain ⟨hv, -⟩ := before_refractory_gate_values cfg exp n h i
  have hc' : ¬ cfg.classical_IF = true := by
    rw [hc]
    exact Bool.false_ne_true
  unfold IF_neuron.before_check
  rw [if_neg hc']
  split
  · exact hv
  · exact hv

/-- A due forced spike outside the refractory window, in the reset-option mode:
`h_spike` is relaxed and then lowered by `dh_spike`, the head of the queue is
removed and recorded as the last spike time. -/
theorem update_forced_members (cfg : Config α) (exp : α → α) (self i : Nat) (t f : α)
    (rest : List α) (h : Heap α) (hc : cfg.classical_IF = false)
    (hq : (h.neuron self).force_spikes = f :: rest) (hf : t ≥ f)
    (hopen : t ≥ (h.neuron self).t_last_spike + (h.neuron self).refractory_period) :
    ((IF_neuron.update cfg exp self i t h).neuron self).h_spike =
      (h.neuron self).h_spike + cfg.dt * (1 - (h.neuron self).h_spike) / (h.neuron self).tau_h -
        (h.neuron self).dh_spike ∧
    ((IF_neuron.update cfg exp self i t h).neuron self).force_spikes = rest ∧
    ((IF_neuron.update cfg exp self i t h).neuron self).t_last_spike = f ∧
    ((IF_neuron.update cfg exp self i t h).neuron self).t_postspikes =
      (h.neuron self).t_postspikes ++ [f] ∧
    ((IF_neuron.update cfg exp self i t h).neuron self).tau_h = (h.neuron self).tau_h ∧
    ((IF_neuron.update cfg exp self i t h).neuron self).dh_spike = (h.neuron self).dh_spike ∧
    ((IF_neuron.update cfg exp self i t h).neuron self).refractory_period =
      (h.neuron self).refractory_period := by
  have hn1 := after_conductances_neuron_self cfg exp self i t h
  obtain ⟨b1, b2, -⟩ := pre_check_bookkeeping cfg exp self i t h
  obtain ⟨v, s, hs', fl, rd, e⟩ := before_check_frame cfg exp
    ((IF_neuron.after_conductances cfg exp self i t h).neuron self)
    (IF_neuron.after_conductances cfg exp self i t h) i t
  have hh := before_check_relaxes cfg exp
    ((IF_neuron.after_conductances cfg exp self i t h).neuron self)
    (IF_neuron.after_conductances cfg exp self i t h) i t hc
  have hdue : forced_due ((((IF_neuron.after_conductances cfg exp self i t h).neuron
      self).before_check cfg exp (IF_neuron.after_conductances cfg exp self i t h) i
      t).1.force_spikes) t = some f := by
    rw [b1, hq]
    simp [forced_due, hf]
  rw [update_open cfg exp self i t h hc hopen]
  unfold IF_neuron.check_spiking_members
  rw [hdue]
  simp only []
  generalize hM : (((IF_neuron.after_conductances cfg exp self i t h).neuron
      self).before_check cfg exp (IF_neuron.after_conductances cfg exp self i t h) i t).1 = M
    at b1 b2 e hh
  have m1 : M.dh_spike = (h.neuron self).dh_spike := by
    rw [e, hn1]
    rfl
  have m2 : M.tau_h = (h.neuron self).tau_h := by
    rw [e, hn1]
    rfl
  have m3 : M.refractory_period = (h.neuron self).refractory_period := by
    rw [e, hn1]
    rfl
  rw [hn1] at hh
  refine ⟨?_, ?_, rfl, ?_, m2, m1, m3⟩
  · show M.h_spike - M.dh_spike = _
    rw [hh, m1]
    rfl
  · show M.force_spikes.tail = rest
    rw [b1, hq]
    rfl
  · show M.t_postspikes ++ [f] = _
    rw [b2]

/-- A run of updates from a reachable heap ends in a reachable heap. -/
theorem run_reachable (cfg : Config α) (exp : α → α) (self : Nat) (steps : List (Nat × α))
    (h : Heap α) (hr : Reachable cfg exp self h) :
    Reachable cfg exp self (IF_neuron.run cfg exp self steps h) := by
  induction steps generalizing h with
  | nil => exact hr
  | cons s rest ih => exact ih _ (Reachable.update h s.1 s.2 hr)

/-- One update of the neuron at address `0` that takes a due forced spike,
under the flags of the source file (`dt = 1`) and with the default `tau_h = 50`,
`dh_spike = 0.2` and refractory period `2`. -/
theorem rapid_spike_step (exp : α → α) (i : Nat) (t x y f tl : α) (rest hist : List α)
    (h : Heap α)
    (hP : (h.neuron 0).h_spike = x ∧ (h.neuron 0).force_spikes = f :: rest ∧
      (h.neuron 0).t_last_spike = tl ∧ (h.neuron 0).t_postspikes = hist ∧
      (h.neuron 0).tau_h = 50 ∧ (h.neuron 0).dh_spike = 0.2 ∧
      (h.neuron 0).refractory_period = 2)
    (hf : t ≥ f) (hopen : t ≥ tl + 2) (hy : y = x + 1 * (1 - x) / 50 - 0.2) :
    ((IF_neuron.update Config.source exp 0 i t h).neuron 0).h_spike = y ∧
    ((IF_neuron.update Config.source exp 0 i t h).neuron 0).force_spikes = rest ∧
    ((IF_neuron.update Config.source exp 0 i t h).neuron 0).t_last_spike = f ∧
    ((IF_neuron.update Config.source exp 0 i t h).neuron 0).t_postspikes = hist ++ [f] ∧
    ((IF_neuron.update Config.source exp 0 i t h).neuron 0).tau_h = 50 ∧
    ((IF_neuron.update Config.source exp 0 i t h).neuron 0).dh_spike = 0.2 ∧
    ((IF_neuron.update Config.source exp 0 i t h).neuron 0).refractory_period = 2 := by
  obtain ⟨p1, p2, p3, p4, p5, p6, p7⟩ := hP
  obtain ⟨u1, u2, u3, u4, u5, u6, u7⟩ := update_forced_members Config.source exp 0 i t f rest h
    rfl p2 hf
    (by
      rw [p3, p7]
      exact hopen)
  rw [u1, u2, u3, u4, u5, u6, u7, p1, p4, p5, p6, p7, hy]
  exact ⟨rfl, rfl, rfl, rfl, rfl, rfl, rfl⟩

/-- One update of the neuron at address `0` inside the refractory window, under
the flags of the source file and with the default `tau_h = 50`. -/
theorem rapid_window_step (exp : α → α) (i : Nat) (t x y tl : α) (queue hist : List α)
    (h : Heap α)
    (hP : (h.neuron 0).h_spike = x ∧ (h.neuron 0).force_spikes = queue ∧
      (h.neuron 0).t_last_spike = tl ∧ (h.neuron 0).t_postspikes = hist ∧
      (h.neuron 0).tau_h = 50 ∧ (h.neuron 0).dh_spike = 0.2 ∧
      (h.neuron 0).refractory_period = 2)
    (href : t < tl + 2) (hy : y = x + 1 * (1 - x) / 50) :
    ((IF_neuron.update Config.source exp 0 i t h).neuron 0).h_spike = y ∧
    ((IF_neuron.update Config.source exp 0 i t h).neuron 0).force_spikes = queue ∧
    ((IF_neuron.update Config.source exp 0 i t h).neuron 0).t_last_spike = tl ∧
    ((IF_neuron.update Config.source exp 0 i t h).neuron 0).t_postspikes = hist ∧
    ((IF_neuron.update Config.source exp 0 i t h).neuron 0).tau_h = 50 ∧
    ((IF_neuron.update Config.source exp 0 i t h).neuron 0).dh_spike = 0.2 ∧
    ((IF_neuron.update Config.source exp 0 i t h).neuron 0).refractory_period = 2 := by
  obtain ⟨p1, p2, p3, p4, p5, p6, p7⟩ := hP
  have href' : t < (h.neuron 0).t_last_spike + (h.neuron 0).refractory_period := by
    rw [p3, p7]
    exact href
  obtain ⟨-, -, u3, u4, u5, u6, u7, u8⟩ := update_window_members Config.source exp 0 i t h href'
  obtain ⟨-, k2, -⟩ := update_in_refractory_bookkeeping Config.source exp 0 i t h href'
  rw [u8 rfl, u3, u4, u5, u6, u7, k2, p1, p2, p3, p4, p5, p6, p7, hy]
  exact ⟨rfl, rfl, rfl, rfl, rfl, rfl, rfl⟩

/-- C23: `spike()` lowers the inactivation variable `h_spike` by exactly
`dh_spike` whatever its current value, with no lower clamp, and `h_spike` can
become negative: from the freshly constructed neuron with forced spikes
scheduled every refractory period (`0, 2, ..., 10` ms; default
`dh_spike = 0.2`, `tau_h = 50`, `dt = 1`), the update calls of steps `0` to `10`
take the six scheduled spikes and reach a state with
`h_spike = -0.087289274066666498048 < 0`. -/
theorem h_spike_can_become_negative (exp log : α → α) :
    (∀ (cfg : Config α) (self i : Nat) (t : α) (h : Heap α),
      ((IF_neuron.spike cfg exp self i t h).neuron self).h_spike =
        (h.neuron self).h_spike - (h.neuron self).dh_spike) ∧
    ((Heap.single exp log (rapid_example exp log)).neuron 0).constructed ∧
    Reachable Config.source exp 0
      (IF_neuron.run Config.source exp 0 rapid_steps
        (Heap.single exp log (rapid_example exp log))) ∧
    ((IF_neuron.run Config.source exp 0 rapid_steps
        (Heap.single exp log (rapid_example exp log))).neuron 0).t_postspikes =
      [0, 2, 4, 6, 8, 10] ∧
    ((IF_neuron.run Config.source exp 0 rapid_steps
        (Heap.single exp log (rapid_example exp log))).neuron 0).h_spike =
      -0.087289274066666498048 ∧
    ((IF_neuron.run Config.source exp 0 rapid_steps
        (Heap.single exp log (rapid_example exp log))).neuron 0).h_spike < 0 := by
  have hcon : ((Heap.single exp log (rapid_example exp log)).neuron 0).constructed :=
    init_constructed _ _ _ _ _ _ _
  have P0 : ((Heap.single exp log (rapid_example exp log)).neuron 0).h_spike = 1.0 ∧
      ((Heap.single exp log (rapid_example exp log)).neuron 0).force_spikes =
        0 :: [2, 4, 6, 8, 10] ∧
      ((Heap.single exp log (rapid_example exp log)).neuron 0).t_last_spike = -1000 ∧
      ((Heap.single exp log (rapid_example exp log)).neuron 0).t_postspikes = [] ∧
      ((Heap.single exp log (rapid_example exp log)).neuron 0).tau_h = 50 ∧
      ((Heap.single exp log (rapid_example exp log)).neuron 0).dh_spike = 0.2 ∧
      ((Heap.single exp log (rapid_example exp log)).neuron 0).refractory_period = 2 :=
    ⟨rfl, rfl, rfl, rfl, rfl, rfl, rfl⟩
  have P1 := rapid_spike_step exp 0 0 1.0 0.8 0 (-1000) [2, 4, 6, 8, 10] []
    _ P0 (by norm_num) (by norm_num) (by norm_num)
  have P2 := rapid_window_step exp 1 1 0.8 0.804 0 [2, 4, 6, 8, 10] [0]
    _ P1 (by norm_num) (by norm_num)
  have P3 := rapid_spike_step exp 2 2 0.804 0.60792 2 0 [4, 6, 8, 10] [0]
    _ P2 (by norm_num) (by norm_num) (by norm_num)
  have P4 := rapid_window_step exp 3 3 0.60792 0.6157616 2 [4, 6, 8, 10] [0, 2]
    _ P3 (by norm_num) (by norm_num)
  have P5 := rapid_spike_step exp 4 4 0.6157616 0.423446368 4 2 [6, 8, 10] [0, 2]
    _ P4 (by norm_num) (by norm_num) (by norm_num)
  have P6 := rapid_window_step exp 5 5 0.423446368 0.43497744064 4 [6, 8, 10] [0, 2, 4]
    _ P5 (by norm_num) (by norm_num)
  have P7 := rapid_spike_step exp 6 6 0.43497744064 0.2462778918272 6 4 [8, 10] [0, 2, 4]
    _ P6 (by norm_num) (by norm_num) (by norm_num)
  have P8 := rapid_window_step exp 7 7 0.2462778918272 0.261352333990656 6 [8, 10] [0, 2, 4, 6]
    _ P7 (by norm_num) (by norm_num)
  have P9 := rapid_spike_step exp 8 8 0.261352333990656 0.07612528731084288 8 6 [10] [0, 2, 4, 6]
    _ P8 (by norm_num) (by norm_num) (by norm_num)
  have P10 := rapid_window_step exp 9 9 0.07612528731084288 0.0946027815646260224 8 [10] [0, 2, 4, 6, 8]
    _ P9 (by norm_num) (by norm_num)
  have P11 := rapid_spike_step exp 10 10 0.0946027815646260224 (-0.087289274066666498048) 10 8 [] [0, 2, 4, 6, 8]
    _ P10 (by norm_num) (by norm_num) (by norm_num)
  have hneg : (-0.087289274066666498048 : α) < 0 := by norm_num
  refine ⟨?_, hcon, run_reachable _ _ _ _ _ (Reachable.constructed _ hcon), ?_, ?_, ?_⟩
  · intro cfg self i t h
    rw [spike_neuron_self]
    rfl
  · exact P11.2.2.2.1
  · exact P11.1
  · exact lt_of_eq_of_lt P11.1 hneg

end Inactivation

/-! ## Rounding to the nearest double -/

section Quantum

end Quantum

section Rounding

variable {α : Type} [LinearOrderedField α] [FloorRing α]

end Rounding

/-! ## Synapse: repeated pairing in double arithmetic -/

section DoublePairing

variable {α : Type} [LinearOrderedField α] [FloorRing α]

end DoublePairing

section DoublePairingReal

end DoublePairingReal

end IFStdp
